import Mathlib

/-!
Shallow embedding of the subscript-display math layout engine.

Lengths are modelled as rationals (`ℚ`): the Rust source stores every
length as an `f64` tagged with a phantom unit (`Font`, `Em`, `Px`); the
arithmetic the engine performs (addition, subtraction, scalar
multiplication, `max`/`min`) is embedded verbatim over `ℚ`, which keeps
every structural identity of the source exact.  Unit tags are tracked
in comments and in the names of the definitions.

Source files embedded here:
  src/layout/mod.rs      (Style, Layout, LayoutNode, Alignment)
  src/layout/spacing.rs  (atom_space, Spacing)
  src/layout/builders.rs (HBox, VBox, kern!, rule!, color)
  src/layout/convert.rs  (AsLayoutNode, Scaled)
  src/layout/engine.rs   (layout, layout_recurse, dispatch and handlers)
  src/font/mod.rs        (FontContext, Constants, Glyph)
  src/font/kerning.rs    (superscript_kern, subscript_kern)
  src/ast/nodes.rs       (ParseNode and friends)
  src/ast/color.rs       (RGBA, COLOR_MAP, RGBA::from_name)
  src/render/mod.rs      (Renderer)
-/

set_option autoImplicit false
set_option maxRecDepth 100000

namespace SubscriptDisplay

/-! ## Atom types (external crate `unicode_math`, modelled from the spec §3.2)

The `AtomType` enumeration comes from the external `unicode-math` crate; the
spec lists its variants as
`{Ordinal, Alpha, Binary, Relation, Open, Close, Fence, Punctuation, Inner,
  Accent, Operator(limits: bool), Transparent}`. -/

inductive AtomType where
  | Ordinal
  | Alpha
  | Binary
  | Relation
  | Open
  | Close
  | Fence
  | Punctuation
  | Inner
  | Accent
  | Operator (limits : Bool)
  | Transparent
  deriving DecidableEq, Repr, Fintype

/-! ## Styles (src/layout/mod.rs lines 270-353)

Rust declares the eight variants in this order and derives
`PartialOrd, Ord`, i.e. the total order is the declaration
(discriminant) order. -/

inductive Style where
  | ScriptScriptCramped
  | ScriptScript
  | ScriptCramped
  | Script
  | TextCramped
  | Text
  | DisplayCramped
  | Display
  deriving DecidableEq, Repr, Fintype

namespace Style

/-- The discriminant assigned by declaration order; Rust's derived
`Ord` on a fieldless enum compares discriminants. -/
def discr : Style → Nat
  | .ScriptScriptCramped => 0
  | .ScriptScript => 1
  | .ScriptCramped => 2
  | .Script => 3
  | .TextCramped => 4
  | .Text => 5
  | .DisplayCramped => 6
  | .Display => 7

/-- `<` from the derived `Ord` (src/layout/mod.rs line 271). -/
def lt (a b : Style) : Bool := a.discr < b.discr

/-- `<=` from the derived `Ord`. -/
def le (a b : Style) : Bool := a.discr ≤ b.discr

/-- src/layout/mod.rs lines 291-299 -/
def cramped : Style → Style
  | .ScriptScriptCramped | .ScriptScript => .ScriptScriptCramped
  | .ScriptCramped | .Script => .ScriptCramped
  | .TextCramped | .Text => .TextCramped
  | .DisplayCramped | .Display => .DisplayCramped

/-- src/layout/mod.rs lines 301-309 -/
def superscript_variant : Style → Style
  | .Display | .Text => .Script
  | .DisplayCramped | .TextCramped => .ScriptCramped
  | .Script | .ScriptScript => .ScriptScript
  | .ScriptCramped | .ScriptScriptCramped => .ScriptScriptCramped

/-- src/layout/mod.rs lines 311-321 -/
def subscript_variant : Style → Style
  | .Display | .Text | .DisplayCramped | .TextCramped => .ScriptCramped
  | .Script | .ScriptScript | .ScriptCramped | .ScriptScriptCramped =>
      .ScriptScriptCramped

/-- src/layout/mod.rs lines 332-337 -/
def is_cramped : Style → Bool
  | .Display | .Text | .Script | .ScriptScript => false
  | _ => true

/-- src/layout/mod.rs lines 339-345 -/
def numerator : Style → Style
  | .Display => .Text
  | .DisplayCramped => .TextCramped
  | s => s.superscript_variant

/-- src/layout/mod.rs lines 347-352 -/
def denominator : Style → Style
  | .Display | .DisplayCramped => .TextCramped
  | s => s.subscript_variant

end Style

/-! ## Spacing (src/layout/spacing.rs) -/

inductive Spacing where
  | None
  | Thin
  | Medium
  | Thick
  deriving DecidableEq, Repr, Fintype

/-- src/layout/spacing.rs lines 5-49, ported arm by arm.  The Rust
match is first-match-wins; the arms are disjoint except for the
wildcard rows, which are ported as the final fallbacks. -/
def atom_space (left right : AtomType) (style : Style) : Spacing :=
  if Style.le .TextCramped style then
    match left, right with
    | .Alpha, .Operator _ => .Thin
    | .Alpha, .Binary => .Medium
    | .Alpha, .Relation => .Thick
    | .Alpha, .Inner => .Thin
    | .Operator _, .Alpha => .Thin
    | .Operator _, .Operator _ => .Thin
    | .Operator _, .Relation => .Thick
    | .Operator _, .Inner => .Thin
    | .Binary, .Alpha => .Medium
    | .Binary, .Operator _ => .Medium
    | .Binary, .Open => .Medium
    | .Binary, .Inner => .Medium
    | .Relation, .Alpha => .Thick
    | .Relation, .Operator _ => .Thick
    | .Relation, .Open => .Thick
    | .Relation, .Inner => .Thick
    | .Close, .Operator _ => .Thin
    | .Close, .Binary => .Medium
    | .Close, .Relation => .Thick
    | .Close, .Inner => .Thin
    | .Inner, .Binary => .Medium
    | .Inner, .Relation => .Thick
    | .Inner, .Close => .None
    | .Inner, _ => .Thin
    | .Punctuation, _ => .Thin
    | _, _ => .None
  else
    match left, right with
    | .Alpha, .Operator _ => .Thin
    | .Operator _, .Alpha => .Thin
    | .Operator _, .Operator _ => .Thin
    | .Close, .Operator _ => .Thin
    | .Inner, .Operator _ => .Thin
    | _, _ => .None

/-- src/layout/spacing.rs lines 59-68: the spacing length in em units. -/
def Spacing.to_length : Spacing → ℚ
  | .None => 0
  | .Thin => 1 / 6
  | .Medium => 2 / 9
  | .Thick => 1 / 3

/-! ## Binary coercion (src/layout/engine.rs lines 43-55)

The engine reclassifies a `Binary` atom as `Alpha` depending on the
previous (already coerced) atom and the next atom.  This is the exact
if-chain from `layout_recurse`. -/

def binaryCoerce (prev current next : AtomType) : AtomType :=
  if current = .Binary then
    if prev = .Transparent ∨ prev = .Binary ∨ prev = .Relation ∨
       prev = .Open ∨ prev = .Punctuation then
      .Alpha
    else if (match prev with | .Operator _ => true | _ => false) then
      .Alpha
    else if next = .Relation ∨ next = .Close ∨ next = .Punctuation then
      .Alpha
    else
      current
  else
    current


/-! ## Color names (src/ast/color.rs)

`RGBA::from_name` performs `COLOR_MAP.binary_search_by_key(&name, ...)`.
The channels are `u8`; we model them as `Nat`. -/

structure RGBA where
  r : Nat
  g : Nat
  b : Nat
  a : Nat
  deriving DecidableEq, Repr

/-- src/ast/color.rs lines 23-174: the table exactly as written in the
source, in source order (the first 17 entries are the CSS "basic"
colors, which are *not* in alphabetical position). -/
def COLOR_MAP : List (String × RGBA) := [
  ("black", RGBA.mk 0 0 0 255),
  ("silver", RGBA.mk 192 192 192 255),
  ("gray", RGBA.mk 128 128 128 255),
  ("white", RGBA.mk 255 255 255 255),
  ("maroon", RGBA.mk 128 0 0 255),
  ("red", RGBA.mk 255 0 0 255),
  ("purple", RGBA.mk 128 0 128 255),
  ("fuchsia", RGBA.mk 255 0 255 255),
  ("green", RGBA.mk 0 128 0 255),
  ("lime", RGBA.mk 0 255 0 255),
  ("olive", RGBA.mk 128 128 0 255),
  ("yellow", RGBA.mk 255 255 0 255),
  ("navy", RGBA.mk 0 0 128 255),
  ("blue", RGBA.mk 0 0 255 255),
  ("teal", RGBA.mk 0 128 128 255),
  ("aqua", RGBA.mk 0 255 255 255),
  ("orange", RGBA.mk 255 165 0 255),
  ("aliceblue", RGBA.mk 240 248 255 255),
  ("antiquewhite", RGBA.mk 250 235 215 255),
  ("aquamarine", RGBA.mk 127 255 212 255),
  ("azure", RGBA.mk 240 255 255 255),
  ("beige", RGBA.mk 245 245 220 255),
  ("bisque", RGBA.mk 255 228 196 255),
  ("blanchedalmond", RGBA.mk 255 235 205 255),
  ("blueviolet", RGBA.mk 138 43 226 255),
  ("brown", RGBA.mk 165 42 42 255),
  ("burlywood", RGBA.mk 222 184 135 255),
  ("cadetblue", RGBA.mk 95 158 160 255),
  ("chartreuse", RGBA.mk 127 255 0 255),
  ("chocolate", RGBA.mk 210 105 30 255),
  ("coral", RGBA.mk 255 127 80 255),
  ("cornflowerblue", RGBA.mk 100 149 237 255),
  ("cornsilk", RGBA.mk 255 248 220 255),
  ("crimson", RGBA.mk 220 20 60 255),
  ("cyan", RGBA.mk 0 255 255 255),
  ("darkblue", RGBA.mk 0 0 139 255),
  ("darkcyan", RGBA.mk 0 139 139 255),
  ("darkgoldenrod", RGBA.mk 184 134 11 255),
  ("darkgray", RGBA.mk 169 169 169 255),
  ("darkgreen", RGBA.mk 0 100 0 255),
  ("darkgrey", RGBA.mk 169 169 169 255),
  ("darkkhaki", RGBA.mk 189 183 107 255),
  ("darkmagenta", RGBA.mk 139 0 139 255),
  ("darkolivegreen", RGBA.mk 85 107 47 255),
  ("darkorange", RGBA.mk 255 140 0 255),
  ("darkorchid", RGBA.mk 153 50 204 255),
  ("darkred", RGBA.mk 139 0 0 255),
  ("darksalmon", RGBA.mk 233 150 122 255),
  ("darkseagreen", RGBA.mk 143 188 143 255),
  ("darkslateblue", RGBA.mk 72 61 139 255),
  ("darkslategray", RGBA.mk 47 79 79 255),
  ("darkslategrey", RGBA.mk 47 79 79 255),
  ("darkturquoise", RGBA.mk 0 206 209 255),
  ("darkviolet", RGBA.mk 148 0 211 255),
  ("deeppink", RGBA.mk 255 20 147 255),
  ("deepskyblue", RGBA.mk 0 191 255 255),
  ("dimgray", RGBA.mk 105 105 105 255),
  ("dimgrey", RGBA.mk 105 105 105 255),
  ("dodgerblue", RGBA.mk 30 144 255 255),
  ("firebrick", RGBA.mk 178 34 34 255),
  ("floralwhite", RGBA.mk 255 250 240 255),
  ("forestgreen", RGBA.mk 34 139 34 255),
  ("gainsboro", RGBA.mk 220 220 220 255),
  ("ghostwhite", RGBA.mk 248 248 255 255),
  ("gold", RGBA.mk 255 215 0 255),
  ("goldenrod", RGBA.mk 218 165 32 255),
  ("greenyellow", RGBA.mk 173 255 47 255),
  ("grey", RGBA.mk 128 128 128 255),
  ("honeydew", RGBA.mk 240 255 240 255),
  ("hotpink", RGBA.mk 255 105 180 255),
  ("indianred", RGBA.mk 205 92 92 255),
  ("indigo", RGBA.mk 75 0 130 255),
  ("ivory", RGBA.mk 255 255 240 255),
  ("khaki", RGBA.mk 240 230 140 255),
  ("lavender", RGBA.mk 230 230 250 255),
  ("lavenderblush", RGBA.mk 255 240 245 255),
  ("lawngreen", RGBA.mk 124 252 0 255),
  ("lemonchiffon", RGBA.mk 255 250 205 255),
  ("lightblue", RGBA.mk 173 216 230 255),
  ("lightcoral", RGBA.mk 240 128 128 255),
  ("lightcyan", RGBA.mk 224 255 255 255),
  ("lightgoldenrodyellow", RGBA.mk 250 250 210 255),
  ("lightgray", RGBA.mk 211 211 211 255),
  ("lightgreen", RGBA.mk 144 238 144 255),
  ("lightgrey", RGBA.mk 211 211 211 255),
  ("lightpink", RGBA.mk 255 182 193 255),
  ("lightsalmon", RGBA.mk 255 160 122 255),
  ("lightseagreen", RGBA.mk 32 178 170 255),
  ("lightskyblue", RGBA.mk 135 206 250 255),
  ("lightslategray", RGBA.mk 119 136 153 255),
  ("lightslategrey", RGBA.mk 119 136 153 255),
  ("lightsteelblue", RGBA.mk 176 196 222 255),
  ("lightyellow", RGBA.mk 255 255 224 255),
  ("limegreen", RGBA.mk 50 205 50 255),
  ("linen", RGBA.mk 250 240 230 255),
  ("magenta", RGBA.mk 255 0 255 255),
  ("mediumaquamarine", RGBA.mk 102 205 170 255),
  ("mediumblue", RGBA.mk 0 0 205 255),
  ("mediumorchid", RGBA.mk 186 85 211 255),
  ("mediumpurple", RGBA.mk 147 112 219 255),
  ("mediumseagreen", RGBA.mk 60 179 113 255),
  ("mediumslateblue", RGBA.mk 123 104 238 255),
  ("mediumspringgreen", RGBA.mk 0 250 154 255),
  ("mediumturquoise", RGBA.mk 72 209 204 255),
  ("mediumvioletred", RGBA.mk 199 21 133 255),
  ("midnightblue", RGBA.mk 25 25 112 255),
  ("mintcream", RGBA.mk 245 255 250 255),
  ("mistyrose", RGBA.mk 255 228 225 255),
  ("moccasin", RGBA.mk 255 228 181 255),
  ("navajowhite", RGBA.mk 255 222 173 255),
  ("oldlace", RGBA.mk 253 245 230 255),
  ("olivedrab", RGBA.mk 107 142 35 255),
  ("orangered", RGBA.mk 255 69 0 255),
  ("orchid", RGBA.mk 218 112 214 255),
  ("palegoldenrod", RGBA.mk 238 232 170 255),
  ("palegreen", RGBA.mk 152 251 152 255),
  ("paleturquoise", RGBA.mk 175 238 238 255),
  ("palevioletred", RGBA.mk 219 112 147 255),
  ("papayawhip", RGBA.mk 255 239 213 255),
  ("peachpuff", RGBA.mk 255 218 185 255),
  ("peru", RGBA.mk 205 133 63 255),
  ("pink", RGBA.mk 255 192 203 255),
  ("plum", RGBA.mk 221 160 221 255),
  ("powderblue", RGBA.mk 176 224 230 255),
  ("rosybrown", RGBA.mk 188 143 143 255),
  ("royalblue", RGBA.mk 65 105 225 255),
  ("saddlebrown", RGBA.mk 139 69 19 255),
  ("salmon", RGBA.mk 250 128 114 255),
  ("sandybrown", RGBA.mk 244 164 96 255),
  ("seagreen", RGBA.mk 46 139 87 255),
  ("seashell", RGBA.mk 255 245 238 255),
  ("sienna", RGBA.mk 160 82 45 255),
  ("skyblue", RGBA.mk 135 206 235 255),
  ("slateblue", RGBA.mk 106 90 205 255),
  ("slategray", RGBA.mk 112 128 144 255),
  ("slategrey", RGBA.mk 112 128 144 255),
  ("snow", RGBA.mk 255 250 250 255),
  ("springgreen", RGBA.mk 0 255 127 255),
  ("steelblue", RGBA.mk 70 130 180 255),
  ("tan", RGBA.mk 210 180 140 255),
  ("thistle", RGBA.mk 216 191 216 255),
  ("tomato", RGBA.mk 255 99 71 255),
  ("turquoise", RGBA.mk 64 224 208 255),
  ("violet", RGBA.mk 238 130 238 255),
  ("wheat", RGBA.mk 245 222 179 255),
  ("whitesmoke", RGBA.mk 245 245 245 255),
  ("yellowgreen", RGBA.mk 154 205 50 255),
  ("rebeccapurple", RGBA.mk 102 51 153 255),
  ("phantom", RGBA.mk 0 0 0 0),
  ("transparent", RGBA.mk 0 0 0 0)
]

/-- The loop of Rust core's `slice::binary_search_by`, specialised to
`binary_search_by_key(&name, |&(name, _)| name)` as called by
`RGBA::from_name`.  The state is `(size, left, right)` with
`size = right - left` recomputed at the end of each iteration; each
iteration strictly decreases `size`, so `tbl.length + 1` units of fuel
are never exhausted.  `none` is returned both for Rust's `Err(_)`
(key not found at the probe positions) and on fuel exhaustion, which
`from_name` maps to `None` anyway. -/
def binarySearchGo (tbl : List (String × RGBA)) (key : String) :
    Nat → Nat → Nat → Nat → Option Nat
  | 0, _, _, _ => none
  | fuel+1, size, left, right =>
    if left < right then
      let mid := left + size / 2
      match tbl.get? mid with
      | none => none
      | some (name, _) =>
        match compare name key with
        | .lt => binarySearchGo tbl key fuel (right - (mid + 1)) (mid + 1) right
        | .gt => binarySearchGo tbl key fuel (mid - left) left mid
        | .eq => some mid
    else
      none

/-- src/ast/color.rs lines 9-14: `RGBA::from_name`. -/
def RGBA.from_name (name : String) : Option RGBA :=
  match binarySearchGo COLOR_MAP name (COLOR_MAP.length + 1)
      COLOR_MAP.length 0 COLOR_MAP.length with
  | some idx => (COLOR_MAP.get? idx).map Prod.snd
  | none => none


/-! ## Font MATH constants (src/font/mod.rs lines 85-193)

`MathConstants` is the record supplied by the external `font` crate
(the OpenType MATH constants table, spec interface section 6.1); each field
below models the design-unit payload (`.value` for the `MathValueRecord`
fields) as a rational.  It includes `subscript_shift_down`, which the
OpenType table provides but which `Constants::new` never reads. -/

structure MathConstants where
  subscript_shift_down : ℚ
  subscript_top_max : ℚ
  subscript_baseline_drop_min : ℚ
  superscript_baseline_drop_max : ℚ
  superscript_bottom_min : ℚ
  superscript_shift_up_cramped : ℚ
  superscript_shift_up : ℚ
  sub_superscript_gap_min : ℚ
  upper_limit_baseline_rise_min : ℚ
  upper_limit_gap_min : ℚ
  lower_limit_gap_min : ℚ
  lower_limit_baseline_drop_min : ℚ
  fraction_rule_thickness : ℚ
  fraction_numerator_display_style_shift_up : ℚ
  fraction_denominator_display_style_shift_down : ℚ
  fraction_num_display_style_gap_min : ℚ
  fraction_denom_display_style_gap_min : ℚ
  fraction_numerator_shift_up : ℚ
  fraction_denominator_shift_down : ℚ
  fraction_numerator_gap_min : ℚ
  fraction_denominator_gap_min : ℚ
  axis_height : ℚ
  accent_base_height : ℚ
  delimited_sub_formula_min_height : ℚ
  display_operator_min_height : ℚ
  radical_display_style_vertical_gap : ℚ
  radical_vertical_gap : ℚ
  radical_rule_thickness : ℚ
  radical_extra_ascender : ℚ
  stack_display_style_gap_min : ℚ
  stack_top_display_style_shift_up : ℚ
  stack_top_shift_up : ℚ
  stack_bottom_shift_down : ℚ
  stack_gap_min : ℚ
  script_percent_scale_down : ℚ
  script_script_percent_scale_down : ℚ

/-- src/font/mod.rs lines 85-135: the cached constants, in em units
(except the two dimensionless percent factors and `delimiter_factor`). -/
structure Constants where
  subscript_shift_down : ℚ
  subscript_top_max : ℚ
  subscript_baseline_drop_min : ℚ
  superscript_baseline_drop_max : ℚ
  superscript_bottom_min : ℚ
  superscript_shift_up_cramped : ℚ
  superscript_shift_up : ℚ
  sub_superscript_gap_min : ℚ
  upper_limit_baseline_rise_min : ℚ
  upper_limit_gap_min : ℚ
  lower_limit_gap_min : ℚ
  lower_limit_baseline_drop_min : ℚ
  fraction_rule_thickness : ℚ
  fraction_numerator_display_style_shift_up : ℚ
  fraction_denominator_display_style_shift_down : ℚ
  fraction_num_display_style_gap_min : ℚ
  fraction_denom_display_style_gap_min : ℚ
  fraction_numerator_shift_up : ℚ
  fraction_denominator_shift_down : ℚ
  fraction_numerator_gap_min : ℚ
  fraction_denominator_gap_min : ℚ
  axis_height : ℚ
  accent_base_height : ℚ
  delimited_sub_formula_min_height : ℚ
  display_operator_min_height : ℚ
  radical_display_style_vertical_gap : ℚ
  radical_vertical_gap : ℚ
  radical_rule_thickness : ℚ
  radical_extra_ascender : ℚ
  stack_display_style_gap_min : ℚ
  stack_top_display_style_shift_up : ℚ
  stack_top_shift_up : ℚ
  stack_bottom_shift_down : ℚ
  stack_gap_min : ℚ
  delimiter_factor : ℚ
  delimiter_short_fall : ℚ
  null_delimiter_space : ℚ
  script_percent_scale_down : ℚ
  script_script_percent_scale_down : ℚ

/-- src/font/mod.rs lines 137-192: `Constants::new`.  The local closure
`em(v) = Length::new(v, Font) * font_units_to_em` is the multiplication
by the font-unit-to-em scale factor.  Note line 142: the
`subscript_shift_down` field is initialized from
`math.subscript_top_max`. -/
def Constants.new (math : MathConstants) (font_units_to_em : ℚ) : Constants :=
  let em := fun (v : ℚ) => v * font_units_to_em
  { subscript_shift_down := em math.subscript_top_max
    subscript_top_max := em math.subscript_top_max
    subscript_baseline_drop_min := em math.subscript_baseline_drop_min
    superscript_baseline_drop_max := em math.superscript_baseline_drop_max
    superscript_bottom_min := em math.superscript_bottom_min
    superscript_shift_up_cramped := em math.superscript_shift_up_cramped
    superscript_shift_up := em math.superscript_shift_up
    sub_superscript_gap_min := em math.sub_superscript_gap_min
    upper_limit_baseline_rise_min := em math.upper_limit_baseline_rise_min
    upper_limit_gap_min := em math.upper_limit_gap_min
    lower_limit_gap_min := em math.lower_limit_gap_min
    lower_limit_baseline_drop_min := em math.lower_limit_baseline_drop_min
    fraction_rule_thickness := em math.fraction_rule_thickness
    fraction_numerator_display_style_shift_up :=
      em math.fraction_numerator_display_style_shift_up
    fraction_denominator_display_style_shift_down :=
      em math.fraction_denominator_display_style_shift_down
    fraction_num_display_style_gap_min := em math.fraction_num_display_style_gap_min
    fraction_denom_display_style_gap_min := em math.fraction_denom_display_style_gap_min
    fraction_numerator_shift_up := em math.fraction_numerator_shift_up
    fraction_denominator_shift_down := em math.fraction_denominator_shift_down
    fraction_numerator_gap_min := em math.fraction_numerator_gap_min
    fraction_denominator_gap_min := em math.fraction_denominator_gap_min
    axis_height := em math.axis_height
    accent_base_height := em math.accent_base_height
    delimited_sub_formula_min_height := em math.delimited_sub_formula_min_height
    display_operator_min_height := em math.display_operator_min_height
    radical_display_style_vertical_gap := em math.radical_display_style_vertical_gap
    radical_vertical_gap := em math.radical_vertical_gap
    radical_rule_thickness := em math.radical_rule_thickness
    radical_extra_ascender := em math.radical_extra_ascender
    stack_display_style_gap_min := em math.stack_display_style_gap_min
    stack_top_display_style_shift_up := em math.stack_top_display_style_shift_up
    stack_top_shift_up := em math.stack_top_shift_up
    stack_bottom_shift_down := em math.stack_bottom_shift_down
    stack_gap_min := em math.stack_gap_min
    delimiter_factor := 901 / 1000
    delimiter_short_fall := 1 / 10
    null_delimiter_space := 1 / 10
    script_percent_scale_down := (1 / 100) * math.script_percent_scale_down
    script_script_percent_scale_down :=
      (1 / 100) * math.script_script_percent_scale_down }

/-! ## Delimiter clearance formulas

Both handlers compute, from the assembled inner box's height and depth
(px) and the font size, the target clearance (px) for the vertical
variant request.  The engine handlers below use these definitions. -/

/-- src/layout/engine.rs lines 215-221 (`Layout::delimited`): the
clearance used for `\left...\right` delimiters. -/
def delimitedClearance (c : Constants) (font_size inner_height inner_depth : ℚ) : ℚ :=
  let axis := c.axis_height * font_size
  let clearance := max (inner_height - axis) (axis - inner_depth) * 2
  max (clearance * c.delimiter_factor)
      (inner_height - inner_depth - c.delimiter_short_fall * font_size)

/-- src/layout/engine.rs lines 545-552 and 565-572 (`Layout::frac`):
the clearance used for a fraction's left/right delimiter. -/
def fracDelimClearance (c : Constants) (font_size inner_height inner_depth : ℚ) : ℚ :=
  let axis_height := c.axis_height * font_size
  let clearance :=
    max (inner_height - axis_height) (axis_height - inner_depth) * 2
  max clearance (c.delimited_sub_formula_min_height * font_size)

/-- Modelled from the spec's words for claim C4 (refinement): "the
clearance used to select the delimiter's vertical variant equals the
clearance formula of the Delimited handler, i.e.
clearance = max(2*max(inner.height − axis, axis − inner.depth) * delimiter_factor,
(inner.height − inner.depth) − delimiter_short_fall), applied to the
assembled fraction box". -/
def fracClearanceClaimed (c : Constants) (font_size inner_height inner_depth : ℚ) : ℚ :=
  max (2 * max (inner_height - c.axis_height * font_size)
               (c.axis_height * font_size - inner_depth) * c.delimiter_factor)
      (inner_height - inner_depth - c.delimiter_short_fall * font_size)

/-- The amended formula for the fraction delimiter clearance:
`max(2*max(inner.height − axis, axis − inner.depth),
     delimited_sub_formula_min_height * font_size)`,
with no delimiter factor and no short fall. -/
def fracClearanceAmendedSpec (c : Constants) (font_size inner_height inner_depth : ℚ) : ℚ :=
  max (2 * max (inner_height - c.axis_height * font_size)
               (c.axis_height * font_size - inner_depth))
      (c.delimited_sub_formula_min_height * font_size)

/-- A concrete constants block used by concrete evaluations below. -/
def demoConstants : Constants :=
  { subscript_shift_down := 1 / 5
    subscript_top_max := 1 / 5
    subscript_baseline_drop_min := 1 / 10
    superscript_baseline_drop_max := 1 / 4
    superscript_bottom_min := 1 / 10
    superscript_shift_up_cramped := 1 / 4
    superscript_shift_up := 2 / 5
    sub_superscript_gap_min := 1 / 5
    upper_limit_baseline_rise_min := 1 / 10
    upper_limit_gap_min := 1 / 10
    lower_limit_gap_min := 1 / 10
    lower_limit_baseline_drop_min := 3 / 5
    fraction_rule_thickness := 1 / 20
    fraction_numerator_display_style_shift_up := 7 / 10
    fraction_denominator_display_style_shift_down := 7 / 10
    fraction_num_display_style_gap_min := 3 / 20
    fraction_denom_display_style_gap_min := 3 / 20
    fraction_numerator_shift_up := 2 / 5
    fraction_denominator_shift_down := 2 / 5
    fraction_numerator_gap_min := 1 / 20
    fraction_denominator_gap_min := 1 / 20
    axis_height := 1 / 4
    accent_base_height := 9 / 20
    delimited_sub_formula_min_height := 13 / 10
    display_operator_min_height := 13 / 10
    radical_display_style_vertical_gap := 3 / 20
    radical_vertical_gap := 1 / 20
    radical_rule_thickness := 1 / 20
    radical_extra_ascender := 1 / 20
    stack_display_style_gap_min := 7 / 20
    stack_top_display_style_shift_up := 9 / 10
    stack_top_shift_up := 9 / 20
    stack_bottom_shift_down := 9 / 20
    stack_gap_min := 3 / 20
    delimiter_factor := 901 / 1000
    delimiter_short_fall := 1 / 10
    null_delimiter_space := 1 / 10
    script_percent_scale_down := 7 / 10
    script_script_percent_scale_down := 1 / 2 }


/-! ## Dimensions (src/dimensions.rs)

`Length<U>` is an `f64` with a phantom unit; modelled as `ℚ`.
`Scale<T,U>` is a bare factor; modelled as `ℚ`.  `Unit` is the
user-facing dimension sum type. -/

inductive Unit where
  | Em (v : ℚ)
  | Px (v : ℚ)
  deriving DecidableEq, Repr

/-- Alias used for the `Style(LayoutStyle)` AST payload. -/
abbrev LayoutStyle := Style

/-! ## AST (src/ast/nodes.rs, src/ast/symbols.rs, src/environments.rs)

Codepoints (`char`) are modelled as `Nat`. -/

structure Symbol where
  codepoint : Nat
  atom_type : AtomType
  deriving DecidableEq, Repr

inductive BarThickness where
  | Default
  | None
  | Unit (u : Unit)
  deriving DecidableEq, Repr

inductive MathStyle where
  | Display
  | Text
  | NoChange
  deriving DecidableEq, Repr

/-- src/environments.rs: per-column formatting (inert during layout). -/
inductive ArrayColumnAlign where
  | Centered
  | Left
  | Right
  deriving DecidableEq, Repr

structure ArraySingleColumnFormatting where
  alignment : ArrayColumnAlign
  left_vert : Nat
  deriving DecidableEq, Repr

structure ArrayColumnsFormatting where
  columns : List ArraySingleColumnFormatting
  right_vert : Nat
  deriving DecidableEq, Repr

/-- src/ast/nodes.rs lines 12-29 (plus `environments::Array`), with the
nested `Vec`s as `List`s.  Field `at` of `AtomChange` is renamed
`at_ty` (`at` is reserved in Lean). -/
inductive ParseNode where
  | Symbol (sym : Symbol)
  | Delimited (left right : Symbol) (inner : List ParseNode)
  | Radical (inner : List ParseNode)
  | GenFraction (numerator denominator : List ParseNode)
      (bar_thickness : BarThickness)
      (left_delimiter right_delimiter : Option Symbol) (style : MathStyle)
  | Scripts (base : Option ParseNode)
      (superscript subscript : Option (List ParseNode))
  | Rule (width height : Unit)
  | Kerning (u : Unit)
  | Accent (symbol : Symbol) (nucleus : List ParseNode)
  | Style (s : LayoutStyle)
  | AtomChange (at_ty : AtomType) (inner : List ParseNode)
  | Color (color : RGBA) (inner : List ParseNode)
  | Group (inner : List ParseNode)
  | Stack (atom_type : AtomType) (lines : List (List ParseNode))
  | Extend (cp : Nat) (u : Unit)
  | Array (col_format : ArrayColumnsFormatting)
      (rows : List (List (List ParseNode)))
      (left_delimiter right_delimiter : Option Symbol)
  deriving Repr

/-- src/ast/nodes.rs lines 159-186: `ParseNode::atom_type`.  The
recursion descends through `Scripts.base`, `Accent.nucleus.first()` and
`Color.inner.first()`.  The `fuel` argument makes the recursion
structural; `none` means the fuel ran out (callers always pass more
fuel than the node's nesting depth, and the engine aborts the whole
layout on `none` rather than inventing a value). -/
def atomTypeAux : Nat → ParseNode → Option AtomType
  | 0, _ => none
  | fuel + 1, node =>
    match node with
    | .Symbol sym => some sym.atom_type
    | .Delimited _ _ _ => some .Inner
    | .Radical _ => some .Alpha
    | .GenFraction _ _ _ _ _ _ => some .Inner
    | .Group _ => some .Alpha
    | .Scripts base _ _ =>
      match base with
      | some b => atomTypeAux fuel b
      | none => some .Alpha
    | .Rule _ _ => some .Alpha
    | .Kerning _ => some .Transparent
    | .Accent _ nucleus =>
      match nucleus.head? with
      | some n => atomTypeAux fuel n
      | none => some .Alpha
    | .Style _ => some .Transparent
    | .AtomChange at_ty _ => some at_ty
    | .Color _ inner =>
      match inner.head? with
      | some n => atomTypeAux fuel n
      | none => some .Alpha
    | .Extend _ _ => some .Inner
    | .Array _ _ _ _ => some .Inner
    | .Stack at_ty _ => some at_ty

/-- src/ast/nodes.rs lines 147-157 and 189-195: `ParseNode::is_symbol`
(the one-element-slice step of the free `is_symbol` is inlined at the
`Accent`/`AtomChange`/`Color` arms).  The outer `Option` is the fuel
guard (`none` = out of fuel); the inner one is the source's result. -/
def astIsSymbolAux : Nat → ParseNode → Option (Option Symbol)
  | 0, _ => none
  | fuel + 1, node =>
    match node with
    | .Symbol sym => some (some sym)
    | .Scripts base _ _ =>
      match base with
      | some b => astIsSymbolAux fuel b
      | none => some none
    | .Accent _ nucleus =>
      match nucleus with
      | [n] => astIsSymbolAux fuel n
      | _ => some none
    | .AtomChange _ inner =>
      match inner with
      | [n] => astIsSymbolAux fuel n
      | _ => some none
    | .Color _ inner =>
      match inner with
      | [n] => astIsSymbolAux fuel n
      | _ => some none
    | _ => some none

/-- src/ast/nodes.rs lines 189-195: the free `is_symbol` on a slice. -/
def astListIsSymbol (fuel : Nat) (contents : List ParseNode) : Option (Option Symbol) :=
  match contents with
  | [n] => astIsSymbolAux fuel n
  | _ => some none

/-! ## Layout box tree (src/layout/mod.rs lines 33-266)

`LayoutNode` drops the `font: &'f MathFont` back-reference of
`LayoutGlyph` (a single font is in play for a layout call); everything
else is carried.  The `Grid` variant stores the `BTreeMap` as an
association list. -/

inductive Alignment where
  | Centered (w : ℚ)
  | Right (w : ℚ)
  | Left
  | Inherit
  | Default
  deriving DecidableEq, Repr

structure LayoutGlyph where
  gid : Nat
  size : ℚ
  offset : ℚ
  attachment : ℚ
  italics : ℚ
  deriving DecidableEq, Repr

mutual
inductive LayoutNode where
  | mk (width height depth : ℚ) (node : LayoutVariant)

inductive LayoutVariant where
  | Grid (g : GridData)
  | HorizontalBox (hb : HorizontalBox)
  | VerticalBox (vb : VerticalBox)
  | Glyph (g : LayoutGlyph)
  | Color (c : ColorChange)
  | Rule
  | Kern

inductive GridData where
  | mk (contents : List ((Nat × Nat) × LayoutNode))
      (columns : List ℚ) (rows : List (ℚ × ℚ))

inductive HorizontalBox where
  | mk (contents : List LayoutNode) (offset : ℚ) (alignment : Alignment)

inductive VerticalBox where
  | mk (contents : List LayoutNode) (offset : ℚ) (alignment : Alignment)

inductive ColorChange where
  | mk (color : RGBA) (inner : List LayoutNode)
end

def LayoutNode.width : LayoutNode → ℚ
  | .mk w _ _ _ => w

def LayoutNode.height : LayoutNode → ℚ
  | .mk _ h _ _ => h

def LayoutNode.depth : LayoutNode → ℚ
  | .mk _ _ d _ => d

def LayoutNode.node : LayoutNode → LayoutVariant
  | .mk _ _ _ n => n

def HorizontalBox.contents : HorizontalBox → List LayoutNode
  | .mk c _ _ => c

def HorizontalBox.offset : HorizontalBox → ℚ
  | .mk _ o _ => o

def HorizontalBox.alignment : HorizontalBox → Alignment
  | .mk _ _ a => a

def VerticalBox.contents : VerticalBox → List LayoutNode
  | .mk c _ _ => c

def VerticalBox.offset : VerticalBox → ℚ
  | .mk _ o _ => o

def VerticalBox.alignment : VerticalBox → Alignment
  | .mk _ _ a => a

def ColorChange.color : ColorChange → RGBA
  | .mk c _ => c

def ColorChange.inner : ColorChange → List LayoutNode
  | .mk _ i => i

/-- src/layout/mod.rs lines 33-41: the in-progress horizontal layout. -/
structure Layout where
  contents : List LayoutNode := []
  width : ℚ := 0
  height : ℚ := 0
  depth : ℚ := 0
  offset : ℚ := 0
  alignment : Alignment := .Default

def Layout.new : Layout := {}

/-- src/layout/mod.rs lines 44-55: `Layout::as_node`. -/
def Layout.as_node (l : Layout) : LayoutNode :=
  .mk l.width l.height l.depth
    (.HorizontalBox (.mk l.contents l.offset l.alignment))

/-- src/layout/mod.rs lines 61-66: `Layout::add_node`. -/
def Layout.add_node (l : Layout) (node : LayoutNode) : Layout :=
  { l with
    width := l.width + node.width
    height := max l.height node.height
    depth := min l.depth node.depth
    contents := l.contents ++ [node] }

/-- src/layout/mod.rs lines 72-76: `Layout::finalize`. -/
def Layout.finalize (l : Layout) : Layout :=
  { l with depth := l.depth - l.offset, height := l.height - l.offset }

/-- src/layout/mod.rs lines 78-82: `Layout::centered`. -/
def Layout.centered (l : Layout) (new_width : ℚ) : Layout :=
  { l with alignment := .Centered l.width, width := new_width }

/-- src/layout/mod.rs lines 249-266: `LayoutNode::is_symbol` (the
one-element-slice step of the free `is_symbol` is inlined at the box
arms).  Outer `Option` = fuel guard, inner = the source's result. -/
def nodeIsSymbolAux : Nat → LayoutNode → Option (Option LayoutGlyph)
  | 0, _ => none
  | fuel + 1, n =>
    match n.node with
    | .Glyph g => some (some g)
    | .HorizontalBox hb =>
      match hb.contents with
      | [m] => nodeIsSymbolAux fuel m
      | _ => some none
    | .VerticalBox vb =>
      match vb.contents with
      | [m] => nodeIsSymbolAux fuel m
      | _ => some none
    | .Color c =>
      match c.inner with
      | [m] => nodeIsSymbolAux fuel m
      | _ => some none
    | _ => some none

/-- src/layout/mod.rs lines 260-266: the free `is_symbol` on a slice
of layout nodes. -/
def layoutListIsSymbol (fuel : Nat) (contents : List LayoutNode) : Option (Option LayoutGlyph) :=
  match contents with
  | [n] => nodeIsSymbolAux fuel n
  | _ => some none

/-- src/layout/mod.rs lines 84-89: `Layout::is_symbol`. -/
def layoutIsSymbol (fuel : Nat) (l : Layout) : Option (Option LayoutGlyph) :=
  layoutListIsSymbol fuel l.contents

/-! ## Box builders (src/layout/builders.rs) -/

/-- `kern!(horz: w)` -/
def hkern (w : ℚ) : LayoutNode := .mk w 0 0 .Kern

/-- `kern!(vert: h)` -/
def vkern (h : ℚ) : LayoutNode := .mk 0 h 0 .Kern

/-- `rule!(width: w, height: h)` (depth 0) -/
def ruleNode (w h : ℚ) : LayoutNode := .mk w h 0 .Rule

/-- src/layout/builders.rs lines 8-54: the vertical-box builder. -/
structure VBoxBuilder where
  width : ℚ := 0
  height : ℚ := 0
  depth : ℚ := 0
  contents : List LayoutNode := []
  offset : ℚ := 0

def VBoxBuilder.add_node (b : VBoxBuilder) (node : LayoutNode) : VBoxBuilder :=
  { b with
    width := max b.width node.width
    height := b.height + node.height
    contents := b.contents ++ [node] }

/-- `VBox::insert_node(0, node)` as used by variant-glyph assembly. -/
def VBoxBuilder.insert_node_front (b : VBoxBuilder) (node : LayoutNode) : VBoxBuilder :=
  { b with
    width := max b.width node.width
    height := b.height + node.height
    contents := node :: b.contents }

def VBoxBuilder.set_offset (b : VBoxBuilder) (offset : ℚ) : VBoxBuilder :=
  { b with offset := offset }

def VBoxBuilder.build (b : VBoxBuilder) : LayoutNode :=
  let depth :=
    match b.contents.getLast? with
    | some node => node.depth
    | none => b.depth
  .mk b.width (b.height - b.offset) (depth - b.offset)
    (.VerticalBox (.mk b.contents b.offset .Default))

/-- src/layout/builders.rs lines 71-115: the horizontal-box builder. -/
structure HBoxBuilder where
  width : ℚ := 0
  height : ℚ := 0
  depth : ℚ := 0
  contents : List LayoutNode := []
  offset : ℚ := 0
  alignment : Alignment := .Default

def HBoxBuilder.add_node (b : HBoxBuilder) (node : LayoutNode) : HBoxBuilder :=
  { b with
    width := b.width + node.width
    height := max b.height node.height
    depth := min b.depth node.depth
    contents := b.contents ++ [node] }

def HBoxBuilder.set_offset (b : HBoxBuilder) (offset : ℚ) : HBoxBuilder :=
  { b with offset := offset }

def HBoxBuilder.set_alignment (b : HBoxBuilder) (align : Alignment) : HBoxBuilder :=
  { b with alignment := align }

def HBoxBuilder.set_width (b : HBoxBuilder) (width : ℚ) : HBoxBuilder :=
  { b with width := width }

def HBoxBuilder.build (b : HBoxBuilder) : LayoutNode :=
  .mk b.width (b.height - b.offset) (b.depth - b.offset)
    (.HorizontalBox (.mk b.contents b.offset b.alignment))

/-- `vbox!(a, b, ...)` -/
def vboxOf (nodes : List LayoutNode) : LayoutNode :=
  (nodes.foldl VBoxBuilder.add_node {}).build

/-- `vbox!(offset: o; a, b, ...)` -/
def vboxOffsetOf (offset : ℚ) (nodes : List LayoutNode) : LayoutNode :=
  ((nodes.foldl VBoxBuilder.add_node {}).set_offset offset).build

/-- `hbox!(a, b, ...)` -/
def hboxOf (nodes : List LayoutNode) : LayoutNode :=
  (nodes.foldl HBoxBuilder.add_node {}).build

/-- `hbox!(align: al; width: w; a, b, ...)` (nodes added first, then
alignment and width are overridden, then built). -/
def hboxAlignWidth (al : Alignment) (w : ℚ) (nodes : List LayoutNode) : LayoutNode :=
  (((nodes.foldl HBoxBuilder.add_node {}).set_alignment al).set_width w).build

/-- src/layout/builders.rs lines 228-238: `builders::color`. -/
def colorNode (l : Layout) (clr : RGBA) : LayoutNode :=
  .mk l.width l.height l.depth (.Color (.mk clr l.contents))

/-- src/layout/mod.rs lines 227-247: `LayoutNode::centered` (center
about the axis; mutates a vertical box's offset, wraps a glyph). -/
def LayoutNode.centered (n : LayoutNode) (axis : ℚ) : LayoutNode :=
  let shift := (n.height + n.depth) * (1 / 2) - axis
  match n.node with
  | .VerticalBox vb =>
    .mk n.width (n.height - shift) (n.depth - shift)
      (.VerticalBox (.mk vb.contents shift vb.alignment))
  | .Glyph _ => vboxOffsetOf shift [n]
  | _ => n


/-! ## Errors (src/error.rs) -/

inductive FontError where
  | MissingGlyphCodepoint (cp : Nat)
  | MissingGlyphGID (gid : Nat)
  deriving DecidableEq, Repr

inductive LayoutError where
  | Font (e : FontError)
  deriving DecidableEq, Repr

/-! ## Font model (src/font/mod.rs, external `font` crate interface)

The external font crate is modelled as a bundle of lookup functions
(spec interface section 6.1): codepoint-to-gid, per-gid horizontal metrics and
path bounding box (each may be absent), the MATH glyph-info tables
(italics correction and top accent attachment default to 0 when absent,
matching `unwrap_or_default`), the MATH cut-in kern records, and the
variant assemblers.  `vert_variant`/`horz_variant` of the crate are
total functions of `(gid, target size in font-design units as u32)`. -/

inductive Direction where
  | Vertical
  | Horizontal
  deriving DecidableEq, Repr

structure GlyphPart where
  gid : Nat
  overlap : Int
  deriving DecidableEq, Repr

inductive VariantGlyph where
  | Replacement (gid : Nat)
  | Constructable (d : Direction) (parts : List GlyphPart)
  deriving DecidableEq, Repr

/-- One MATH cut-in record: four height-indexed step functions
(`kern_for_height`, keyed by an `i16` height). -/
structure KernRecord where
  top_right : Int → ℚ
  top_left : Int → ℚ
  bottom_right : Int → ℚ
  bottom_left : Int → ℚ

structure MathFontModel where
  gid_for_codepoint : Nat → Option Nat
  glyph_metrics : Nat → Option (ℚ × ℚ)
  glyph_bbox : Nat → Option (ℚ × ℚ × ℚ × ℚ)
  italics_correction : Nat → ℚ
  top_accent_attachment : Nat → ℚ
  kern_info : Nat → Option KernRecord
  vert_variant : Nat → Nat → VariantGlyph
  horz_variant : Nat → Nat → VariantGlyph

/-- Truncation toward zero of a rational (Rust's `as` casts from `f64`
truncate toward zero). -/
def truncRat (q : ℚ) : Int := q.num.tdiv (q.den : Int)

/-- Rust `f64 as u32`: saturating truncation into `[0, 2^32 - 1]`. -/
def ratToU32 (q : ℚ) : Nat :=
  (max 0 (min (truncRat q) 4294967295)).toNat

/-- Rust `f64 as i16`: saturating truncation into `[-2^15, 2^15 - 1]`. -/
def ratToI16 (q : ℚ) : Int :=
  max (-32768) (min (truncRat q) 32767)

/-- src/font/mod.rs lines 195-212: a fetched glyph.  The `font`
back-reference is dropped (a single font is in play); the `bbox`
quadruple keeps the source's component order
`(ll.x, ur.y, ur.x, ll.y)` as fields `bbox0..bbox3`, so that
`height() = bbox3` and `depth() = bbox1` as in the source. -/
structure Glyph where
  gid : Nat
  advance : ℚ
  lsb : ℚ
  italics : ℚ
  attachment : ℚ
  bbox0 : ℚ
  bbox1 : ℚ
  bbox2 : ℚ
  bbox3 : ℚ
  deriving DecidableEq, Repr

def Glyph.height (g : Glyph) : ℚ := g.bbox3

def Glyph.depth (g : Glyph) : ℚ := g.bbox1

/-- src/font/mod.rs lines 20-26: the font context. `units_per_em` is
the `Scale<Font, Em>` factor. -/
structure FontContext where
  font : MathFontModel
  constants : Constants
  units_per_em : ℚ

/-- src/font/mod.rs lines 33-58: `FontContext::glyph_from_gid`. -/
def FontContext.glyph_from_gid (ctx : FontContext) (gid : Nat) :
    Except FontError Glyph :=
  match ctx.font.glyph_metrics gid with
  | none => .error (.MissingGlyphGID gid)
  | some (advance, lsb) =>
    let italics := ctx.font.italics_correction gid
    let attachment := ctx.font.top_accent_attachment gid
    match ctx.font.glyph_bbox gid with
    | none => .error (.MissingGlyphGID gid)
    | some (b0, b1, b2, b3) =>
      .ok { gid := gid, advance := advance, lsb := lsb,
            italics := italics, attachment := attachment,
            bbox0 := b0, bbox1 := b1, bbox2 := b2, bbox3 := b3 }

/-- src/font/mod.rs lines 28-32: `FontContext::glyph`. -/
def FontContext.glyph (ctx : FontContext) (codepoint : Nat) :
    Except FontError Glyph :=
  match ctx.font.gid_for_codepoint codepoint with
  | none => .error (.MissingGlyphCodepoint codepoint)
  | some gid => ctx.glyph_from_gid gid

/-- src/font/mod.rs lines 73-77: `FontContext::vert_variant` (the
`(height / Font) as u32` cast is `ratToU32`). -/
def FontContext.vert_variant (ctx : FontContext) (codepoint : Nat) (height : ℚ) :
    Except FontError VariantGlyph :=
  match ctx.font.gid_for_codepoint codepoint with
  | none => .error (.MissingGlyphCodepoint codepoint)
  | some gid => .ok (ctx.font.vert_variant gid (ratToU32 height))

/-- src/font/mod.rs lines 78-82: `FontContext::horz_variant`. -/
def FontContext.horz_variant (ctx : FontContext) (codepoint : Nat) (width : ℚ) :
    Except FontError VariantGlyph :=
  match ctx.font.gid_for_codepoint codepoint with
  | none => .error (.MissingGlyphCodepoint codepoint)
  | some gid => .ok (ctx.font.horz_variant gid (ratToU32 width))

/-! ## Cut-in kerning (src/font/kerning.rs) -/

inductive Corner where
  | TopRight
  | TopLeft
  | BottomRight
  | BottomLeft
  deriving DecidableEq, Repr

/-- src/font/kerning.rs lines 63-78: `kern_from` (the glyph's font
back-reference is replaced by the ambient context; the
`(height / Font) as i16` cast is `ratToI16`). -/
def kern_from (ctx : FontContext) (glyph : Glyph) (height : ℚ) (side : Corner) : ℚ :=
  match ctx.font.kern_info glyph.gid with
  | none => 0
  | some record =>
    let table :=
      match side with
      | .TopRight => record.top_right
      | .TopLeft => record.top_left
      | .BottomRight => record.bottom_right
      | .BottomLeft => record.bottom_left
    table (ratToI16 height)

/-- src/font/kerning.rs lines 37-48: `superscript_kern`. -/
def superscript_kern (ctx : FontContext) (base script : Glyph) (shift : ℚ) : ℚ :=
  let base_height := base.bbox3
  let script_depth := script.bbox1 + shift
  let value1 := kern_from ctx base base_height .TopRight +
    kern_from ctx script base_height .BottomLeft
  let value2 := kern_from ctx base script_depth .TopRight +
    kern_from ctx script script_depth .BottomLeft
  max value1 value2

/-- src/font/kerning.rs lines 50-61: `subscript_kern`. -/
def subscript_kern (ctx : FontContext) (base script : Glyph) (shift : ℚ) : ℚ :=
  let base_depth := base.bbox1
  let script_height := script.bbox3 - shift
  let value1 := kern_from ctx base base_depth .BottomRight +
    kern_from ctx script base_depth .TopLeft
  let value2 := kern_from ctx base script_height .BottomRight +
    kern_from ctx script script_height .TopLeft
  min value1 value2

/-! ## Layout settings and unit conversion (src/layout/mod.rs lines
356-420, src/layout/convert.rs) -/

/-- src/layout/mod.rs lines 356-361.  `font_size` is the
`Scale<Px, Em>` factor. -/
structure LayoutSettings where
  ctx : FontContext
  font_size : ℚ
  style : Style

def LayoutSettings.cramped (cfg : LayoutSettings) : LayoutSettings :=
  { cfg with style := cfg.style.cramped }

def LayoutSettings.superscript_variant (cfg : LayoutSettings) : LayoutSettings :=
  { cfg with style := cfg.style.superscript_variant }

def LayoutSettings.subscript_variant (cfg : LayoutSettings) : LayoutSettings :=
  { cfg with style := cfg.style.subscript_variant }

def LayoutSettings.numerator (cfg : LayoutSettings) : LayoutSettings :=
  { cfg with style := cfg.style.numerator }

def LayoutSettings.denominator (cfg : LayoutSettings) : LayoutSettings :=
  { cfg with style := cfg.style.denominator }

def LayoutSettings.with_display (cfg : LayoutSettings) : LayoutSettings :=
  { cfg with style := .Display }

def LayoutSettings.with_text (cfg : LayoutSettings) : LayoutSettings :=
  { cfg with style := .Text }

/-- src/layout/convert.rs lines 94-110: `scale_factor`. -/
def LayoutSettings.scale_factor (cfg : LayoutSettings) : ℚ :=
  match cfg.style with
  | .Display | .DisplayCramped | .Text | .TextCramped => 1
  | .Script | .ScriptCramped => cfg.ctx.constants.script_percent_scale_down
  | .ScriptScript | .ScriptScriptCramped =>
      cfg.ctx.constants.script_script_percent_scale_down

/-- src/layout/convert.rs lines 111-113: `scale_font_unit`
(`length / units_per_em * font_size`). -/
def LayoutSettings.scale_font_unit (cfg : LayoutSettings) (length : ℚ) : ℚ :=
  length / cfg.ctx.units_per_em * cfg.font_size

/-- src/layout/convert.rs lines 114-116: `to_font`
(`length / font_size * units_per_em`). -/
def LayoutSettings.to_font (cfg : LayoutSettings) (length : ℚ) : ℚ :=
  length / cfg.font_size * cfg.ctx.units_per_em

/-- `Scaled for Length<Font>` (convert.rs lines 122-126). -/
def scaledFont (length : ℚ) (cfg : LayoutSettings) : ℚ :=
  cfg.scale_font_unit length * cfg.scale_factor

/-- `Scaled for Length<Px>` (convert.rs lines 128-132). -/
def scaledPx (length : ℚ) (cfg : LayoutSettings) : ℚ :=
  length * cfg.scale_factor

/-- `Scaled for Length<Em>` (convert.rs lines 133-137). -/
def scaledEm (length : ℚ) (cfg : LayoutSettings) : ℚ :=
  length * cfg.font_size * cfg.scale_factor

/-- `Scaled for Unit` (convert.rs lines 138-146). -/
def Unit.scaled (u : Unit) (cfg : LayoutSettings) : ℚ :=
  match u with
  | .Em em => em * cfg.font_size * cfg.scale_factor
  | .Px px => px * cfg.scale_factor

/-- `AsLayoutNode for Glyph` (convert.rs lines 17-36); infallible in
the source (always `Ok`). -/
def Glyph.as_layout (g : Glyph) (cfg : LayoutSettings) : LayoutNode :=
  .mk (scaledFont g.advance cfg) (scaledFont g.height cfg) (scaledFont g.depth cfg)
    (.Glyph { gid := g.gid, size := scaledEm 1 cfg, offset := 0,
              attachment := scaledFont g.attachment cfg,
              italics := scaledFont g.italics cfg })

/-- `AsLayoutNode for Rule` (convert.rs lines 38-47); infallible. -/
def ruleAsLayout (width height : Unit) (cfg : LayoutSettings) : LayoutNode :=
  .mk (width.scaled cfg) (height.scaled cfg) 0 .Rule

/-- The vertical-part loop of `AsLayoutNode for VariantGlyph`
(convert.rs lines 59-71): each part is inserted at the front, and a
negative kern of `overlap + glyph.depth()` (scaled) is appended when
the overlap is non-zero. -/
def variantVertParts (cfg : LayoutSettings) :
    List GlyphPart → VBoxBuilder → Except FontError VBoxBuilder
  | [], b => .ok b
  | instr :: rest, b =>
    match cfg.ctx.glyph_from_gid instr.gid with
    | .error e => .error e
    | .ok glyph =>
      let b := b.insert_node_front (glyph.as_layout cfg)
      let b :=
        if instr.overlap ≠ 0 then
          let overlap : ℚ := (instr.overlap : ℚ)
          let kern := -(scaledFont (overlap + glyph.depth) cfg)
          b.add_node (vkern kern)
        else b
      variantVertParts cfg rest b

/-- The horizontal-part loop of `AsLayoutNode for VariantGlyph`
(convert.rs lines 74-85). -/
def variantHorzParts (cfg : LayoutSettings) :
    List GlyphPart → HBoxBuilder → Except FontError HBoxBuilder
  | [], b => .ok b
  | instr :: rest, b =>
    match cfg.ctx.glyph_from_gid instr.gid with
    | .error e => .error e
    | .ok glyph =>
      let b :=
        if instr.overlap ≠ 0 then
          let kern := -(scaledFont (instr.overlap : ℚ) cfg)
          b.add_node (hkern kern)
        else b
      let b := b.add_node (glyph.as_layout cfg)
      variantHorzParts cfg rest b

/-- `AsLayoutNode for VariantGlyph` (convert.rs lines 49-91). -/
def VariantGlyph.as_layout (vg : VariantGlyph) (cfg : LayoutSettings) :
    Except FontError LayoutNode :=
  match vg with
  | .Replacement gid =>
    match cfg.ctx.glyph_from_gid gid with
    | .error e => .error e
    | .ok glyph => .ok (glyph.as_layout cfg)
  | .Constructable dir parts =>
    match dir with
    | .Vertical =>
      match variantVertParts cfg parts {} with
      | .error e => .error e
      | .ok b => .ok b.build
    | .Horizontal =>
      match variantHorzParts cfg parts {} with
      | .error e => .error e
      | .ok b => .ok b.build


/-! ## Engine monad

`LayoutM` layers the source's `Result<_, LayoutError>` over `Option`:
the `none` layer is the structural fuel guard of the embedding (every
recursive call passes one unit less), never a behaviour of the source.
All theorems about the engine quantify over the fuel and condition on
a `some` result. -/

abbrev LayoutM (α : Type) := ExceptT LayoutError Option α

def outOfFuel {α : Type} : LayoutM α := ExceptT.mk none

/-- The `?` operator's `From<FontError> for LayoutError` conversion
(src/error.rs lines 19-23). -/
def liftFont {α : Type} : Except FontError α → LayoutM α
  | .ok a => pure a
  | .error e => throw (.Font e)

def liftLayout {α : Type} (e : Except LayoutError α) : LayoutM α :=
  ExceptT.mk (some e)

/-! ## Non-recursive handler pieces -/

/-- Codepoint of `'.'`, the null-delimiter marker. -/
def dotCodepoint : Nat := 46

/-- Codepoint of the radical symbol (U+221A). -/
def sqrtCodepoint : Nat := 8730

/-- src/layout/engine.rs lines 57-61: the inter-atom spacing kern added
in front of an item when `atom_space` is not `None`. -/
def loopSpaceAcc (acc : Layout) (sp : Spacing) (cfg : LayoutSettings) : Layout :=
  if sp ≠ Spacing.None then
    acc.add_node (hkern (scaledEm sp.to_length cfg))
  else acc

/-- src/layout/engine.rs lines 117-125: `Layout::symbol` together with
lines 127-141 `Layout::largeop`; no recursion into the AST. -/
def symbolFn (acc : Layout) (sym : Symbol) (cfg : LayoutSettings) :
    Except LayoutError Layout :=
  match cfg.ctx.glyph sym.codepoint with
  | .error e => .error (.Font e)
  | .ok glyph =>
    match sym.atom_type with
    | .Operator _ =>
      if Style.lt .Text cfg.style then
        let axis_offset := scaledEm cfg.ctx.constants.axis_height cfg
        match cfg.ctx.vert_variant sym.codepoint
            (cfg.ctx.constants.display_operator_min_height * cfg.ctx.units_per_em) with
        | .error e => .error (.Font e)
        | .ok vg =>
          match vg.as_layout cfg with
          | .error e => .error (.Font e)
          | .ok largeop =>
            let shift := (largeop.height + largeop.depth) * (1 / 2) - axis_offset
            .ok (acc.add_node (vboxOffsetOf shift [largeop]))
      else
        .ok (acc.add_node (glyph.as_layout cfg))
    | _ => .ok (acc.add_node (glyph.as_layout cfg))

/-- src/layout/engine.rs lines 413-473: `Layout::operator_limits`.
Pure except for the fueled `is_symbol` traversal of the base. -/
def operatorLimits (fuel : Nat) (acc base sup sub : Layout)
    (cfg : LayoutSettings) : LayoutM Layout :=
  match layoutIsSymbol fuel base with
  | none => outOfFuel
  | some gly? =>
    let delta :=
      match gly? with
      | some gly => gly.italics
      | none => 0
    let c := cfg.ctx.constants
    let sup_kern := max (scaledEm c.upper_limit_baseline_rise_min cfg)
      (scaledEm c.upper_limit_gap_min cfg - sup.depth)
    let sub_kern := max (scaledEm c.lower_limit_gap_min cfg)
      (scaledEm c.lower_limit_baseline_drop_min cfg - sub.height) - base.depth
    let offset := sub.height + sub_kern
    let width := max (max base.width (sub.width + delta * (1 / 2)))
      (sup.width + delta * (1 / 2))
    let node := vboxOffsetOf offset [
      hboxAlignWidth (.Centered sup.width) width [hkern (delta * (1 / 2)), sup.as_node],
      vkern sup_kern,
      (base.centered width).as_node,
      vkern sub_kern,
      hboxAlignWidth (.Centered sub.width) width [hkern (-(delta * (1 / 2))), sub.as_node]]
    pure (acc.add_node node)

/-- src/layout/engine.rs lines 285-290: does the `Scripts` base demand
the operator-limits algorithm (`AtomType::Operator(true)`)? -/
def scriptsOpLimitsCheck (fuel : Nat) (base? : Option ParseNode) : LayoutM Bool :=
  match base? with
  | some b =>
    match atomTypeAux fuel b with
    | some t => pure (t == AtomType.Operator true)
    | none => outOfFuel
  | none => pure false

/-- src/layout/engine.rs lines 307-335: the superscript height override
and italics/cut-in kern of `Layout::scripts` (the body of the
`if let Some(ref b) = scripts.base` block). -/
def scriptsSupHeightKern (fuel : Nat) (cfg : LayoutSettings)
    (base? : Option ParseNode) (base sup : Layout) (adjust_up : ℚ) :
    LayoutM (ℚ × ℚ) :=
  match base? with
  | none => pure (base.height, (0 : ℚ))
  | some b => do
    let some bAtom ← (pure (atomTypeAux fuel b) : LayoutM (Option AtomType))
      | outOfFuel
    if bAtom ≠ AtomType.Operator false then
      match b with
      | .Accent _ nucleus => do
        let some nucSym ← (pure (astListIsSymbol fuel nucleus) :
          LayoutM (Option (Option Symbol))) | outOfFuel
        match nucSym with
        | some sym => do
          let g ← liftFont (cfg.ctx.glyph sym.codepoint)
          pure (scaledFont g.height cfg, (0 : ℚ))
        | none => pure (base.height, (0 : ℚ))
      | _ => do
        let some baseSym? ← (pure (layoutIsSymbol fuel base) :
          LayoutM (Option (Option LayoutGlyph))) | outOfFuel
        match baseSym? with
        | some base_sym => do
          let some supSym? ← (pure (layoutIsSymbol fuel sup) :
            LayoutM (Option (Option LayoutGlyph))) | outOfFuel
          match supSym? with
          | some sup_sym => do
            let bg ← liftFont (cfg.ctx.glyph_from_gid base_sym.gid)
            let sg ← liftFont (cfg.ctx.glyph_from_gid sup_sym.gid)
            let kern :=
              scaledFont (superscript_kern cfg.ctx bg sg (cfg.to_font adjust_up)) cfg
            pure (base.height, base_sym.italics + kern)
          | none => pure (base.height, base_sym.italics)
        | none => pure (base.height, (0 : ℚ))
    else pure (base.height, (0 : ℚ))

/-- src/layout/engine.rs lines 299-341: the superscript shift
(`adjust_up`) and kern of `Layout::scripts`. -/
def scriptsSupAdjust (fuel : Nat) (cfg : LayoutSettings)
    (base? : Option ParseNode) (sup? : Option (List ParseNode))
    (base sup : Layout) : LayoutM (ℚ × ℚ) :=
  if sup?.isSome then do
    let c := cfg.ctx.constants
    let adjust_up :=
      if cfg.style.is_cramped then scaledEm c.superscript_shift_up_cramped cfg
      else scaledEm c.superscript_shift_up cfg
    let (height, sup_kern) ← scriptsSupHeightKern fuel cfg base? base sup adjust_up
    let drop_max := scaledEm c.superscript_baseline_drop_max cfg
    pure (max (max adjust_up (height - drop_max))
      (scaledEm c.superscript_bottom_min cfg - sup.depth), sup_kern)
  else pure ((0 : ℚ), (0 : ℚ))

/-- src/layout/engine.rs lines 351-371: the subscript kern of
`Layout::scripts` (italics correction for `Operator(false)` bases plus
the cut-in kern when base and subscript are both symbols). -/
def scriptsSubKern (fuel : Nat) (cfg : LayoutSettings)
    (base? : Option ParseNode) (base sub : Layout) (adjust_down : ℚ) :
    LayoutM ℚ :=
  match base? with
  | none => pure (0 : ℚ)
  | some b => do
    let some baseSym? ← (pure (layoutIsSymbol fuel base) :
      LayoutM (Option (Option LayoutGlyph))) | outOfFuel
    let k1 ←
      match baseSym? with
      | some base_sym => do
        let some bAtom ← (pure (atomTypeAux fuel b) : LayoutM (Option AtomType))
          | outOfFuel
        if bAtom = AtomType.Operator false then do
          let g ← liftFont (cfg.ctx.glyph_from_gid base_sym.gid)
          pure (-(scaledFont g.italics cfg))
        else pure (0 : ℚ)
      | none => pure (0 : ℚ)
    let some subSym? ← (pure (layoutIsSymbol fuel sub) :
      LayoutM (Option (Option LayoutGlyph))) | outOfFuel
    match subSym?, baseSym? with
    | some ssym, some bsym => do
      let bg ← liftFont (cfg.ctx.glyph_from_gid bsym.gid)
      let sg ← liftFont (cfg.ctx.glyph_from_gid ssym.gid)
      pure (k1 + scaledFont (subscript_kern cfg.ctx bg sg (cfg.to_font adjust_down)) cfg)
    | _, _ => pure k1

/-- src/layout/engine.rs lines 345-372: the subscript shift
(`adjust_down`) and kern of `Layout::scripts`. -/
def scriptsSubAdjust (fuel : Nat) (cfg : LayoutSettings)
    (base? : Option ParseNode) (sub? : Option (List ParseNode))
    (base sub : Layout) : LayoutM (ℚ × ℚ) :=
  if sub?.isSome then do
    let c := cfg.ctx.constants
    let adjust_down := max (max (scaledEm c.subscript_shift_down cfg)
        (sub.height - scaledEm c.subscript_top_max cfg))
      (scaledEm c.subscript_baseline_drop_min cfg - base.depth)
    let sub_kern ← scriptsSubKern fuel cfg base? base sub adjust_down
    pure (adjust_down, sub_kern)
  else pure ((0 : ℚ), (0 : ℚ))

/-- src/layout/engine.rs lines 374-409: the gap fix between the two
scripts and the assembly of the scripts `VBox` next to the base. -/
def scriptsAssemble (acc base sup sub : Layout) (supSome subSome : Bool)
    (gap_min adjust_up0 adjust_down0 sup_kern sub_kern : ℚ) : Layout :=
  let pr :=
    if subSome ∧ supSome then
      let sup_bot := adjust_up0 + sup.depth
      let sub_top := sub.height - adjust_down0
      if sup_bot - sub_top < gap_min then
        let adjust := (gap_min - sup_bot + sub_top) * (1 / 2)
        (adjust_up0 + adjust, adjust_down0 + adjust)
      else (adjust_up0, adjust_down0)
    else (adjust_up0, adjust_down0)
  let adjust_up := pr.1
  let adjust_down := pr.2
  let contents : VBoxBuilder := {}
  let contents :=
    if supSome then
      let sup :=
        if sup_kern ≠ 0 then
          { sup with contents := hkern sup_kern :: sup.contents,
                     width := sup.width + sup_kern }
        else sup
      let corrected_adjust := adjust_up - sub.height + adjust_down
      (contents.add_node sup.as_node).add_node (vkern corrected_adjust)
    else contents
  let contents := contents.set_offset adjust_down
  let contents :=
    if subSome then
      let sub :=
        if sub_kern ≠ 0 then
          { sub with contents := hkern sub_kern :: sub.contents,
                     width := sub.width + sub_kern }
        else sub
      contents.add_node sub.as_node
    else contents
  (acc.add_node base.as_node).add_node contents.build

/-- One delimiter of `Layout::delimited` in the extended branch
(src/layout/engine.rs lines 224-241): `'.'` becomes a null-delimiter
kern, anything else a vertical variant centered on the axis. -/
def delimitedSideTall (cfg : LayoutSettings) (sym : Symbol)
    (clearance axis null_delimiter_space : ℚ) : LayoutM LayoutNode :=
  if sym.codepoint = dotCodepoint then pure (hkern null_delimiter_space)
  else do
    let vg ← liftFont (cfg.ctx.vert_variant sym.codepoint clearance)
    let n ← liftFont (vg.as_layout cfg)
    pure (n.centered axis)

/-- One delimiter of `Layout::delimited` in the small branch
(src/layout/engine.rs lines 247-255): the literal glyph. -/
def delimitedSideShort (cfg : LayoutSettings) (sym : Symbol)
    (null_delimiter_space : ℚ) : LayoutM LayoutNode :=
  if sym.codepoint = dotCodepoint then pure (hkern null_delimiter_space)
  else do
    let g ← liftFont (cfg.ctx.glyph sym.codepoint)
    pure (g.as_layout cfg)

/-- One delimiter of `Layout::frac` (src/layout/engine.rs lines
541-580): `None` becomes the null-delimiter kern, `Some` a vertical
variant sized by `fracDelimClearance` and centered on the axis. -/
def fracDelimSide (cfg : LayoutSettings) (delim? : Option Symbol)
    (inner : LayoutNode) (null_delimiter_space : ℚ) : LayoutM LayoutNode :=
  match delim? with
  | none => pure (hkern null_delimiter_space)
  | some sym => do
    let c := cfg.ctx.constants
    let clearance := fracDelimClearance c cfg.font_size inner.height inner.depth
    let vg ← liftFont (cfg.ctx.vert_variant sym.codepoint (cfg.to_font clearance))
    let nn ← liftFont (vg.as_layout cfg)
    pure (nn.centered (scaledEm c.axis_height cfg))

/-- One optional delimiter of `Layout::array` (src/layout/engine.rs
lines 841-854). -/
def arrayDelimNode (cfg : LayoutSettings) (d? : Option Symbol)
    (clearance axis : ℚ) : LayoutM (Option LayoutNode) :=
  match d? with
  | some sym => do
    let vg ← liftFont (cfg.ctx.vert_variant sym.codepoint (cfg.to_font clearance))
    let n ← liftFont (vg.as_layout cfg)
    pure (some (n.centered axis))
  | none => pure none

/-- src/layout/engine.rs lines 663-668: the minimum inter-line gap of
`Layout::substack`. -/
def substackGapMin (cfg : LayoutSettings) : ℚ :=
  if Style.lt .Text cfg.style then
    scaledEm cfg.ctx.constants.stack_display_style_gap_min cfg
  else
    scaledEm cfg.ctx.constants.stack_gap_min cfg

/-- src/layout/engine.rs lines 670-682: the attempted inter-line gap of
`Layout::substack`. -/
def substackGapTry (cfg : LayoutSettings) : ℚ :=
  scaledEm
    (if Style.lt .Text cfg.style then
      cfg.ctx.constants.stack_top_display_style_shift_up
      - cfg.ctx.constants.axis_height
      + cfg.ctx.constants.stack_bottom_shift_down
      - cfg.ctx.constants.accent_base_height * 2
    else
      cfg.ctx.constants.stack_top_shift_up
      - cfg.ctx.constants.axis_height
      + cfg.ctx.constants.stack_bottom_shift_down
      - cfg.ctx.constants.accent_base_height * 2) cfg

/-- src/layout/engine.rs lines 644-652: widest line and its index. -/
def substackWidest (lines : List Layout) : ℚ × Nat :=
  let st := lines.foldl
    (fun (st : ℚ × Nat × Nat) (line : Layout) =>
      let (widest, widest_idx, n) := st
      if line.width > widest then (line.width, n, n + 1)
      else (widest, widest_idx, n + 1))
    (0, 0, 0)
  (st.1, st.2.1)

/-- src/layout/engine.rs lines 654-661: re-align all lines other than
the widest. -/
def substackCenterLines (lines : List Layout) (widest : ℚ) (widest_idx : Nat) :
    List Layout :=
  lines.enum.map fun p =>
    let (n, line) := p
    if n = widest_idx then line
    else { line with alignment := .Centered line.width, width := widest }

/-- src/layout/engine.rs lines 684-696: the join loop, including the
source's `if idx < length` guard after each line. -/
def substackJoin (gap_min gap_try : ℚ) (length : Nat) (lines : List Layout) :
    VBoxBuilder :=
  lines.enum.foldl
    (fun (vbox : VBoxBuilder) (p : Nat × Layout) =>
      let (idx, line) := p
      let prev := line.depth
      let vbox := vbox.add_node line.as_node
      if idx < length then
        vbox.add_node (vkern (max gap_min (gap_try - prev)))
      else vbox)
    {}

/-- Missing array cells stand for `Layout::new()`
(src/layout/engine.rs line 754). -/
def orNewLayout : Option Layout → Layout
  | some l => l
  | none => Layout.new

/-- src/layout/engine.rs line 751: per-column width maxima over the
real (present) cells of each row. -/
def arrayColWidths (rows : List (List (Option Layout))) (init : List ℚ) :
    List ℚ :=
  rows.foldl
    (fun ws row =>
      List.zipWith
        (fun w sq =>
          match sq with
          | some l => max w l.width
          | none => w)
        ws row)
    init

/-- src/layout/engine.rs lines 739-764: per-row heights
(`row_max + prev_depth`, with `row_max` reset to the strut height and
`prev_depth = max(0, max_depth - strut_depth)` carried to the next
row). -/
def arrayRowHeights (strut_height strut_depth : ℚ)
    (rows : List (List (Option Layout))) : List ℚ :=
  (rows.foldl
    (fun (st : ℚ × List ℚ) row =>
      let (prev_depth, acc) := st
      let row_max := row.foldl
        (fun m sq =>
          match sq with
          | some l => max l.height m
          | none => m)
        strut_height
      let max_depth := row.foldl
        (fun m sq =>
          match sq with
          | some l => max m (-l.depth)
          | none => m)
        0
      (max 0 (max_depth - strut_depth), acc ++ [row_max + prev_depth]))
    (0, [])).2

/-- src/layout/engine.rs lines 777-805: one column's vertical box. -/
def arrayColumnVBox (col_width : ℚ) (row_heights : List ℚ) (row_sep : ℚ)
    (num_rows : Nat) (col : List Layout) : LayoutNode :=
  (col.enum.foldl
    (fun (b : VBoxBuilder) (p : Nat × Layout) =>
      let (row_idx, row) := p
      let row :=
        if row.width < col_width then
          { row with alignment := .Centered row.width, width := col_width }
        else row
      let rh := row_heights.getD row_idx 0
      let b :=
        if row.height < rh then b.add_node (vkern (rh - row.height)) else b
      let node := row.as_node
      if row_idx + 1 = num_rows then
        (b.add_node node).add_node (vkern (max (-node.depth) row_sep))
      else
        (b.add_node node).add_node (vkern row_sep))
    {}).build

/-- src/layout/engine.rs lines 768-816: the matrix body `HBox`
(null-delimiter kerns on delimiter-free sides, column separators
between columns). -/
def arrayBodyHBox (null_delim_space column_sep : ℚ)
    (left_none right_none : Bool) (num_columns : Nat)
    (colBoxes : List LayoutNode) : HBoxBuilder :=
  let b : HBoxBuilder := {}
  let b := if left_none then b.add_node (hkern null_delim_space) else b
  let b := colBoxes.enum.foldl
    (fun (b : HBoxBuilder) (p : Nat × LayoutNode) =>
      let (col_idx, node) := p
      let b := b.add_node node
      if col_idx + 1 < num_columns then b.add_node (hkern column_sep) else b)
    b
  if right_none then b.add_node (hkern null_delim_space) else b

/-- The delimiter wrap of `Layout::array` (src/layout/engine.rs lines
828-856), assembled from the already-fetched optional delimiters. -/
def arrayDelimWrap (acc : Layout) (vboxN : LayoutNode)
    (leftD rightD : Option LayoutNode) : Layout :=
  match leftD, rightD with
  | none, none => acc.add_node vboxN
  | _, _ =>
    let hbox2 : HBoxBuilder := {}
    let hbox2 :=
      match leftD with
      | some n => hbox2.add_node n
      | none => hbox2
    let hbox2 := hbox2.add_node vboxN
    let hbox2 :=
      match rightD with
      | some n => hbox2.add_node n
      | none => hbox2
    acc.add_node hbox2.build

/-! ## The recursive engine (src/layout/engine.rs)

Every function first consumes one unit of fuel; `none` (out of fuel)
never occurs when the fuel exceeds the total size of the input. -/

mutual

/-- src/layout/engine.rs lines 22-24: `layout` (entry point). -/
def layoutAux (fuel : Nat) (nodes : List ParseNode) (cfg : LayoutSettings) :
    LayoutM Layout :=
  match fuel with
  | 0 => outOfFuel
  | fuel + 1 => layoutRecurseAux fuel nodes cfg .Transparent

/-- src/layout/engine.rs lines 28-31: `layout_recurse` (fresh layout,
`prev` starts `Transparent`). -/
def layoutRecurseAux (fuel : Nat) (nodes : List ParseNode)
    (cfg : LayoutSettings) (parent_next : AtomType) : LayoutM Layout :=
  match fuel with
  | 0 => outOfFuel
  | fuel + 1 => layoutLoopAux fuel cfg parent_next nodes .Transparent Layout.new

/-- src/layout/engine.rs lines 32-71: the body of `layout_recurse`'s
loop, threading the mutable `config`, `prev` and the accumulating
layout; ends with `Ok(layout.finalize())`. -/
def layoutLoopAux (fuel : Nat) (cfg : LayoutSettings) (parent_next : AtomType)
    (nodes : List ParseNode) (prev : AtomType) (acc : Layout) : LayoutM Layout :=
  match fuel with
  | 0 => outOfFuel
  | fuel + 1 =>
    match nodes with
    | [] => pure acc.finalize
    | node :: rest => do
      let some next ←
        (pure (match rest.head? with
          | some n => atomTypeAux fuel n
          | none => some parent_next) : LayoutM (Option AtomType)) | outOfFuel
      let some current0 ← (pure (atomTypeAux fuel node) : LayoutM (Option AtomType))
        | outOfFuel
      let current := binaryCoerce prev current0 next
      let acc := loopSpaceAcc acc (atom_space prev current cfg.style) cfg
      match node with
      | .Style s => layoutLoopAux fuel { cfg with style := s } parent_next rest current acc
      | _ => do
        let acc ← dispatchAux fuel acc cfg node next
        layoutLoopAux fuel cfg parent_next rest current acc

/-- src/layout/engine.rs lines 73-77: `layout_node`.  The source
discards the `Result` of `dispatch` (line 75); every handler touches
`self` only after its last fallible operation, so when `dispatch`
errors the layout is still `Layout::new()` and the error is silently
dropped. -/
def layoutNodeAux (fuel : Nat) (node : ParseNode) (cfg : LayoutSettings) :
    Option Layout :=
  match fuel with
  | 0 => none
  | fuel + 1 =>
    match (dispatchAux fuel Layout.new cfg node .Transparent).run with
    | none => none
    | some (.ok l) => some l.finalize
    | some (.error _) => some (Layout.new.finalize)

/-- src/layout/engine.rs lines 80-115: `Layout::dispatch`. -/
def dispatchAux (fuel : Nat) (acc : Layout) (cfg : LayoutSettings)
    (node : ParseNode) (next : AtomType) : LayoutM Layout :=
  match fuel with
  | 0 => outOfFuel
  | fuel + 1 =>
    match node with
    | .Symbol sym => liftLayout (symbolFn acc sym cfg)
    | .Scripts base sup sub => scriptsAux fuel acc base sup sub cfg
    | .Radical inner => radicalAux fuel acc inner cfg
    | .Delimited left right inner => delimitedAux fuel acc left right inner cfg
    | .Accent sym nucleus => accentAux fuel acc sym nucleus cfg
    | .GenFraction num den bar ld rd sty => fracAux fuel acc num den bar ld rd sty cfg
    | .Stack _ lines => substackAux fuel acc lines cfg
    | .Array _ rows ld rd => arrayAux fuel acc rows ld rd cfg
    | .AtomChange _ inner => do
      let l ← layoutAux fuel inner cfg
      pure (acc.add_node l.as_node)
    | .Group inner => do
      let l ← layoutAux fuel inner cfg
      pure (acc.add_node l.as_node)
    | .Rule w h => pure (acc.add_node (ruleAsLayout w h cfg))
    | .Kerning u => pure (acc.add_node (hkern (u.scaled cfg)))
    | .Color clr inner => do
      let l ← layoutRecurseAux fuel inner cfg next
      pure (acc.add_node (colorNode l clr))
    | _ => pure acc

/-- src/layout/engine.rs lines 143-203: `Layout::accent`. -/
def accentAux (fuel : Nat) (acc : Layout) (sym : Symbol)
    (nucleus : List ParseNode) (cfg : LayoutSettings) : LayoutM Layout :=
  match fuel with
  | 0 => outOfFuel
  | fuel + 1 => do
    let base ← layoutAux fuel nucleus cfg.cramped
    let accent_variant ← liftFont (cfg.ctx.horz_variant sym.codepoint (cfg.to_font base.width))
    let accent ← liftFont (accent_variant.as_layout cfg)
    let some baseSym? ← (pure (layoutListIsSymbol fuel base.contents) :
      LayoutM (Option (Option LayoutGlyph))) | outOfFuel
    let base_offset ← accentBaseOffset cfg base baseSym?
    let acc_offset ← accentAccOffset cfg accent_variant accent
    let delta := -(min base.height (scaledEm cfg.ctx.constants.accent_base_height cfg))
    pure (acc.add_node (vboxOf [
      hboxOf [hkern (base_offset - acc_offset), accent],
      vkern delta,
      base.as_node]))

/-- src/layout/engine.rs lines 163-174: the base attachment point of
`Layout::accent`. -/
def accentBaseOffset (cfg : LayoutSettings) (base : Layout)
    (baseSym? : Option LayoutGlyph) : LayoutM ℚ :=
  match baseSym? with
  | some s => do
    let glyph ← liftFont (cfg.ctx.glyph_from_gid s.gid)
    if glyph.attachment ≠ 0 then
      pure (scaledFont glyph.attachment cfg)
    else
      pure (scaledFont ((glyph.advance + glyph.italics) * (1 / 2)) cfg)
  | none => pure (base.width * (1 / 2))

/-- src/layout/engine.rs lines 176-190: the accent attachment point of
`Layout::accent`. -/
def accentAccOffset (cfg : LayoutSettings) (accent_variant : VariantGlyph)
    (accent : LayoutNode) : LayoutM ℚ :=
  match accent_variant with
  | .Replacement gid => do
    let glyph ← liftFont (cfg.ctx.glyph_from_gid gid)
    if glyph.attachment ≠ 0 then
      pure (scaledFont glyph.attachment cfg)
    else
      pure (scaledFont ((glyph.bbox2 + glyph.bbox0) * (1 / 2)) cfg)
  | .Constructable _ _ => pure (accent.width * (1 / 2))

/-- src/layout/engine.rs lines 205-263: `Layout::delimited`. -/
def delimitedAux (fuel : Nat) (acc : Layout) (left right : Symbol)
    (innerNodes : List ParseNode) (cfg : LayoutSettings) : LayoutM Layout :=
  match fuel with
  | 0 => outOfFuel
  | fuel + 1 => do
    let innerL ← layoutAux fuel innerNodes cfg
    let inner := innerL.as_node
    let c := cfg.ctx.constants
    let min_height := c.delimited_sub_formula_min_height * cfg.font_size
    let null_delimiter_space := c.null_delimiter_space * cfg.font_size
    if max inner.height (-inner.depth) > min_height * (1 / 2) then do
      let axis := c.axis_height * cfg.font_size
      let clearance :=
        cfg.to_font (delimitedClearance c cfg.font_size inner.height inner.depth)
      let leftN ← delimitedSideTall cfg left clearance axis null_delimiter_space
      let rightN ← delimitedSideTall cfg right clearance axis null_delimiter_space
      pure (((acc.add_node leftN).add_node inner).add_node rightN)
    else do
      let leftN ← delimitedSideShort cfg left null_delimiter_space
      let rightN ← delimitedSideShort cfg right null_delimiter_space
      pure (((acc.add_node leftN).add_node inner).add_node rightN)

/-- src/layout/engine.rs lines 268-271: the `Scripts` base layout
(`layout_node`, with errors dropped) or the empty layout. -/
def scriptsBaseAux (fuel : Nat) (base? : Option ParseNode)
    (cfg : LayoutSettings) : LayoutM Layout :=
  match fuel with
  | 0 => outOfFuel
  | fuel + 1 =>
    match base? with
    | some b =>
      match layoutNodeAux fuel b cfg with
      | some l => pure l
      | none => outOfFuel
    | none => pure Layout.new

/-- src/layout/engine.rs lines 273-281: an optional script sequence's
layout (`layout(seq, cfg)`) or the empty layout. -/
def layoutOptionalAux (fuel : Nat) (s? : Option (List ParseNode))
    (cfg : LayoutSettings) : LayoutM Layout :=
  match fuel with
  | 0 => outOfFuel
  | fuel + 1 =>
    match s? with
    | some s => layoutAux fuel s cfg
    | none => pure Layout.new

/-- src/layout/engine.rs lines 265-411: `Layout::scripts`. -/
def scriptsAux (fuel : Nat) (acc : Layout) (base? : Option ParseNode)
    (sup? sub? : Option (List ParseNode)) (cfg : LayoutSettings) : LayoutM Layout :=
  match fuel with
  | 0 => outOfFuel
  | fuel + 1 => do
    let base ← scriptsBaseAux fuel base? cfg
    let sup ← layoutOptionalAux fuel sup? cfg.superscript_variant
    let sub ← layoutOptionalAux fuel sub? cfg.subscript_variant
    let isOpLimits ← scriptsOpLimitsCheck fuel base?
    if isOpLimits then
      operatorLimits fuel acc base sup sub cfg
    else do
      let (adjust_up0, sup_kern) ← scriptsSupAdjust fuel cfg base? sup? base sup
      let (adjust_down0, sub_kern) ← scriptsSubAdjust fuel cfg base? sub? base sub
      pure (scriptsAssemble acc base sup sub sup?.isSome sub?.isSome
        (scaledEm cfg.ctx.constants.sub_superscript_gap_min cfg)
        adjust_up0 adjust_down0 sup_kern sub_kern)

/-- src/layout/engine.rs lines 475-587: `Layout::frac`. -/
def fracAux (fuel : Nat) (acc : Layout) (numerator denominator : List ParseNode)
    (bar_thickness : BarThickness) (left_delimiter right_delimiter : Option Symbol)
    (style : MathStyle) (cfg : LayoutSettings) : LayoutM Layout :=
  match fuel with
  | 0 => outOfFuel
  | fuel + 1 => do
    let cfg :=
      match style with
      | .NoChange => cfg
      | .Display => cfg.with_display
      | .Text => cfg.with_text
    let c := cfg.ctx.constants
    let bar :=
      match bar_thickness with
      | .Default => scaledEm c.fraction_rule_thickness cfg
      | .None => 0
      | .Unit u => u.scaled cfg
    let n ← layoutAux fuel numerator cfg.numerator
    let d ← layoutAux fuel denominator cfg.denominator
    let nd :=
      if n.width > d.width then
        (n, { d with alignment := .Centered d.width, width := n.width })
      else
        ({ n with alignment := .Centered n.width, width := d.width }, d)
    let numer := nd.1.as_node
    let denom := nd.2.as_node
    let axis := scaledEm c.axis_height cfg
    let quads :=
      if Style.lt .Text cfg.style then
        (scaledEm c.fraction_numerator_display_style_shift_up cfg,
         scaledEm c.fraction_denominator_display_style_shift_down cfg,
         scaledEm c.fraction_num_display_style_gap_min cfg,
         scaledEm c.fraction_denom_display_style_gap_min cfg)
      else
        (scaledEm c.fraction_numerator_shift_up cfg,
         scaledEm c.fraction_denominator_shift_down cfg,
         scaledEm c.fraction_numerator_gap_min cfg,
         scaledEm c.fraction_denominator_gap_min cfg)
    let shift_up := quads.1
    let shift_down := quads.2.1
    let gap_num := quads.2.2.1
    let gap_denom := quads.2.2.2
    let kern_num := max (shift_up - axis - bar * (1 / 2)) (gap_num - numer.depth)
    let kern_den := max (shift_down + axis - denom.height - bar * (1 / 2)) gap_denom
    let offset := denom.height + kern_den + bar * (1 / 2) - axis
    let width := numer.width
    let inner := vboxOffsetOf offset [
      numer, vkern kern_num, ruleNode width bar, vkern kern_den, denom]
    let null_delimiter_space := c.null_delimiter_space * cfg.font_size
    let leftN ← fracDelimSide cfg left_delimiter inner null_delimiter_space
    let rightN ← fracDelimSide cfg right_delimiter inner null_delimiter_space
    pure (((acc.add_node leftN).add_node inner).add_node rightN)

/-- src/layout/engine.rs lines 589-629: `Layout::radical`. -/
def radicalAux (fuel : Nat) (acc : Layout) (innerNodes : List ParseNode)
    (cfg : LayoutSettings) : LayoutM Layout :=
  match fuel with
  | 0 => outOfFuel
  | fuel + 1 => do
    let contentsL ← layoutAux fuel innerNodes cfg.cramped
    let contents := contentsL.as_node
    let c := cfg.ctx.constants
    let gap :=
      if Style.le .Display cfg.style then
        scaledEm c.radical_display_style_vertical_gap cfg
      else
        scaledEm c.radical_vertical_gap cfg
    let rule_thickness := scaledEm c.radical_rule_thickness cfg
    let rule_ascender := scaledEm c.radical_extra_ascender cfg
    let inner_height := (contents.height - contents.depth) + gap + rule_thickness
    let vg ← liftFont (cfg.ctx.vert_variant sqrtCodepoint (cfg.to_font inner_height))
    let sqrtN ← liftFont (vg.as_layout cfg)
    let delta := (sqrtN.height - sqrtN.depth - inner_height) * (1 / 2) + rule_thickness
    let gap := max delta gap
    let offset := rule_thickness + gap + contents.height
    let offset := sqrtN.height - offset
    let top_padding := rule_ascender - rule_thickness
    let acc := acc.add_node (vboxOffsetOf offset [sqrtN])
    pure (acc.add_node (vboxOf [
      vkern top_padding,
      ruleNode contents.width rule_thickness,
      vkern gap,
      contents]))

/-- src/layout/engine.rs lines 645-651 (cell loop of `substack`). -/
def layoutLinesAux (fuel : Nat) (lines : List (List ParseNode))
    (cfg : LayoutSettings) : LayoutM (List Layout) :=
  match fuel with
  | 0 => outOfFuel
  | fuel + 1 =>
    match lines with
    | [] => pure []
    | l :: ls => do
      let lay ← layoutAux fuel l cfg
      let rest ← layoutLinesAux fuel ls cfg
      pure (lay :: rest)

/-- src/layout/engine.rs lines 631-707: `Layout::substack`. -/
def substackAux (fuel : Nat) (acc : Layout) (lines : List (List ParseNode))
    (cfg : LayoutSettings) : LayoutM Layout :=
  match fuel with
  | 0 => outOfFuel
  | fuel + 1 =>
    if lines.length = 0 then pure acc
    else do
      let lineLayouts ← layoutLinesAux fuel lines cfg
      let wpair := substackWidest lineLayouts
      let lineLayouts := substackCenterLines lineLayouts wpair.1 wpair.2
      let c := cfg.ctx.constants
      let gap_min := substackGapMin cfg
      let gap_try := substackGapTry cfg
      let vbox := substackJoin gap_min gap_try lineLayouts.length lineLayouts
      let offset := (vbox.height + vbox.depth) * (1 / 2) - scaledEm c.axis_height cfg
      let vbox := vbox.set_offset offset
      pure (acc.add_node vbox.build)

/-- src/layout/engine.rs lines 743-757 (one row of pass 1): lay out the
first `cols` cells of the row, `none` for the missing ones. -/
def arrayCellsAux (fuel : Nat) (cfg : LayoutSettings) (cols : Nat)
    (cells : List (List ParseNode)) : LayoutM (List (Option Layout)) :=
  match fuel with
  | 0 => outOfFuel
  | fuel + 1 =>
    match cols, cells with
    | 0, _ => pure []
    | k + 1, [] => do
      let rest ← arrayCellsAux fuel cfg k []
      pure (none :: rest)
    | k + 1, cell :: cs => do
      let l ← layoutAux fuel cell cfg
      let rest ← arrayCellsAux fuel cfg k cs
      pure (some l :: rest)

/-- Pass 1 of `Layout::array` over all rows. -/
def arrayRowsAux (fuel : Nat) (cfg : LayoutSettings) (cols : Nat)
    (rows : List (List (List ParseNode))) : LayoutM (List (List (Option Layout))) :=
  match fuel with
  | 0 => outOfFuel
  | fuel + 1 =>
    match rows with
    | [] => pure []
    | r :: rs => do
      let cells ← arrayCellsAux fuel cfg cols r
      let rest ← arrayRowsAux fuel cfg cols rs
      pure (cells :: rest)

/-- src/layout/engine.rs lines 709-858: `Layout::array`. -/
def arrayAux (fuel : Nat) (acc : Layout) (rows : List (List (List ParseNode)))
    (left_delimiter right_delimiter : Option Symbol) (cfg : LayoutSettings) :
    LayoutM Layout :=
  match fuel with
  | 0 => outOfFuel
  | fuel + 1 => do
    let strut_height := (7 / 10 : ℚ) * cfg.font_size
    let strut_depth := (3 / 10 : ℚ) * cfg.font_size
    let row_sep := (1 / 4 : ℚ) * cfg.font_size
    let column_sep := (5 / 12 : ℚ) * cfg.font_size
    let num_rows := rows.length
    let num_columns := (rows.map List.length).foldl max 0
    if num_columns = 0 then pure acc
    else do
      let squares ← arrayRowsAux fuel cfg num_columns rows
      let col_widths := arrayColWidths squares (List.replicate num_columns 0)
      let row_heights := arrayRowHeights strut_height strut_depth squares
      let columns :=
        (List.range num_columns).map fun col_idx =>
          squares.map fun row => orNewLayout (row.getD col_idx none)
      let c := cfg.ctx.constants
      let colBoxes :=
        columns.enum.map fun p =>
          arrayColumnVBox (col_widths.getD p.1 0) row_heights row_sep num_rows p.2
      let hbox := arrayBodyHBox (c.null_delimiter_space * cfg.font_size) column_sep
        left_delimiter.isNone right_delimiter.isNone num_columns colBoxes
      let height := hbox.height
      let vbox : VBoxBuilder := {}
      let offset := height * (1 / 2) - scaledEm c.axis_height cfg
      let vbox := vbox.set_offset offset
      let vbox := vbox.add_node hbox.build
      let vboxN := vbox.build
      if left_delimiter.isNone ∧ right_delimiter.isNone then
        pure (acc.add_node vboxN)
      else do
        let axis := scaledEm c.axis_height cfg
        let clearance := max (height * c.delimiter_factor)
          (height - c.delimiter_short_fall * cfg.font_size)
        let leftD ← arrayDelimNode cfg left_delimiter clearance axis
        let rightD ← arrayDelimNode cfg right_delimiter clearance axis
        pure (arrayDelimWrap acc vboxN leftD rightD)

end



/-! ## Output-tree measures and the engine invariant predicate -/

/-- Sum of the widths of a list of layout nodes. -/
def sumWidths (ns : List LayoutNode) : ℚ :=
  ns.foldl (fun acc n => acc + n.width) 0

/-- The `HBox` builder's height accumulator: fold of `max` from 0. -/
def maxHeights (ns : List LayoutNode) : ℚ :=
  ns.foldl (fun acc n => max acc n.height) 0

/-- The `HBox` builder's depth accumulator: fold of `min` from 0. -/
def minDepths (ns : List LayoutNode) : ℚ :=
  ns.foldl (fun acc n => min acc n.depth) 0

/-- Is this node a `Color` node? -/
def isColorNode (n : LayoutNode) : Bool :=
  match n.node with
  | .Color _ => true
  | _ => false

/-- The structural invariant of every node the engine emits:
no `Grid` nodes; every `HorizontalBox` has offset 0, its height and
depth are the accumulator folds over its children, and its recorded
width is the children's width sum unless the box was re-aligned
`Centered` (the engine overrides the width exactly when it centers);
every `VerticalBox` has no `Color` node among its direct children. -/
inductive GoodNode : LayoutNode → Prop where
  | glyph (w h d : ℚ) (g : LayoutGlyph) : GoodNode (.mk w h d (.Glyph g))
  | rule (w h d : ℚ) : GoodNode (.mk w h d .Rule)
  | kern (w h d : ℚ) : GoodNode (.mk w h d .Kern)
  | hbox (w h d : ℚ) (contents : List LayoutNode) (offset : ℚ)
      (alignment : Alignment)
      (hoff : offset = 0)
      (hw : w = sumWidths contents ∨ ∃ cw, alignment = .Centered cw)
      (hh : h = maxHeights contents)
      (hd : d = minDepths contents)
      (hk : ∀ c ∈ contents, GoodNode c) :
      GoodNode (.mk w h d (.HorizontalBox (.mk contents offset alignment)))
  | vbox (w h d : ℚ) (contents : List LayoutNode) (offset : ℚ)
      (alignment : Alignment)
      (hc : ∀ c ∈ contents, isColorNode c = false)
      (hk : ∀ c ∈ contents, GoodNode c) :
      GoodNode (.mk w h d (.VerticalBox (.mk contents offset alignment)))
  | color (w h d : ℚ) (clr : RGBA) (inner : List LayoutNode)
      (hk : ∀ c ∈ inner, GoodNode c) :
      GoodNode (.mk w h d (.Color (.mk clr inner)))

/-- The invariant of every `Layout` value the engine's recursion
returns: offset 0, default alignment, and the three accumulators agree
with the contents. -/
def GoodLayout (l : Layout) : Prop :=
  l.offset = 0 ∧ l.alignment = .Default ∧
  l.width = sumWidths l.contents ∧
  l.height = maxHeights l.contents ∧
  l.depth = minDepths l.contents ∧
  ∀ c ∈ l.contents, GoodNode c

/-- The child nodes stored in a grid. -/
def gridNodes (g : GridData) : List LayoutNode :=
  match g with
  | .mk contents _ _ => contents.map Prod.snd

/-- Claim-level view for C3: every `HorizontalBox` reachable in the
tree satisfies the box-dimension identities (heights/depths are the
max/min folds; the width is the children's sum unless the box carries
a `Centered` alignment, in which case the recorded width is the
enclosing target width set by the engine). -/
inductive HBoxDimsOk : LayoutNode → Prop where
  | glyph (w h d : ℚ) (g : LayoutGlyph) : HBoxDimsOk (.mk w h d (.Glyph g))
  | rule (w h d : ℚ) : HBoxDimsOk (.mk w h d .Rule)
  | kern (w h d : ℚ) : HBoxDimsOk (.mk w h d .Kern)
  | grid (w h d : ℚ) (g : GridData)
      (hk : ∀ c ∈ gridNodes g, HBoxDimsOk c) :
      HBoxDimsOk (.mk w h d (.Grid g))
  | hbox (w h d : ℚ) (contents : List LayoutNode) (offset : ℚ)
      (alignment : Alignment)
      (hw : w = sumWidths contents ∨ ∃ cw, alignment = .Centered cw)
      (hh : h = maxHeights contents)
      (hd : d = minDepths contents)
      (hk : ∀ c ∈ contents, HBoxDimsOk c) :
      HBoxDimsOk (.mk w h d (.HorizontalBox (.mk contents offset alignment)))
  | vbox (w h d : ℚ) (contents : List LayoutNode) (offset : ℚ)
      (alignment : Alignment)
      (hk : ∀ c ∈ contents, HBoxDimsOk c) :
      HBoxDimsOk (.mk w h d (.VerticalBox (.mk contents offset alignment)))
  | color (w h d : ℚ) (clr : RGBA) (inner : List LayoutNode)
      (hk : ∀ c ∈ inner, HBoxDimsOk c) :
      HBoxDimsOk (.mk w h d (.Color (.mk clr inner)))

/-- Claim-level view for C10: no `VerticalBox` anywhere in the tree
has a `Color` node as a direct child. -/
inductive NoColorInVBox : LayoutNode → Prop where
  | glyph (w h d : ℚ) (g : LayoutGlyph) : NoColorInVBox (.mk w h d (.Glyph g))
  | rule (w h d : ℚ) : NoColorInVBox (.mk w h d .Rule)
  | kern (w h d : ℚ) : NoColorInVBox (.mk w h d .Kern)
  | grid (w h d : ℚ) (g : GridData)
      (hk : ∀ c ∈ gridNodes g, NoColorInVBox c) :
      NoColorInVBox (.mk w h d (.Grid g))
  | hbox (w h d : ℚ) (contents : List LayoutNode) (offset : ℚ)
      (alignment : Alignment)
      (hk : ∀ c ∈ contents, NoColorInVBox c) :
      NoColorInVBox (.mk w h d (.HorizontalBox (.mk contents offset alignment)))
  | vbox (w h d : ℚ) (contents : List LayoutNode) (offset : ℚ)
      (alignment : Alignment)
      (hc : ∀ c ∈ contents, isColorNode c = false)
      (hk : ∀ c ∈ contents, NoColorInVBox c) :
      NoColorInVBox (.mk w h d (.VerticalBox (.mk contents offset alignment)))
  | color (w h d : ℚ) (clr : RGBA) (inner : List LayoutNode)
      (hk : ∀ c ∈ inner, NoColorInVBox c) :
      NoColorInVBox (.mk w h d (.Color (.mk clr inner)))

/-! ## Renderer (src/render/mod.rs)

A backend call trace is accumulated; a reached `panic!` is an
`error`.  `Cursor { x, y }` is a pair of rationals, `y` growing
downward. -/

inductive Role where
  | RGlyph
  | RVBox
  | RHBox
  deriving DecidableEq, Repr

inductive BackendCall where
  | bbox (x y w h : ℚ) (role : Role)
  | symbol (x y : ℚ) (gid : Nat) (scale : ℚ)
  | rule (x y w h : ℚ)
  | begin_color (c : RGBA)
  | end_color
  deriving DecidableEq, Repr

inductive RenderPanic where
  /-- src/render/mod.rs lines 202-204: `panic!("Shouldn't have a color
  in a vertical box???")`. -/
  | colorInVBox
  /-- An out-of-bounds index while rendering a `Grid` (a Rust index
  panic). -/
  | gridIndex
  deriving DecidableEq, Repr

abbrev RenderM (α : Type) := ExceptT RenderPanic Option α

def renderFuelOut {α : Type} : RenderM α := ExceptT.mk none

/-- src/layout/builders.rs lines 152-165: `Grid::x_offsets` /
`y_offsets` (prefix sums). -/
def gridXOffsets (g : GridData) : List ℚ :=
  match g with
  | .mk _ columns _ =>
    (columns.foldl (fun (st : ℚ × List ℚ) w => (st.1 + w, st.2 ++ [st.1])) (0, [])).2

def gridYOffsets (g : GridData) : List ℚ :=
  match g with
  | .mk _ _ rows =>
    (rows.foldl (fun (st : ℚ × List ℚ) p => (st.1 + (p.1 - p.2), st.2 ++ [st.1]))
      (0, [])).2

mutual

/-- src/render/mod.rs lines 109-125: `render_grid`. -/
def renderGridAux (fuel : Nat) (dbg : Bool) (px py : ℚ) (grid : GridData) :
    RenderM (List BackendCall) :=
  match fuel with
  | 0 => renderFuelOut
  | fuel + 1 =>
    match grid with
    | .mk contents columns rows =>
      renderGridEntries fuel dbg px py (gridXOffsets grid) (gridYOffsets grid)
        columns rows contents

def renderGridEntries (fuel : Nat) (dbg : Bool) (px py : ℚ)
    (xs ys : List ℚ) (columns : List ℚ) (rows : List (ℚ × ℚ))
    (entries : List ((Nat × Nat) × LayoutNode)) : RenderM (List BackendCall) :=
  match fuel with
  | 0 => renderFuelOut
  | fuel + 1 =>
    match entries with
    | [] => pure []
    | ((row, column), node) :: rest => do
      match columns.get? column, rows.get? row, xs.get? column, ys.get? row with
      | some _, some (rh, _), some xo, some yo => do
        let calls ← renderNodeAux fuel dbg (px + xo) (py + yo + rh) node
        let more ← renderGridEntries fuel dbg px py xs ys columns rows rest
        pure (calls ++ more)
      | _, _, _, _ => throw .gridIndex

/-- src/render/mod.rs lines 127-148: `render_hbox`. -/
def renderHboxAux (fuel : Nat) (dbg : Bool) (px py : ℚ)
    (nodes : List LayoutNode) (height nodes_width : ℚ) (alignment : Alignment) :
    RenderM (List BackendCall) :=
  match fuel with
  | 0 => renderFuelOut
  | fuel + 1 => do
    let head := if dbg then [BackendCall.bbox px (py - height) nodes_width height .RHBox] else []
    let px :=
      match alignment with
      | .Centered w => px + (nodes_width - w) * (1 / 2)
      | _ => px
    let body ← renderHboxNodes fuel dbg px py nodes
    pure (head ++ body)

def renderHboxNodes (fuel : Nat) (dbg : Bool) (px py : ℚ)
    (nodes : List LayoutNode) : RenderM (List BackendCall) :=
  match fuel with
  | 0 => renderFuelOut
  | fuel + 1 =>
    match nodes with
    | [] => pure []
    | node :: rest => do
      let calls ← renderNodeAux fuel dbg px py node
      let more ← renderHboxNodes fuel dbg (px + node.width) py rest
      pure (calls ++ more)

/-- src/render/mod.rs lines 149-211: `render_vbox`. -/
def renderVboxAux (fuel : Nat) (dbg : Bool) (px py : ℚ)
    (nodes : List LayoutNode) : RenderM (List BackendCall) :=
  match fuel with
  | 0 => renderFuelOut
  | fuel + 1 =>
    match nodes with
    | [] => pure []
    | node :: rest => do
      let calls ←
        match node.node with
        | .Rule => pure [BackendCall.rule px py node.width node.height]
        | .Grid g => renderGridAux fuel dbg px py g
        | .HorizontalBox hb =>
          renderHboxAux fuel dbg px (py + node.height) hb.contents
            node.height node.width hb.alignment
        | .VerticalBox vb => do
          let head :=
            if dbg then
              [BackendCall.bbox px py node.width (node.height - node.depth) .RVBox]
            else []
          let body ← renderVboxAux fuel dbg px py vb.contents
          pure (head ++ body)
        | .Glyph gly => do
          let head :=
            if dbg then
              [BackendCall.bbox px py node.width (node.height - node.depth) .RGlyph]
            else []
          pure (head ++ [BackendCall.symbol px (py + node.height) gly.gid gly.size])
        | .Color _ => throw .colorInVBox
        | .Kern => pure []
      let more ← renderVboxAux fuel dbg px (py + node.height) rest
      pure (calls ++ more)

/-- src/render/mod.rs lines 213-277: `render_node`. -/
def renderNodeAux (fuel : Nat) (dbg : Bool) (px py : ℚ) (node : LayoutNode) :
    RenderM (List BackendCall) :=
  match fuel with
  | 0 => renderFuelOut
  | fuel + 1 =>
    match node.node with
    | .Glyph gly => do
      let head :=
        if dbg then
          [BackendCall.bbox px (py - node.height) node.width (node.height - node.depth) .RGlyph]
        else []
      pure (head ++ [BackendCall.symbol px py gly.gid gly.size])
    | .Rule => pure [BackendCall.rule px (py - node.height) node.width node.height]
    | .VerticalBox vb => do
      let head :=
        if dbg then
          [BackendCall.bbox px (py - node.height) node.width (node.height - node.depth) .RVBox]
        else []
      let body ← renderVboxAux fuel dbg px (py - node.height) vb.contents
      pure (head ++ body)
    | .HorizontalBox hb =>
      renderHboxAux fuel dbg px py hb.contents node.height node.width hb.alignment
    | .Grid g => renderGridAux fuel dbg px py g
    | .Color c => do
      let body ← renderHboxAux fuel dbg px py c.inner node.height node.width .Default
      pure ([BackendCall.begin_color c.color] ++ body ++ [BackendCall.end_color])
    | .Kern => pure []

end

/-- src/render/mod.rs lines 94-107: `Renderer::render` (top-level hbox
with the baseline at `y = 0`). -/
def renderLayout (fuel : Nat) (dbg : Bool) (l : Layout) : RenderM (List BackendCall) :=
  renderHboxAux fuel dbg 0 0 l.contents l.height l.width .Default

/-- The run reached no panic: fuel-out (`none`) and success are both
fine, an `error` is a reached `panic!`. -/
def RenderOk (r : RenderM (List BackendCall)) : Prop :=
  ∀ e, r.run ≠ some (.error e)

/-- Joint statement for the renderer's mutual recursion: on
engine-invariant inputs no panic is reached at this fuel. -/
structure RenderGoodAt (rfuel : Nat) : Prop where
  hboxP : ∀ dbg px py nodes ht nw al, (∀ c ∈ nodes, GoodNode c) →
    RenderOk (renderHboxAux rfuel dbg px py nodes ht nw al)
  nodesP : ∀ dbg px py nodes, (∀ c ∈ nodes, GoodNode c) →
    RenderOk (renderHboxNodes rfuel dbg px py nodes)
  vboxP : ∀ dbg px py nodes, (∀ c ∈ nodes, GoodNode c) →
    (∀ c ∈ nodes, isColorNode c = false) →
    RenderOk (renderVboxAux rfuel dbg px py nodes)
  nodeP : ∀ dbg px py node, GoodNode node →
    RenderOk (renderNodeAux rfuel dbg px py node)

/-! ## Concrete inputs for witnesses and counterexamples -/

/-- A font with no glyphs at all (every lookup misses). -/
def emptyFontModel : MathFontModel :=
  { gid_for_codepoint := fun _ => none
    glyph_metrics := fun _ => none
    glyph_bbox := fun _ => none
    italics_correction := fun _ => 0
    top_accent_attachment := fun _ => 0
    kern_info := fun _ => none
    vert_variant := fun _ _ => .Replacement 0
    horz_variant := fun _ _ => .Replacement 0 }

def demoCtx : FontContext :=
  { font := emptyFontModel, constants := demoConstants, units_per_em := 1000 }

def demoCfg : LayoutSettings :=
  { ctx := demoCtx, font_size := 10, style := .Display }

/-- A `Scripts` node whose base is a symbol whose codepoint (`'x'`,
120) is missing from the font. -/
def scriptsMissingGlyph : List ParseNode :=
  [.Scripts (some (.Symbol ⟨120, .Alpha⟩)) none none]

/-- A bare missing symbol (not wrapped in `Scripts`): layout fails. -/
def bareMissingGlyph : List ParseNode := [.Symbol ⟨120, .Alpha⟩]

/-- A fraction whose numerator is narrower than its denominator (pure
kern contents, so no font access): the numerator box gets widened. -/
def demoFraction : List ParseNode :=
  [.GenFraction [.Kerning (.Px 2)] [.Kerning (.Px 5)] .None none none .NoChange]

/-- The layout the engine produces for `demoFraction`. -/
def demoFractionLayout : Layout :=
  match (layoutAux 100 demoFraction demoCfg).run with
  | some (.ok l) => l
  | _ => Layout.new

/-- A two-line substack of kerns (no font access). -/
def demoStack : List ParseNode :=
  [.Stack .Alpha [[.Kerning (.Px 1)], [.Kerning (.Px 2)]]]

def demoStackLayout : Layout :=
  match (layoutAux 100 demoStack demoCfg).run with
  | some (.ok l) => l
  | _ => Layout.new


/-! ## Statement helpers -/

/-- The pairs the spec's script-style spacing row lists: the pairs
involving `Operator` that keep thin spacing in script styles. -/
def isOperatorPair (l r : AtomType) : Bool :=
  match l, r with
  | .Alpha, .Operator _ => true
  | .Operator _, .Alpha => true
  | .Operator _, .Operator _ => true
  | .Close, .Operator _ => true
  | .Inner, .Operator _ => true
  | _, _ => false

/-- Did the engine run return `Ok`? -/
def runIsOk (r : LayoutM Layout) : Bool :=
  match r.run with
  | some (.ok _) => true
  | _ => false

/-- The error of an engine run, when there is one. -/
def runError (r : LayoutM Layout) : Option LayoutError :=
  match r.run with
  | some (.error e) => some e
  | _ => none

/-- Did the renderer reach a panic? -/
def renderPanicked (r : RenderM (List BackendCall)) : Bool :=
  match r.run with
  | some (.error _) => true
  | _ => false

def nodeContents (n : LayoutNode) : List LayoutNode :=
  match n.node with
  | .HorizontalBox hb => hb.contents
  | .VerticalBox vb => vb.contents
  | .Color c => c.inner
  | _ => []

def nodeIsHBox (n : LayoutNode) : Bool :=
  match n.node with
  | .HorizontalBox _ => true
  | _ => false

def nodeAlignment (n : LayoutNode) : Option Alignment :=
  match n.node with
  | .HorizontalBox hb => some hb.alignment
  | .VerticalBox vb => some vb.alignment
  | _ => none

/-- The widened numerator box inside the demo fraction's output: the
fraction VBox is the second node of the layout (after the left
null-delimiter kern), and the numerator is its first child. -/
def demoWidenedNumer : LayoutNode :=
  (nodeContents (demoFractionLayout.contents.getD 1 (hkern 0))).getD 0 (hkern 0)

/-- The expected contents of the substack vertical box: every line
followed by its inter-line kern, including after the last line. -/
def substackExpectedContents (gap_min gap_try : ℚ) (lines : List Layout) :
    List LayoutNode :=
  lines.flatMap fun line => [line.as_node, vkern (max gap_min (gap_try - line.depth))]

/-- A color node sitting directly inside a vertical box (what the
engine never produces). -/
def colorInVBoxDemo : LayoutNode :=
  .mk 0 0 0 (.Color (.mk (RGBA.mk 1 2 3 255) []))


/-- Sum of the heights of a list of layout nodes (the `VBox` height
accumulator). -/
def sumHeights (ns : List LayoutNode) : ℚ :=
  ns.foldl (fun acc n => acc + n.height) 0

/-- Max of the widths of a list of layout nodes (the `VBox` width
accumulator). -/
def maxWidths (ns : List LayoutNode) : ℚ :=
  ns.foldl (fun acc n => max acc n.width) 0

/-- The state invariant of an `HBox` builder that has only ever been
fed good nodes through `add_node` (no width/alignment override yet). -/
def GoodHBoxBuilder (b : HBoxBuilder) : Prop :=
  b.offset = 0 ∧ b.alignment = .Default ∧
  b.width = sumWidths b.contents ∧
  b.height = maxHeights b.contents ∧
  b.depth = minDepths b.contents ∧
  ∀ c ∈ b.contents, GoodNode c

/-- The state invariant of a `VBox` builder fed good non-color nodes:
only the children matter for the tree invariant. -/
def GoodVBoxBuilder (b : VBoxBuilder) : Prop :=
  (∀ c ∈ b.contents, isColorNode c = false) ∧ ∀ c ∈ b.contents, GoodNode c

/-- The joint induction statement over the engine's mutual recursion:
every `Ok` result of every engine function (at this fuel) satisfies
the structural invariant. -/
structure EngineGoodAt (fuel : Nat) : Prop where
  layoutP : ∀ nodes cfg l,
    (layoutAux fuel nodes cfg).run = some (.ok l) → GoodLayout l
  recurseP : ∀ nodes cfg pn l,
    (layoutRecurseAux fuel nodes cfg pn).run = some (.ok l) → GoodLayout l
  loopP : ∀ cfg pn nodes prev acc l, GoodLayout acc →
    (layoutLoopAux fuel cfg pn nodes prev acc).run = some (.ok l) → GoodLayout l
  nodeP : ∀ node cfg l, layoutNodeAux fuel node cfg = some l → GoodLayout l
  dispatchP : ∀ acc cfg node next l, GoodLayout acc →
    (dispatchAux fuel acc cfg node next).run = some (.ok l) → GoodLayout l
  accentP : ∀ acc sym nucleus cfg l, GoodLayout acc →
    (accentAux fuel acc sym nucleus cfg).run = some (.ok l) → GoodLayout l
  delimitedP : ∀ acc left right inner cfg l, GoodLayout acc →
    (delimitedAux fuel acc left right inner cfg).run = some (.ok l) → GoodLayout l
  baseP : ∀ base? cfg l,
    (scriptsBaseAux fuel base? cfg).run = some (.ok l) → GoodLayout l
  optionalP : ∀ s? cfg l,
    (layoutOptionalAux fuel s? cfg).run = some (.ok l) → GoodLayout l
  scriptsP : ∀ acc base? sup? sub? cfg l, GoodLayout acc →
    (scriptsAux fuel acc base? sup? sub? cfg).run = some (.ok l) → GoodLayout l
  fracP : ∀ acc num den bar ld rd sty cfg l, GoodLayout acc →
    (fracAux fuel acc num den bar ld rd sty cfg).run = some (.ok l) → GoodLayout l
  radicalP : ∀ acc inner cfg l, GoodLayout acc →
    (radicalAux fuel acc inner cfg).run = some (.ok l) → GoodLayout l
  linesP : ∀ lines cfg ls, (layoutLinesAux fuel lines cfg).run = some (.ok ls) →
    ∀ l ∈ ls, GoodLayout l
  substackP : ∀ acc lines cfg l, GoodLayout acc →
    (substackAux fuel acc lines cfg).run = some (.ok l) → GoodLayout l
  cellsP : ∀ cfg cols cells out,
    (arrayCellsAux fuel cfg cols cells).run = some (.ok out) →
    ∀ o ∈ out, ∀ l, o = some l → GoodLayout l
  rowsP : ∀ cfg cols rows out,
    (arrayRowsAux fuel cfg cols rows).run = some (.ok out) →
    ∀ row ∈ out, ∀ o ∈ row, ∀ l, o = some l → GoodLayout l
  arrayP : ∀ acc rows ld rd cfg l, GoodLayout acc →
    (arrayAux fuel acc rows ld rd cfg).run = some (.ok l) → GoodLayout l

/-- The engine's substack output on the demo stack. -/
def demoSubstackOut : Layout :=
  match (substackAux 100 Layout.new [[.Kerning (.Px 1)], [.Kerning (.Px 2)]] demoCfg).run with
  | some (.ok l) => l
  | _ => Layout.new

/-- The demo stack's line layouts. -/
def demoStackLines : List Layout :=
  match (layoutLinesAux 99 [[.Kerning (.Px 1)], [.Kerning (.Px 2)]] demoCfg).run with
  | some (.ok ls) => ls
  | _ => []

/-! # Theorems -/

/-! ## Engine-invariant helper lemmas -/


/-! ## Run lemmas for the engine monad -/

theorem run_pure {α : Type} (a : α) : (pure a : LayoutM α).run = some (.ok a) := rfl

theorem run_outOfFuel {α : Type} : (outOfFuel : LayoutM α).run = none := rfl

theorem run_liftLayout {α : Type} (e : Except LayoutError α) :
    (liftLayout e).run = some e := rfl

theorem run_throw {α : Type} (e : LayoutError) :
    (throw e : LayoutM α).run = some (.error e) := rfl

theorem run_bind_ok {α β : Type} (x : LayoutM α) (f : α → LayoutM β) (b : β) :
    (x >>= f).run = some (.ok b) ↔
      ∃ a, x.run = some (.ok a) ∧ (f a).run = some (.ok b) := by
  rcases x with _ | (e | a) <;>
    simp [Bind.bind, ExceptT.bind, ExceptT.bindCont, ExceptT.run, ExceptT.mk,
      Option.bind]

theorem run_liftFont_ok {α : Type} (x : Except FontError α) (a : α) :
    (liftFont x).run = some (.ok a) ↔ x = .ok a := by
  cases x <;> simp [liftFont, run_pure, run_throw]

/-! ## Fold characterizations -/

theorem foldl_add_width :
    ∀ (ns : List LayoutNode) (a : ℚ),
      List.foldl (fun acc n => acc + n.width) a ns =
        a + List.foldl (fun acc n => acc + n.width) 0 ns := by
  intro ns
  induction ns with
  | nil => simp
  | cons n ns ih =>
    intro a
    simp only [List.foldl_cons]
    rw [ih (a + n.width), ih (0 + n.width)]
    ring

theorem sumWidths_cons (n : LayoutNode) (ns : List LayoutNode) :
    sumWidths (n :: ns) = n.width + sumWidths ns := by
  simp only [sumWidths, List.foldl_cons]
  rw [foldl_add_width ns (0 + n.width)]
  ring

theorem sumWidths_append (xs : List LayoutNode) (n : LayoutNode) :
    sumWidths (xs ++ [n]) = sumWidths xs + n.width := by
  simp [sumWidths, List.foldl_append]

theorem maxHeights_append (xs : List LayoutNode) (n : LayoutNode) :
    maxHeights (xs ++ [n]) = max (maxHeights xs) n.height := by
  simp [maxHeights, List.foldl_append]

theorem minDepths_append (xs : List LayoutNode) (n : LayoutNode) :
    minDepths (xs ++ [n]) = min (minDepths xs) n.depth := by
  simp [minDepths, List.foldl_append]

theorem maxHeights_cons_zeroheight (n : LayoutNode) (ns : List LayoutNode)
    (h : n.height = 0) : maxHeights (n :: ns) = maxHeights ns := by
  simp [maxHeights, List.foldl_cons, h]

theorem minDepths_cons_zerodepth (n : LayoutNode) (ns : List LayoutNode)
    (h : n.depth = 0) : minDepths (n :: ns) = minDepths ns := by
  simp [minDepths, List.foldl_cons, h]

theorem hbox_fold_char (ns : List LayoutNode) :
    ∀ b : HBoxBuilder,
      ns.foldl HBoxBuilder.add_node b =
        { width := List.foldl (fun a n => a + n.width) b.width ns,
          height := List.foldl (fun a n => max a n.height) b.height ns,
          depth := List.foldl (fun a n => min a n.depth) b.depth ns,
          contents := b.contents ++ ns,
          offset := b.offset,
          alignment := b.alignment } := by
  induction ns with
  | nil => intro b; simp
  | cons n ns ih =>
    intro b
    simp only [List.foldl_cons]
    rw [ih]
    simp [HBoxBuilder.add_node]

theorem vbox_fold_char (ns : List LayoutNode) :
    ∀ b : VBoxBuilder,
      ns.foldl VBoxBuilder.add_node b =
        { width := List.foldl (fun a n => max a n.width) b.width ns,
          height := List.foldl (fun a n => a + n.height) b.height ns,
          depth := b.depth,
          contents := b.contents ++ ns,
          offset := b.offset } := by
  induction ns with
  | nil => intro b; simp
  | cons n ns ih =>
    intro b
    simp only [List.foldl_cons]
    rw [ih]
    simp [VBoxBuilder.add_node]


/-! ## Invariant preservation through the builders -/

theorem goodNode_hkern (w : ℚ) : GoodNode (hkern w) := .kern w 0 0

theorem goodNode_vkern (h : ℚ) : GoodNode (vkern h) := .kern 0 h 0

theorem goodNode_ruleNode (w h : ℚ) : GoodNode (ruleNode w h) := .rule w h 0

theorem goodNode_glyph_as_layout (g : Glyph) (cfg : LayoutSettings) :
    GoodNode (g.as_layout cfg) := .glyph _ _ _ _

theorem goodNode_ruleAsLayout (w h : Unit) (cfg : LayoutSettings) :
    GoodNode (ruleAsLayout w h cfg) := .rule _ _ _

theorem isColorNode_hkern (w : ℚ) : isColorNode (hkern w) = false := rfl

theorem isColorNode_vkern (h : ℚ) : isColorNode (vkern h) = false := rfl

theorem isColorNode_ruleNode (w h : ℚ) : isColorNode (ruleNode w h) = false := rfl

theorem isColorNode_glyph_as_layout (g : Glyph) (cfg : LayoutSettings) :
    isColorNode (g.as_layout cfg) = false := rfl

theorem goodLayout_new : GoodLayout Layout.new := by
  refine ⟨rfl, rfl, rfl, rfl, rfl, ?_⟩
  intro c hc
  cases hc

theorem goodLayout_add {l : Layout} {n : LayoutNode}
    (hl : GoodLayout l) (hn : GoodNode n) : GoodLayout (l.add_node n) := by
  obtain ⟨ho, ha, hw, hh, hd, hk⟩ := hl
  refine ⟨ho, ha, ?_, ?_, ?_, ?_⟩
  · simp [Layout.add_node, sumWidths_append, hw]
  · simp [Layout.add_node, maxHeights_append, hh]
  · simp [Layout.add_node, minDepths_append, hd]
  · intro c hc
    simp only [Layout.add_node, List.mem_append, List.mem_singleton] at hc
    rcases hc with hc | rfl
    · exact hk c hc
    · exact hn

theorem goodLayout_finalize {l : Layout} (hl : GoodLayout l) :
    GoodLayout l.finalize := by
  obtain ⟨ho, ha, hw, hh, hd, hk⟩ := hl
  exact ⟨ho, ha, hw, by simp [Layout.finalize, ho, hh], by simp [Layout.finalize, ho, hd], hk⟩

theorem goodNode_asNode {l : Layout} (hl : GoodLayout l) : GoodNode l.as_node := by
  obtain ⟨ho, ha, hw, hh, hd, hk⟩ := hl
  exact .hbox _ _ _ _ _ _ ho (Or.inl hw) hh hd hk

theorem isColorNode_asNode (l : Layout) : isColorNode l.as_node = false := rfl

/-- `as_node` after the engine's widening mutation
(`alignment := Centered cw; width := w`). -/
theorem goodNode_asNode_widened {l : Layout} (hl : GoodLayout l) (w cw : ℚ) :
    GoodNode (Layout.as_node { l with alignment := .Centered cw, width := w }) := by
  obtain ⟨ho, ha, hw, hh, hd, hk⟩ := hl
  exact .hbox _ _ _ _ _ _ ho (Or.inr ⟨cw, rfl⟩) hh hd hk

theorem goodNode_centered_asNode {l : Layout} (hl : GoodLayout l) (w : ℚ) :
    GoodNode ((l.centered w).as_node) := by
  obtain ⟨ho, ha, hw, hh, hd, hk⟩ := hl
  exact .hbox _ _ _ _ _ _ ho (Or.inr ⟨l.width, rfl⟩) hh hd hk

/-- The engine's kern insertion at the front of a script layout
(`contents.insert(0, kern); width += kern`). -/
theorem goodLayout_consKern {l : Layout} (hl : GoodLayout l) (k : ℚ) :
    GoodLayout { l with contents := hkern k :: l.contents, width := l.width + k } := by
  obtain ⟨ho, ha, hw, hh, hd, hk⟩ := hl
  refine ⟨ho, ha, ?_, ?_, ?_, ?_⟩
  · simp only [sumWidths_cons, hkern, LayoutNode.width, hw]
    ring
  · simpa [maxHeights_cons_zeroheight (hkern k) l.contents rfl] using hh
  · simpa [minDepths_cons_zerodepth (hkern k) l.contents rfl] using hd
  · intro c hc
    rcases List.mem_cons.mp hc with rfl | hc
    · exact goodNode_hkern k
    · exact hk c hc

theorem goodHBoxBuilder_empty : GoodHBoxBuilder {} := by
  refine ⟨rfl, rfl, rfl, rfl, rfl, ?_⟩
  intro c hc
  cases hc

theorem goodHBoxBuilder_add {b : HBoxBuilder} {n : LayoutNode}
    (hb : GoodHBoxBuilder b) (hn : GoodNode n) : GoodHBoxBuilder (b.add_node n) := by
  obtain ⟨ho, ha, hw, hh, hd, hk⟩ := hb
  refine ⟨ho, ha, ?_, ?_, ?_, ?_⟩
  · simp [HBoxBuilder.add_node, sumWidths_append, hw]
  · simp [HBoxBuilder.add_node, maxHeights_append, hh]
  · simp [HBoxBuilder.add_node, minDepths_append, hd]
  · intro c hc
    simp only [HBoxBuilder.add_node, List.mem_append, List.mem_singleton] at hc
    rcases hc with hc | rfl
    · exact hk c hc
    · exact hn

theorem goodNode_hboxBuild {b : HBoxBuilder} (hb : GoodHBoxBuilder b) :
    GoodNode b.build := by
  obtain ⟨ho, ha, hw, hh, hd, hk⟩ := hb
  refine .hbox _ _ _ _ _ _ ho (Or.inl ?_) ?_ ?_ hk
  · exact hw
  · simp [HBoxBuilder.build, ho, hh]
  · simp [HBoxBuilder.build, ho, hd]

theorem isColorNode_hboxBuild (b : HBoxBuilder) : isColorNode b.build = false := rfl

theorem goodHBoxBuilder_fold {ns : List LayoutNode} {b : HBoxBuilder}
    (hb : GoodHBoxBuilder b) (hs : ∀ c ∈ ns, GoodNode c) :
    GoodHBoxBuilder (ns.foldl HBoxBuilder.add_node b) := by
  induction ns generalizing b with
  | nil => exact hb
  | cons n ns ih =>
    simp only [List.foldl_cons]
    exact ih (goodHBoxBuilder_add hb (hs n (by simp)))
      (fun c hc => hs c (by simp [hc]))

theorem goodNode_hboxOf {ns : List LayoutNode} (hs : ∀ c ∈ ns, GoodNode c) :
    GoodNode (hboxOf ns) :=
  goodNode_hboxBuild (goodHBoxBuilder_fold goodHBoxBuilder_empty hs)

theorem goodNode_hboxAlignWidth {ns : List LayoutNode} (hs : ∀ c ∈ ns, GoodNode c)
    (cw w : ℚ) : GoodNode (hboxAlignWidth (.Centered cw) w ns) := by
  obtain ⟨ho, ha, hw, hh, hd, hk⟩ := goodHBoxBuilder_fold goodHBoxBuilder_empty hs
  refine .hbox _ _ _ _ _ _ ?_ (Or.inr ⟨cw, rfl⟩) ?_ ?_ ?_
  · simpa [hboxAlignWidth, HBoxBuilder.set_alignment, HBoxBuilder.set_width,
      HBoxBuilder.build] using ho
  · simp [hboxAlignWidth, HBoxBuilder.set_alignment, HBoxBuilder.set_width,
      HBoxBuilder.build, ho, hh]
  · simp [hboxAlignWidth, HBoxBuilder.set_alignment, HBoxBuilder.set_width,
      HBoxBuilder.build, ho, hd]
  · simpa [hboxAlignWidth, HBoxBuilder.set_alignment, HBoxBuilder.set_width,
      HBoxBuilder.build] using hk

theorem goodVBoxBuilder_empty : GoodVBoxBuilder {} := by
  constructor <;> (intro c hc; cases hc)

theorem goodVBoxBuilder_add {b : VBoxBuilder} {n : LayoutNode}
    (hb : GoodVBoxBuilder b) (hn : GoodNode n) (hcn : isColorNode n = false) :
    GoodVBoxBuilder (b.add_node n) := by
  obtain ⟨hc, hk⟩ := hb
  constructor <;>
    (intro c hmem
     simp only [VBoxBuilder.add_node, List.mem_append, List.mem_singleton] at hmem)
  · rcases hmem with hmem | rfl
    · exact hc c hmem
    · exact hcn
  · rcases hmem with hmem | rfl
    · exact hk c hmem
    · exact hn

theorem goodVBoxBuilder_insert_front {b : VBoxBuilder} {n : LayoutNode}
    (hb : GoodVBoxBuilder b) (hn : GoodNode n) (hcn : isColorNode n = false) :
    GoodVBoxBuilder (b.insert_node_front n) := by
  obtain ⟨hc, hk⟩ := hb
  constructor <;>
    (intro c hmem
     simp only [VBoxBuilder.insert_node_front, List.mem_cons] at hmem)
  · rcases hmem with rfl | hmem
    · exact hcn
    · exact hc c hmem
  · rcases hmem with rfl | hmem
    · exact hn
    · exact hk c hmem

theorem goodVBoxBuilder_set_offset {b : VBoxBuilder}
    (hb : GoodVBoxBuilder b) (o : ℚ) : GoodVBoxBuilder (b.set_offset o) := hb

theorem goodNode_vboxBuild {b : VBoxBuilder} (hb : GoodVBoxBuilder b) :
    GoodNode b.build := by
  obtain ⟨hc, hk⟩ := hb
  exact .vbox _ _ _ _ _ _ hc hk

theorem isColorNode_vboxBuild (b : VBoxBuilder) : isColorNode b.build = false := rfl

theorem goodVBoxBuilder_fold {ns : List LayoutNode} {b : VBoxBuilder}
    (hb : GoodVBoxBuilder b) (hs : ∀ c ∈ ns, GoodNode c)
    (hcs : ∀ c ∈ ns, isColorNode c = false) :
    GoodVBoxBuilder (ns.foldl VBoxBuilder.add_node b) := by
  induction ns generalizing b with
  | nil => exact hb
  | cons n ns ih =>
    simp only [List.foldl_cons]
    exact ih (goodVBoxBuilder_add hb (hs n (by simp)) (hcs n (by simp)))
      (fun c hc => hs c (by simp [hc])) (fun c hc => hcs c (by simp [hc]))

theorem goodNode_vboxOf {ns : List LayoutNode} (hs : ∀ c ∈ ns, GoodNode c)
    (hcs : ∀ c ∈ ns, isColorNode c = false) : GoodNode (vboxOf ns) :=
  goodNode_vboxBuild (goodVBoxBuilder_fold goodVBoxBuilder_empty hs hcs)

theorem goodNode_vboxOffsetOf {ns : List LayoutNode} (o : ℚ)
    (hs : ∀ c ∈ ns, GoodNode c) (hcs : ∀ c ∈ ns, isColorNode c = false) :
    GoodNode (vboxOffsetOf o ns) :=
  goodNode_vboxBuild
    (goodVBoxBuilder_set_offset (goodVBoxBuilder_fold goodVBoxBuilder_empty hs hcs) o)

theorem goodNode_colorNode {l : Layout} (hl : GoodLayout l) (clr : RGBA) :
    GoodNode (colorNode l clr) :=
  .color _ _ _ _ _ hl.2.2.2.2.2

/-- `LayoutNode::centered` preserves the invariant. -/
theorem goodNode_centered {n : LayoutNode} (hn : GoodNode n) (axis : ℚ) :
    GoodNode (n.centered axis) := by
  cases hn with
  | vbox w h d contents offset alignment hc hk =>
    exact .vbox _ _ _ _ _ _ hc hk
  | glyph w h d g =>
    exact goodNode_vboxOffsetOf _ (fun c hc => by
        rcases List.mem_singleton.mp hc with rfl; exact .glyph _ _ _ _)
      (fun c hc => by rcases List.mem_singleton.mp hc with rfl; rfl)
  | rule w h d => exact .rule _ _ _
  | kern w h d => exact .kern _ _ _
  | hbox w h d contents offset alignment hoff hw hh hd hk =>
    exact .hbox _ _ _ _ _ _ hoff hw hh hd hk
  | color w h d clr inner hk => exact .color _ _ _ _ _ hk

theorem isColorNode_centered_of (n : LayoutNode) (axis : ℚ)
    (h : isColorNode n = false) : isColorNode (n.centered axis) = false := by
  cases n with
  | mk w hh d v =>
    cases v <;> simp_all [LayoutNode.centered, isColorNode, LayoutNode.node,
      vboxOffsetOf, LayoutNode.height, LayoutNode.depth, VBoxBuilder.build,
      VBoxBuilder.set_offset]

/-- Variant-glyph assembly yields good nodes. -/
theorem goodVBoxBuilder_variantVertParts {cfg : LayoutSettings}
    {parts : List GlyphPart} {b b' : VBoxBuilder}
    (hb : GoodVBoxBuilder b) (h : variantVertParts cfg parts b = .ok b') :
    GoodVBoxBuilder b' := by
  induction parts generalizing b with
  | nil =>
    simp only [variantVertParts] at h
    cases h
    exact hb
  | cons instr rest ih =>
    simp only [variantVertParts] at h
    cases hg : cfg.ctx.glyph_from_gid instr.gid with
    | error e => rw [hg] at h; cases h
    | ok glyph =>
      rw [hg] at h
      refine ih ?_ h
      split
      · exact goodVBoxBuilder_add
          (goodVBoxBuilder_insert_front hb (goodNode_glyph_as_layout _ _) rfl)
          (goodNode_vkern _) rfl
      · exact goodVBoxBuilder_insert_front hb (goodNode_glyph_as_layout _ _) rfl

theorem goodHBoxBuilder_variantHorzParts {cfg : LayoutSettings}
    {parts : List GlyphPart} {b b' : HBoxBuilder}
    (hb : GoodHBoxBuilder b) (h : variantHorzParts cfg parts b = .ok b') :
    GoodHBoxBuilder b' := by
  induction parts generalizing b with
  | nil =>
    simp only [variantHorzParts] at h
    cases h
    exact hb
  | cons instr rest ih =>
    simp only [variantHorzParts] at h
    cases hg : cfg.ctx.glyph_from_gid instr.gid with
    | error e => rw [hg] at h; cases h
    | ok glyph =>
      rw [hg] at h
      refine ih ?_ h
      split
      · exact goodHBoxBuilder_add (goodHBoxBuilder_add hb (goodNode_hkern _))
          (goodNode_glyph_as_layout _ _)
      · exact goodHBoxBuilder_add hb (goodNode_glyph_as_layout _ _)

theorem goodNode_variant {vg : VariantGlyph} {cfg : LayoutSettings} {n : LayoutNode}
    (h : vg.as_layout cfg = .ok n) : GoodNode n := by
  cases vg with
  | Replacement gid =>
    simp only [VariantGlyph.as_layout] at h
    cases hg : cfg.ctx.glyph_from_gid gid with
    | error e => rw [hg] at h; cases h
    | ok glyph =>
      rw [hg] at h
      cases h
      exact goodNode_glyph_as_layout _ _
  | Constructable dir parts =>
    simp only [VariantGlyph.as_layout] at h
    cases dir with
    | Vertical =>
      cases hp : variantVertParts cfg parts {} with
      | error e => rw [hp] at h; cases h
      | ok b =>
        rw [hp] at h
        cases h
        exact goodNode_vboxBuild (goodVBoxBuilder_variantVertParts goodVBoxBuilder_empty hp)
    | Horizontal =>
      cases hp : variantHorzParts cfg parts {} with
      | error e => rw [hp] at h; cases h
      | ok b =>
        rw [hp] at h
        cases h
        exact goodNode_hboxBuild (goodHBoxBuilder_variantHorzParts goodHBoxBuilder_empty hp)

theorem isColorNode_variant {vg : VariantGlyph} {cfg : LayoutSettings} {n : LayoutNode}
    (h : vg.as_layout cfg = .ok n) : isColorNode n = false := by
  cases vg with
  | Replacement gid =>
    simp only [VariantGlyph.as_layout] at h
    cases hg : cfg.ctx.glyph_from_gid gid with
    | error e => rw [hg] at h; cases h
    | ok glyph => rw [hg] at h; cases h; rfl
  | Constructable dir parts =>
    simp only [VariantGlyph.as_layout] at h
    cases dir with
    | Vertical =>
      cases hp : variantVertParts cfg parts {} with
      | error e => rw [hp] at h; cases h
      | ok b => rw [hp] at h; cases h; rfl
    | Horizontal =>
      cases hp : variantHorzParts cfg parts {} with
      | error e => rw [hp] at h; cases h
      | ok b => rw [hp] at h; cases h; rfl


theorem mem_pair {α : Type} {c a b : α} (h : c ∈ [a, b]) : c = a ∨ c = b := by
  simpa using h

theorem radical_step (fuel : Nat) (IH : EngineGoodAt fuel) :
    ∀ acc inner cfg l, GoodLayout acc →
      (radicalAux (fuel + 1) acc inner cfg).run = some (.ok l) → GoodLayout l := by
  intro acc inner cfg l hacc h
  simp only [radicalAux] at h
  rw [run_bind_ok] at h
  obtain ⟨contentsL, hContents, h⟩ := h
  rw [run_bind_ok] at h
  obtain ⟨vg, hvg, h⟩ := h
  rw [run_bind_ok] at h
  obtain ⟨sqrtN, hsqrt, h⟩ := h
  rw [run_pure] at h
  simp only [Option.some.injEq, Except.ok.injEq] at h
  subst h
  rw [run_liftFont_ok] at hsqrt
  have hcg : GoodLayout contentsL := IH.layoutP _ _ _ hContents
  refine goodLayout_add (goodLayout_add hacc ?_) ?_
  · refine goodNode_vboxOffsetOf _ ?_ ?_
    · intro c hc
      rcases List.mem_singleton.mp hc with rfl
      exact goodNode_variant hsqrt
    · intro c hc
      rcases List.mem_singleton.mp hc with rfl
      exact isColorNode_variant hsqrt
  · refine goodNode_vboxOf ?_ ?_
    · intro c hc
      simp only [List.mem_cons, List.mem_singleton, List.not_mem_nil, or_false] at hc
      rcases hc with rfl | rfl | rfl | rfl
      · exact goodNode_vkern _
      · exact goodNode_ruleNode _ _
      · exact goodNode_vkern _
      · exact goodNode_asNode hcg
    · intro c hc
      simp only [List.mem_cons, List.mem_singleton, List.not_mem_nil, or_false] at hc
      rcases hc with rfl | rfl | rfl | rfl
      · rfl
      · rfl
      · rfl
      · rfl


theorem symbolFn_good {acc : Layout} {sym : Symbol} {cfg : LayoutSettings} {l : Layout}
    (hacc : GoodLayout acc) (h : symbolFn acc sym cfg = .ok l) : GoodLayout l := by
  simp only [symbolFn] at h
  cases hg : cfg.ctx.glyph sym.codepoint with
  | error e => rw [hg] at h; cases h
  | ok glyph =>
    rw [hg] at h
    rcases sym with ⟨cp, at_ty⟩
    cases at_ty <;> simp only at h <;>
      first
      | (cases h; exact goodLayout_add hacc (goodNode_glyph_as_layout _ _))
      | skip
    split at h
    · cases hv : cfg.ctx.vert_variant cp
          (cfg.ctx.constants.display_operator_min_height * cfg.ctx.units_per_em) with
      | error e => rw [hv] at h; cases h
      | ok vg =>
        simp only [hv] at h
        cases hn : vg.as_layout cfg with
        | error e => simp only [hn] at h; cases h
        | ok largeop =>
          simp only [hn, Except.ok.injEq] at h
          subst h
          refine goodLayout_add hacc (goodNode_vboxOffsetOf _ ?_ ?_)
          · intro c hc
            rcases List.mem_singleton.mp hc with rfl
            exact goodNode_variant hn
          · intro c hc
            rcases List.mem_singleton.mp hc with rfl
            exact isColorNode_variant hn
    · cases h
      exact goodLayout_add hacc (goodNode_glyph_as_layout _ _)

theorem operatorLimits_good {fuel : Nat} {acc base sup sub : Layout}
    {cfg : LayoutSettings} {l : Layout}
    (hacc : GoodLayout acc) (hb : GoodLayout base) (hsup : GoodLayout sup)
    (hsub : GoodLayout sub)
    (h : (operatorLimits fuel acc base sup sub cfg).run = some (.ok l)) :
    GoodLayout l := by
  simp only [operatorLimits] at h
  cases hs : layoutIsSymbol fuel base with
  | none => rw [hs] at h; cases h
  | some gly? =>
    rw [hs, run_pure] at h
    simp only [Option.some.injEq, Except.ok.injEq] at h
    subst h
    refine goodLayout_add hacc (goodNode_vboxOffsetOf _ ?_ ?_)
    · intro c hc
      simp only [List.mem_cons, List.mem_singleton, List.not_mem_nil, or_false] at hc
      rcases hc with rfl | rfl | rfl | rfl | rfl
      · refine goodNode_hboxAlignWidth ?_ _ _
        intro c hc
        rcases mem_pair hc with rfl | rfl
        · exact goodNode_hkern _
        · exact goodNode_asNode hsup
      · exact goodNode_vkern _
      · exact goodNode_centered_asNode hb _
      · exact goodNode_vkern _
      · refine goodNode_hboxAlignWidth ?_ _ _
        intro c hc
        rcases mem_pair hc with rfl | rfl
        · exact goodNode_hkern _
        · exact goodNode_asNode hsub
    · intro c hc
      simp only [List.mem_cons, List.mem_singleton, List.not_mem_nil, or_false] at hc
      rcases hc with rfl | rfl | rfl | rfl | rfl <;> rfl

theorem layoutAux_step (fuel : Nat) (IH : EngineGoodAt fuel) :
    ∀ nodes cfg l, (layoutAux (fuel + 1) nodes cfg).run = some (.ok l) →
      GoodLayout l := by
  intro nodes cfg l h
  simp only [layoutAux] at h
  exact IH.recurseP _ _ _ _ h

theorem layoutRecurseAux_step (fuel : Nat) (IH : EngineGoodAt fuel) :
    ∀ nodes cfg pn l, (layoutRecurseAux (fuel + 1) nodes cfg pn).run = some (.ok l) →
      GoodLayout l := by
  intro nodes cfg pn l h
  simp only [layoutRecurseAux] at h
  exact IH.loopP _ _ _ _ _ _ goodLayout_new h

theorem layoutNodeAux_step (fuel : Nat) (IH : EngineGoodAt fuel) :
    ∀ node cfg l, layoutNodeAux (fuel + 1) node cfg = some l → GoodLayout l := by
  intro node cfg l h
  simp only [layoutNodeAux] at h
  cases hd : (dispatchAux fuel Layout.new cfg node .Transparent).run with
  | none => rw [hd] at h; cases h
  | some e =>
    rw [hd] at h
    cases e with
    | ok l0 =>
      simp only [Option.some.injEq] at h
      subst h
      exact goodLayout_finalize (IH.dispatchP _ _ _ _ _ goodLayout_new hd)
    | error err =>
      simp only [Option.some.injEq] at h
      subst h
      exact goodLayout_finalize goodLayout_new

theorem layoutLinesAux_step (fuel : Nat) (IH : EngineGoodAt fuel) :
    ∀ lines cfg ls, (layoutLinesAux (fuel + 1) lines cfg).run = some (.ok ls) →
      ∀ l ∈ ls, GoodLayout l := by
  intro lines cfg ls h
  simp only [layoutLinesAux] at h
  cases lines with
  | nil =>
    rw [run_pure] at h
    simp only [Option.some.injEq, Except.ok.injEq] at h
    subst h
    intro l hl
    cases hl
  | cons line rest =>
    rw [run_bind_ok] at h
    obtain ⟨lay, hlay, h⟩ := h
    rw [run_bind_ok] at h
    obtain ⟨rest', hrest, h⟩ := h
    rw [run_pure] at h
    simp only [Option.some.injEq, Except.ok.injEq] at h
    subst h
    intro l hl
    rcases List.mem_cons.mp hl with rfl | hl
    · exact IH.layoutP _ _ _ hlay
    · exact IH.linesP _ _ _ hrest l hl

theorem arrayCellsAux_step (fuel : Nat) (IH : EngineGoodAt fuel) :
    ∀ cfg cols cells out, (arrayCellsAux (fuel + 1) cfg cols cells).run = some (.ok out) →
      ∀ o ∈ out, ∀ l, o = some l → GoodLayout l := by
  intro cfg cols cells out h
  simp only [arrayCellsAux] at h
  match cols, cells with
  | 0, _ =>
    simp only [run_pure, Option.some.injEq, Except.ok.injEq] at h
    subst h
    intro o ho
    cases ho
  | Nat.succ k, [] =>
    rw [run_bind_ok] at h
    obtain ⟨rest, hrest, h⟩ := h
    rw [run_pure] at h
    simp only [Option.some.injEq, Except.ok.injEq] at h
    subst h
    intro o ho l hol
    rcases List.mem_cons.mp ho with rfl | ho
    · cases hol
    · exact IH.cellsP _ _ _ _ hrest o ho l hol
  | Nat.succ k, cell :: cs =>
    rw [run_bind_ok] at h
    obtain ⟨lay, hlay, h⟩ := h
    rw [run_bind_ok] at h
    obtain ⟨rest, hrest, h⟩ := h
    rw [run_pure] at h
    simp only [Option.some.injEq, Except.ok.injEq] at h
    subst h
    intro o ho l hol
    rcases List.mem_cons.mp ho with rfl | ho
    · cases hol
      exact IH.layoutP _ _ _ hlay
    · exact IH.cellsP _ _ _ _ hrest o ho l hol

theorem arrayRowsAux_step (fuel : Nat) (IH : EngineGoodAt fuel) :
    ∀ cfg cols rows out, (arrayRowsAux (fuel + 1) cfg cols rows).run = some (.ok out) →
      ∀ row ∈ out, ∀ o ∈ row, ∀ l, o = some l → GoodLayout l := by
  intro cfg cols rows out h
  simp only [arrayRowsAux] at h
  cases rows with
  | nil =>
    rw [run_pure] at h
    simp only [Option.some.injEq, Except.ok.injEq] at h
    subst h
    intro row hrow
    cases hrow
  | cons r rs =>
    rw [run_bind_ok] at h
    obtain ⟨cellsOut, hcells, h⟩ := h
    rw [run_bind_ok] at h
    obtain ⟨rest, hrest, h⟩ := h
    rw [run_pure] at h
    simp only [Option.some.injEq, Except.ok.injEq] at h
    subst h
    intro row hrow o ho l hol
    rcases List.mem_cons.mp hrow with rfl | hrow
    · exact IH.cellsP _ _ _ _ hcells o ho l hol
    · exact IH.rowsP _ _ _ _ hrest row hrow o ho l hol


theorem snd_mem_enum {α : Type} {p : Nat × α} {l : List α} (h : p ∈ l.enum) :
    p.2 ∈ l :=
  List.snd_mem_of_mem_enumFrom h

theorem goodLayout_loopSpaceAcc {acc : Layout} (sp : Spacing) (cfg : LayoutSettings)
    (hacc : GoodLayout acc) : GoodLayout (loopSpaceAcc acc sp cfg) := by
  unfold loopSpaceAcc
  split
  · exact goodLayout_add hacc (goodNode_hkern _)
  · exact hacc

theorem scriptsBaseAux_step (fuel : Nat) (IH : EngineGoodAt fuel) :
    ∀ base? cfg l, (scriptsBaseAux (fuel + 1) base? cfg).run = some (.ok l) →
      GoodLayout l := by
  intro base? cfg l h
  cases base? with
  | none =>
    simp only [scriptsBaseAux] at h
    rw [run_pure] at h
    simp only [Option.some.injEq, Except.ok.injEq] at h
    subst h
    exact goodLayout_new
  | some b =>
    simp only [scriptsBaseAux] at h
    cases hn : layoutNodeAux fuel b cfg with
    | none => simp only [hn] at h; cases h
    | some l0 =>
      simp only [hn] at h
      rw [run_pure] at h
      simp only [Option.some.injEq, Except.ok.injEq] at h
      subst h
      exact IH.nodeP _ _ _ hn

theorem layoutOptionalAux_step (fuel : Nat) (IH : EngineGoodAt fuel) :
    ∀ s? cfg l, (layoutOptionalAux (fuel + 1) s? cfg).run = some (.ok l) →
      GoodLayout l := by
  intro s? cfg l h
  cases s? with
  | none =>
    simp only [layoutOptionalAux] at h
    rw [run_pure] at h
    simp only [Option.some.injEq, Except.ok.injEq] at h
    subst h
    exact goodLayout_new
  | some s =>
    simp only [layoutOptionalAux] at h
    exact IH.layoutP _ _ _ h

theorem delimitedSideTall_good {cfg : LayoutSettings} {sym : Symbol}
    {clearance axis nds : ℚ} {n : LayoutNode}
    (h : (delimitedSideTall cfg sym clearance axis nds).run = some (.ok n)) :
    GoodNode n ∧ isColorNode n = false := by
  simp only [delimitedSideTall] at h
  split at h
  · rw [run_pure] at h
    simp only [Option.some.injEq, Except.ok.injEq] at h
    subst h
    exact ⟨goodNode_hkern _, rfl⟩
  · rw [run_bind_ok] at h
    obtain ⟨vg, hvg, h⟩ := h
    rw [run_bind_ok] at h
    obtain ⟨n0, hn0, h⟩ := h
    rw [run_pure] at h
    simp only [Option.some.injEq, Except.ok.injEq] at h
    subst h
    rw [run_liftFont_ok] at hn0
    exact ⟨goodNode_centered (goodNode_variant hn0) _,
      isColorNode_centered_of _ _ (isColorNode_variant hn0)⟩

theorem delimitedSideShort_good {cfg : LayoutSettings} {sym : Symbol}
    {nds : ℚ} {n : LayoutNode}
    (h : (delimitedSideShort cfg sym nds).run = some (.ok n)) :
    GoodNode n ∧ isColorNode n = false := by
  simp only [delimitedSideShort] at h
  split at h
  · rw [run_pure] at h
    simp only [Option.some.injEq, Except.ok.injEq] at h
    subst h
    exact ⟨goodNode_hkern _, rfl⟩
  · rw [run_bind_ok] at h
    obtain ⟨g, hg, h⟩ := h
    rw [run_pure] at h
    simp only [Option.some.injEq, Except.ok.injEq] at h
    subst h
    exact ⟨goodNode_glyph_as_layout _ _, rfl⟩

theorem fracDelimSide_good {cfg : LayoutSettings} {delim? : Option Symbol}
    {inner : LayoutNode} {nds : ℚ} {n : LayoutNode}
    (h : (fracDelimSide cfg delim? inner nds).run = some (.ok n)) :
    GoodNode n ∧ isColorNode n = false := by
  simp only [fracDelimSide] at h
  cases delim? with
  | none =>
    rw [run_pure] at h
    simp only [Option.some.injEq, Except.ok.injEq] at h
    subst h
    exact ⟨goodNode_hkern _, rfl⟩
  | some sym =>
    rw [run_bind_ok] at h
    obtain ⟨vg, hvg, h⟩ := h
    rw [run_bind_ok] at h
    obtain ⟨n0, hn0, h⟩ := h
    rw [run_pure] at h
    simp only [Option.some.injEq, Except.ok.injEq] at h
    subst h
    rw [run_liftFont_ok] at hn0
    exact ⟨goodNode_centered (goodNode_variant hn0) _,
      isColorNode_centered_of _ _ (isColorNode_variant hn0)⟩

theorem arrayDelimNode_good {cfg : LayoutSettings} {d? : Option Symbol}
    {clearance axis : ℚ} {o : Option LayoutNode}
    (h : (arrayDelimNode cfg d? clearance axis).run = some (.ok o)) :
    ∀ n, o = some n → GoodNode n := by
  simp only [arrayDelimNode] at h
  cases d? with
  | none =>
    rw [run_pure] at h
    simp only [Option.some.injEq, Except.ok.injEq] at h
    subst h
    intro n hn
    cases hn
  | some sym =>
    rw [run_bind_ok] at h
    obtain ⟨vg, hvg, h⟩ := h
    rw [run_bind_ok] at h
    obtain ⟨n0, hn0, h⟩ := h
    rw [run_pure] at h
    simp only [Option.some.injEq, Except.ok.injEq] at h
    subst h
    rw [run_liftFont_ok] at hn0
    intro n hn
    cases hn
    exact goodNode_centered (goodNode_variant hn0) _

/-- Generic preservation through a `VBox` fold. -/
theorem goodVBoxBuilder_foldl {α : Type} (P : α → Prop)
    (f : VBoxBuilder → α → VBoxBuilder)
    (hstep : ∀ b a, GoodVBoxBuilder b → P a → GoodVBoxBuilder (f b a)) :
    ∀ (ps : List α), (∀ a ∈ ps, P a) →
      ∀ b, GoodVBoxBuilder b → GoodVBoxBuilder (ps.foldl f b) := by
  intro ps
  induction ps with
  | nil => intro _ b hb; exact hb
  | cons p ps ih =>
    intro hp b hb
    simp only [List.foldl_cons]
    exact ih (fun a ha => hp a (by simp [ha])) _ (hstep b p hb (hp p (by simp)))

/-- Generic preservation through an `HBox` fold. -/
theorem goodHBoxBuilder_foldl {α : Type} (P : α → Prop)
    (f : HBoxBuilder → α → HBoxBuilder)
    (hstep : ∀ b a, GoodHBoxBuilder b → P a → GoodHBoxBuilder (f b a)) :
    ∀ (ps : List α), (∀ a ∈ ps, P a) →
      ∀ b, GoodHBoxBuilder b → GoodHBoxBuilder (ps.foldl f b) := by
  intro ps
  induction ps with
  | nil => intro _ b hb; exact hb
  | cons p ps ih =>
    intro hp b hb
    simp only [List.foldl_cons]
    exact ih (fun a ha => hp a (by simp [ha])) _ (hstep b p hb (hp p (by simp)))

theorem goodVBoxBuilder_substackJoin (gm gt : ℚ) (len : Nat) (lines : List Layout)
    (h : ∀ line ∈ lines, GoodNode line.as_node) :
    GoodVBoxBuilder (substackJoin gm gt len lines) := by
  unfold substackJoin
  refine goodVBoxBuilder_foldl (fun p => GoodNode p.2.as_node) _ ?_ _ ?_ _
    goodVBoxBuilder_empty
  · intro b p hb hp
    rcases p with ⟨idx, line⟩
    dsimp only
    split
    · exact goodVBoxBuilder_add (goodVBoxBuilder_add hb hp rfl) (goodNode_vkern _) rfl
    · exact goodVBoxBuilder_add hb hp rfl
  · intro p hp
    exact h p.2 (snd_mem_enum hp)

theorem substackCenterLines_good {lines : List Layout} (w : ℚ) (i : Nat)
    (h : ∀ line ∈ lines, GoodLayout line) :
    ∀ l ∈ substackCenterLines lines w i, GoodNode l.as_node := by
  intro l hl
  simp only [substackCenterLines, List.mem_map] at hl
  obtain ⟨p, hp, rfl⟩ := hl
  have hgood : GoodLayout p.2 := h p.2 (snd_mem_enum hp)
  rcases p with ⟨n, line⟩
  dsimp only
  split
  · exact goodNode_asNode hgood
  · exact goodNode_asNode_widened hgood _ _

theorem goodLayout_orNewLayout {o : Option Layout}
    (h : ∀ l, o = some l → GoodLayout l) : GoodLayout (orNewLayout o) := by
  cases o with
  | none => exact goodLayout_new
  | some l => exact h _ rfl

theorem goodLayout_getD {row : List (Option Layout)} {i : Nat}
    (h : ∀ o ∈ row, ∀ l, o = some l → GoodLayout l) :
    GoodLayout (orNewLayout (row.getD i none)) := by
  cases ho : row.getD i none with
  | none => exact goodLayout_new
  | some l =>
    rw [List.getD_eq_getElem?_getD] at ho
    cases hg : row[i]? with
    | none => rw [hg] at ho; cases ho
    | some o =>
      rw [hg] at ho
      cases ho
      exact h _ (List.getElem?_mem hg) _ rfl

theorem scriptsAssemble_good {acc base sup sub : Layout} (supS subS : Bool)
    (gm au ad sk bk : ℚ)
    (hacc : GoodLayout acc) (hb : GoodLayout base) (hsup : GoodLayout sup)
    (hsub : GoodLayout sub) :
    GoodLayout (scriptsAssemble acc base sup sub supS subS gm au ad sk bk) := by
  unfold scriptsAssemble
  dsimp only
  refine goodLayout_add (goodLayout_add hacc (goodNode_asNode hb))
    (goodNode_vboxBuild ?_)
  split
  · -- subscript present: one more node on the builder
    refine goodVBoxBuilder_add (goodVBoxBuilder_set_offset ?_ _) ?_ rfl
    · split
      · refine goodVBoxBuilder_add (goodVBoxBuilder_add goodVBoxBuilder_empty ?_ rfl)
          (goodNode_vkern _) rfl
        split
        · exact goodNode_asNode (goodLayout_consKern hsup _)
        · exact goodNode_asNode hsup
      · exact goodVBoxBuilder_empty
    · split
      · exact goodNode_asNode (goodLayout_consKern hsub _)
      · exact goodNode_asNode hsub
  · refine goodVBoxBuilder_set_offset ?_ _
    split
    · refine goodVBoxBuilder_add (goodVBoxBuilder_add goodVBoxBuilder_empty ?_ rfl)
        (goodNode_vkern _) rfl
      split
      · exact goodNode_asNode (goodLayout_consKern hsup _)
      · exact goodNode_asNode hsup
    · exact goodVBoxBuilder_empty

theorem goodNode_arrayColumnVBox (cw : ℚ) (rhs : List ℚ) (rs : ℚ) (nr : Nat)
    (col : List Layout) (h : ∀ row ∈ col, GoodLayout row) :
    GoodNode (arrayColumnVBox cw rhs rs nr col) := by
  unfold arrayColumnVBox
  refine goodNode_vboxBuild (goodVBoxBuilder_foldl (fun p => GoodLayout p.2) _ ?_ _
    ?_ _ goodVBoxBuilder_empty)
  · intro b p hb hp
    rcases p with ⟨ri, row⟩
    dsimp only
    generalize hrw : (if row.width < cw then
        { row with alignment := Alignment.Centered row.width, width := cw }
      else row) = rowX
    have hrow : GoodNode rowX.as_node := by
      rw [← hrw]
      split
      · exact goodNode_asNode_widened hp _ _
      · exact goodNode_asNode hp
    have hbk : GoodVBoxBuilder (if rowX.height < rhs.getD ri 0 then
        b.add_node (vkern (rhs.getD ri 0 - rowX.height)) else b) := by
      split
      · exact goodVBoxBuilder_add hb (goodNode_vkern _) rfl
      · exact hb
    split
    · exact goodVBoxBuilder_add (goodVBoxBuilder_add hbk hrow rfl)
        (goodNode_vkern _) rfl
    · exact goodVBoxBuilder_add (goodVBoxBuilder_add hbk hrow rfl)
        (goodNode_vkern _) rfl
  · intro p hp
    exact h p.2 (snd_mem_enum hp)

theorem goodHBoxBuilder_arrayBodyHBox (nds cs : ℚ) (ln rn : Bool) (nc : Nat)
    (colBoxes : List LayoutNode) (h : ∀ n ∈ colBoxes, GoodNode n) :
    GoodHBoxBuilder (arrayBodyHBox nds cs ln rn nc colBoxes) := by
  unfold arrayBodyHBox
  dsimp only
  have hfold : GoodHBoxBuilder (colBoxes.enum.foldl
      (fun (b : HBoxBuilder) (p : Nat × LayoutNode) =>
        if p.1 + 1 < nc then (b.add_node p.2).add_node (hkern cs)
        else b.add_node p.2)
      (if ln then HBoxBuilder.add_node {} (hkern nds) else {})) := by
    refine goodHBoxBuilder_foldl (fun p => GoodNode p.2) _ ?_ _ ?_ _ ?_
    · intro b p hb hp
      dsimp only
      split
      · exact goodHBoxBuilder_add (goodHBoxBuilder_add hb hp) (goodNode_hkern _)
      · exact goodHBoxBuilder_add hb hp
    · intro p hp
      exact h p.2 (snd_mem_enum hp)
    · split
      · exact goodHBoxBuilder_add goodHBoxBuilder_empty (goodNode_hkern _)
      · exact goodHBoxBuilder_empty
  split
  · exact goodHBoxBuilder_add hfold (goodNode_hkern _)
  · exact hfold

theorem goodLayout_arrayDelimWrap {acc : Layout} {vboxN : LayoutNode}
    {leftD rightD : Option LayoutNode}
    (hacc : GoodLayout acc) (hv : GoodNode vboxN)
    (hl : ∀ n, leftD = some n → GoodNode n)
    (hr : ∀ n, rightD = some n → GoodNode n) :
    GoodLayout (arrayDelimWrap acc vboxN leftD rightD) := by
  unfold arrayDelimWrap
  cases leftD with
  | none =>
    cases rightD with
    | none => exact goodLayout_add hacc hv
    | some r =>
      exact goodLayout_add hacc (goodNode_hboxBuild
        (goodHBoxBuilder_add
          (goodHBoxBuilder_add goodHBoxBuilder_empty hv) (hr r rfl)))
  | some lft =>
    cases rightD with
    | none =>
      exact goodLayout_add hacc (goodNode_hboxBuild
        (goodHBoxBuilder_add
          (goodHBoxBuilder_add goodHBoxBuilder_empty (hl lft rfl)) hv))
    | some r =>
      exact goodLayout_add hacc (goodNode_hboxBuild
        (goodHBoxBuilder_add
          (goodHBoxBuilder_add
            (goodHBoxBuilder_add goodHBoxBuilder_empty (hl lft rfl)) hv)
          (hr r rfl)))

theorem accentAux_step (fuel : Nat) (IH : EngineGoodAt fuel) :
    ∀ acc sym nucleus cfg l, GoodLayout acc →
      (accentAux (fuel + 1) acc sym nucleus cfg).run = some (.ok l) →
      GoodLayout l := by
  intro acc sym nucleus cfg l hacc h
  simp only [accentAux] at h
  rw [run_bind_ok] at h
  obtain ⟨base, hbase, h⟩ := h
  rw [run_bind_ok] at h
  obtain ⟨accent_variant, hav, h⟩ := h
  rw [run_bind_ok] at h
  obtain ⟨accent, haccent, h⟩ := h
  rw [run_bind_ok] at h
  obtain ⟨symInfo, hsym, h⟩ := h
  rw [run_pure] at hsym
  simp only [Option.some.injEq, Except.ok.injEq] at hsym
  subst hsym
  cases hv : layoutListIsSymbol fuel base.contents with
  | none =>
    simp only [hv] at h
    rw [run_outOfFuel] at h
    cases h
  | some baseSym? =>
    simp only [hv] at h
    rw [run_bind_ok] at h
    obtain ⟨base_offset, hbo, h⟩ := h
    rw [run_bind_ok] at h
    obtain ⟨acc_offset, hao, h⟩ := h
    rw [run_pure] at h
    simp only [Option.some.injEq, Except.ok.injEq] at h
    subst h
    rw [run_liftFont_ok] at haccent
    have hbg : GoodLayout base := IH.layoutP _ _ _ hbase
    refine goodLayout_add hacc (goodNode_vboxOf ?_ ?_)
    · intro c hc
      simp only [List.mem_cons, List.mem_singleton, List.not_mem_nil, or_false] at hc
      rcases hc with rfl | rfl | rfl
      · refine goodNode_hboxOf ?_
        intro c hc
        rcases mem_pair hc with rfl | rfl
        · exact goodNode_hkern _
        · exact goodNode_variant haccent
      · exact goodNode_vkern _
      · exact goodNode_asNode hbg
    · intro c hc
      simp only [List.mem_cons, List.mem_singleton, List.not_mem_nil, or_false] at hc
      rcases hc with rfl | rfl | rfl <;> rfl

theorem delimitedAux_step (fuel : Nat) (IH : EngineGoodAt fuel) :
    ∀ acc left right inner cfg l, GoodLayout acc →
      (delimitedAux (fuel + 1) acc left right inner cfg).run = some (.ok l) →
      GoodLayout l := by
  intro acc left right inner cfg l hacc h
  simp only [delimitedAux] at h
  rw [run_bind_ok] at h
  obtain ⟨innerL, hinner, h⟩ := h
  have hig : GoodLayout innerL := IH.layoutP _ _ _ hinner
  split at h <;>
  · rw [run_bind_ok] at h
    obtain ⟨leftN, hlN, h⟩ := h
    rw [run_bind_ok] at h
    obtain ⟨rightN, hrN, h⟩ := h
    rw [run_pure] at h
    simp only [Option.some.injEq, Except.ok.injEq] at h
    subst h
    first
    | exact goodLayout_add
        (goodLayout_add (goodLayout_add hacc (delimitedSideTall_good hlN).1)
          (goodNode_asNode hig))
        (delimitedSideTall_good hrN).1
    | exact goodLayout_add
        (goodLayout_add (goodLayout_add hacc (delimitedSideShort_good hlN).1)
          (goodNode_asNode hig))
        (delimitedSideShort_good hrN).1

theorem scriptsAux_step (fuel : Nat) (IH : EngineGoodAt fuel) :
    ∀ acc base? sup? sub? cfg l, GoodLayout acc →
      (scriptsAux (fuel + 1) acc base? sup? sub? cfg).run = some (.ok l) →
      GoodLayout l := by
  intro acc base? sup? sub? cfg l hacc h
  simp only [scriptsAux] at h
  rw [run_bind_ok] at h
  obtain ⟨base, hbase, h⟩ := h
  rw [run_bind_ok] at h
  obtain ⟨sup, hsup, h⟩ := h
  rw [run_bind_ok] at h
  obtain ⟨sub, hsub, h⟩ := h
  rw [run_bind_ok] at h
  obtain ⟨isOp, hop, h⟩ := h
  have hbg : GoodLayout base := IH.baseP _ _ _ hbase
  have hsupg : GoodLayout sup := IH.optionalP _ _ _ hsup
  have hsubg : GoodLayout sub := IH.optionalP _ _ _ hsub
  split at h
  · exact operatorLimits_good hacc hbg hsupg hsubg h
  · rw [run_bind_ok] at h
    obtain ⟨⟨au, sk⟩, hup, h⟩ := h
    dsimp only at h
    rw [run_bind_ok] at h
    obtain ⟨⟨ad, bk⟩, hdn, h⟩ := h
    dsimp only at h
    rw [run_pure] at h
    simp only [Option.some.injEq, Except.ok.injEq] at h
    subst h
    exact scriptsAssemble_good _ _ _ _ _ _ _ hacc hbg hsupg hsubg

theorem fracAux_step (fuel : Nat) (IH : EngineGoodAt fuel) :
    ∀ acc num den bar ld rd sty cfg l, GoodLayout acc →
      (fracAux (fuel + 1) acc num den bar ld rd sty cfg).run = some (.ok l) →
      GoodLayout l := by
  intro acc num den bar ld rd sty cfg l hacc h
  simp only [fracAux] at h
  rw [run_bind_ok] at h
  obtain ⟨n, hn, h⟩ := h
  rw [run_bind_ok] at h
  obtain ⟨d, hd, h⟩ := h
  rw [run_bind_ok] at h
  obtain ⟨leftN, hlN, h⟩ := h
  rw [run_bind_ok] at h
  obtain ⟨rightN, hrN, h⟩ := h
  rw [run_pure] at h
  simp only [Option.some.injEq, Except.ok.injEq] at h
  subst h
  have hng : GoodLayout n := IH.layoutP _ _ _ hn
  have hdg : GoodLayout d := IH.layoutP _ _ _ hd
  refine goodLayout_add
    (goodLayout_add (goodLayout_add hacc (fracDelimSide_good hlN).1)
      (goodNode_vboxOffsetOf _ ?_ ?_))
    (fracDelimSide_good hrN).1
  · intro c hc
    simp only [List.mem_cons, List.mem_singleton, List.not_mem_nil, or_false] at hc
    rcases hc with rfl | rfl | rfl | rfl | rfl
    · split
      · exact goodNode_asNode hng
      · exact goodNode_asNode_widened hng _ _
    · exact goodNode_vkern _
    · exact goodNode_ruleNode _ _
    · exact goodNode_vkern _
    · split
      · exact goodNode_asNode_widened hdg _ _
      · exact goodNode_asNode hdg
  · intro c hc
    simp only [List.mem_cons, List.mem_singleton, List.not_mem_nil, or_false] at hc
    rcases hc with rfl | rfl | rfl | rfl | rfl <;> rfl

theorem substackAux_step (fuel : Nat) (IH : EngineGoodAt fuel) :
    ∀ acc lines cfg l, GoodLayout acc →
      (substackAux (fuel + 1) acc lines cfg).run = some (.ok l) →
      GoodLayout l := by
  intro acc lines cfg l hacc h
  simp only [substackAux] at h
  split at h
  · rw [run_pure] at h
    simp only [Option.some.injEq, Except.ok.injEq] at h
    subst h
    exact hacc
  · rw [run_bind_ok] at h
    obtain ⟨lineLayouts, hlines, h⟩ := h
    rw [run_pure] at h
    simp only [Option.some.injEq, Except.ok.injEq] at h
    subst h
    exact goodLayout_add hacc (goodNode_vboxBuild
      (goodVBoxBuilder_set_offset
        (goodVBoxBuilder_substackJoin _ _ _ _
          (substackCenterLines_good _ _ (IH.linesP _ _ _ hlines))) _))

theorem goodNode_arrayColBoxes {squares : List (List (Option Layout))}
    (hsq : ∀ row ∈ squares, ∀ o ∈ row, ∀ dl, o = some dl → GoodLayout dl)
    (cws rhs : List ℚ) (rs : ℚ) (nr nc : Nat) :
    ∀ nb ∈ (((List.range nc).map fun ci =>
        squares.map fun row => orNewLayout (row.getD ci none)).enum.map
      fun p => arrayColumnVBox (cws.getD p.1 0) rhs rs nr p.2), GoodNode nb := by
  intro nb hnb
  simp only [List.mem_map] at hnb
  obtain ⟨p, hp, rfl⟩ := hnb
  refine goodNode_arrayColumnVBox _ _ _ _ _ ?_
  intro row hrow
  have hcol := snd_mem_enum hp
  simp only [List.mem_map] at hcol
  obtain ⟨ci, hci, hceq⟩ := hcol
  rw [← hceq] at hrow
  simp only [List.mem_map] at hrow
  obtain ⟨r, hr, rfl⟩ := hrow
  exact goodLayout_getD (hsq r hr)

theorem arrayAux_step (fuel : Nat) (IH : EngineGoodAt fuel) :
    ∀ acc rows ld rd cfg l, GoodLayout acc →
      (arrayAux (fuel + 1) acc rows ld rd cfg).run = some (.ok l) →
      GoodLayout l := by
  intro acc rows ld rd cfg l hacc h
  simp only [arrayAux] at h
  split at h
  · rw [run_pure] at h
    simp only [Option.some.injEq, Except.ok.injEq] at h
    subst h
    exact hacc
  · rw [run_bind_ok] at h
    obtain ⟨squares, hsq, h⟩ := h
    have hsqg := IH.rowsP _ _ _ _ hsq
    split at h
    · rw [run_pure] at h
      simp only [Option.some.injEq, Except.ok.injEq] at h
      subst h
      refine goodLayout_add hacc (goodNode_vboxBuild
        (goodVBoxBuilder_add (goodVBoxBuilder_set_offset goodVBoxBuilder_empty _)
          (goodNode_hboxBuild
            (goodHBoxBuilder_arrayBodyHBox _ _ _ _ _ _
              (goodNode_arrayColBoxes hsqg _ _ _ _ _))) rfl))
    · rw [run_bind_ok] at h
      obtain ⟨leftD, hlD, h⟩ := h
      rw [run_bind_ok] at h
      obtain ⟨rightD, hrD, h⟩ := h
      rw [run_pure] at h
      simp only [Option.some.injEq, Except.ok.injEq] at h
      subst h
      refine goodLayout_arrayDelimWrap hacc
        (goodNode_vboxBuild
          (goodVBoxBuilder_add (goodVBoxBuilder_set_offset goodVBoxBuilder_empty _)
            (goodNode_hboxBuild
              (goodHBoxBuilder_arrayBodyHBox _ _ _ _ _ _
                (goodNode_arrayColBoxes hsqg _ _ _ _ _))) rfl))
        (arrayDelimNode_good hlD) (arrayDelimNode_good hrD)

theorem dispatchAux_step (fuel : Nat) (IH : EngineGoodAt fuel) :
    ∀ acc cfg node next l, GoodLayout acc →
      (dispatchAux (fuel + 1) acc cfg node next).run = some (.ok l) →
      GoodLayout l := by
  intro acc cfg node next l hacc h
  cases node with
  | Symbol sym =>
    simp only [dispatchAux] at h
    rw [run_liftLayout] at h
    simp only [Option.some.injEq] at h
    exact symbolFn_good hacc h
  | Scripts base sup sub =>
    simp only [dispatchAux] at h
    exact IH.scriptsP _ _ _ _ _ _ hacc h
  | Radical inner =>
    simp only [dispatchAux] at h
    exact IH.radicalP _ _ _ _ hacc h
  | Delimited left right inner =>
    simp only [dispatchAux] at h
    exact IH.delimitedP _ _ _ _ _ _ hacc h
  | Accent sym nucleus =>
    simp only [dispatchAux] at h
    exact IH.accentP _ _ _ _ _ hacc h
  | GenFraction num den bar ld rd sty =>
    simp only [dispatchAux] at h
    exact IH.fracP _ _ _ _ _ _ _ _ _ hacc h
  | Stack at_ty lines =>
    simp only [dispatchAux] at h
    exact IH.substackP _ _ _ _ hacc h
  | Array fmt rows ld rd =>
    simp only [dispatchAux] at h
    exact IH.arrayP _ _ _ _ _ _ hacc h
  | AtomChange at_ty inner =>
    simp only [dispatchAux] at h
    rw [run_bind_ok] at h
    obtain ⟨l0, hl0, h⟩ := h
    rw [run_pure] at h
    simp only [Option.some.injEq, Except.ok.injEq] at h
    subst h
    exact goodLayout_add hacc (goodNode_asNode (IH.layoutP _ _ _ hl0))
  | Group inner =>
    simp only [dispatchAux] at h
    rw [run_bind_ok] at h
    obtain ⟨l0, hl0, h⟩ := h
    rw [run_pure] at h
    simp only [Option.some.injEq, Except.ok.injEq] at h
    subst h
    exact goodLayout_add hacc (goodNode_asNode (IH.layoutP _ _ _ hl0))
  | Rule w ht =>
    simp only [dispatchAux] at h
    rw [run_pure] at h
    simp only [Option.some.injEq, Except.ok.injEq] at h
    subst h
    exact goodLayout_add hacc (goodNode_ruleAsLayout _ _ _)
  | Kerning u =>
    simp only [dispatchAux] at h
    rw [run_pure] at h
    simp only [Option.some.injEq, Except.ok.injEq] at h
    subst h
    exact goodLayout_add hacc (goodNode_hkern _)
  | Color clr inner =>
    simp only [dispatchAux] at h
    rw [run_bind_ok] at h
    obtain ⟨l0, hl0, h⟩ := h
    rw [run_pure] at h
    simp only [Option.some.injEq, Except.ok.injEq] at h
    subst h
    exact goodLayout_add hacc (goodNode_colorNode (IH.recurseP _ _ _ _ hl0) _)
  | Style s =>
    simp only [dispatchAux] at h
    rw [run_pure] at h
    simp only [Option.some.injEq, Except.ok.injEq] at h
    subst h
    exact hacc
  | Extend cp u =>
    simp only [dispatchAux] at h
    rw [run_pure] at h
    simp only [Option.some.injEq, Except.ok.injEq] at h
    subst h
    exact hacc

theorem layoutLoopAux_step (fuel : Nat) (IH : EngineGoodAt fuel) :
    ∀ cfg pn nodes prev acc l, GoodLayout acc →
      (layoutLoopAux (fuel + 1) cfg pn nodes prev acc).run = some (.ok l) →
      GoodLayout l := by
  intro cfg pn nodes prev acc l hacc h
  cases nodes with
  | nil =>
    simp only [layoutLoopAux] at h
    rw [run_pure] at h
    simp only [Option.some.injEq, Except.ok.injEq] at h
    subst h
    exact goodLayout_finalize hacc
  | cons node rest =>
    simp only [layoutLoopAux] at h
    rw [run_bind_ok] at h
    obtain ⟨x1, hx1, h⟩ := h
    rw [run_pure] at hx1
    simp only [Option.some.injEq, Except.ok.injEq] at hx1
    subst hx1
    cases hv1 : (match rest.head? with
        | some n => atomTypeAux fuel n
        | none => some pn) with
    | none =>
      simp only [hv1] at h
      rw [run_outOfFuel] at h
      cases h
    | some nxt =>
      simp only [hv1] at h
      rw [run_bind_ok] at h
      obtain ⟨x2, hx2, h⟩ := h
      rw [run_pure] at hx2
      simp only [Option.some.injEq, Except.ok.injEq] at hx2
      subst hx2
      cases hv2 : atomTypeAux fuel node with
      | none =>
        simp only [hv2] at h
        rw [run_outOfFuel] at h
        cases h
      | some cur =>
        simp only [hv2] at h
        cases node <;>
          first
          | exact IH.loopP _ _ _ _ _ _ (goodLayout_loopSpaceAcc _ _ hacc) h
          | (dsimp only at h
             rw [run_bind_ok] at h
             obtain ⟨acc2, hd2, h⟩ := h
             exact IH.loopP _ _ _ _ _ _
               (IH.dispatchP _ _ _ _ _ (goodLayout_loopSpaceAcc _ _ hacc) hd2) h)

theorem engineGood_zero : EngineGoodAt 0 := by
  refine ⟨?_, ?_, ?_, ?_, ?_, ?_, ?_, ?_, ?_, ?_, ?_, ?_, ?_, ?_, ?_, ?_, ?_⟩ <;>
  · intros
    simp_all only [layoutAux, layoutRecurseAux, layoutLoopAux, layoutNodeAux,
      dispatchAux, accentAux, delimitedAux, scriptsBaseAux, layoutOptionalAux,
      scriptsAux, fracAux, radicalAux, layoutLinesAux, substackAux, arrayCellsAux,
      arrayRowsAux, arrayAux, run_outOfFuel]
    try contradiction

theorem engineGood_succ (fuel : Nat) (IH : EngineGoodAt fuel) :
    EngineGoodAt (fuel + 1) :=
  ⟨layoutAux_step fuel IH, layoutRecurseAux_step fuel IH, layoutLoopAux_step fuel IH,
   layoutNodeAux_step fuel IH, dispatchAux_step fuel IH, accentAux_step fuel IH,
   delimitedAux_step fuel IH, scriptsBaseAux_step fuel IH,
   layoutOptionalAux_step fuel IH, scriptsAux_step fuel IH, fracAux_step fuel IH,
   radical_step fuel IH, layoutLinesAux_step fuel IH, substackAux_step fuel IH,
   arrayCellsAux_step fuel IH, arrayRowsAux_step fuel IH, arrayAux_step fuel IH⟩

/-- The engine invariant holds at every fuel. -/
theorem engine_good : ∀ fuel, EngineGoodAt fuel := by
  intro fuel
  induction fuel with
  | zero => exact engineGood_zero
  | succ n ih => exact engineGood_succ n ih

/-- Every engine-produced tree satisfies the dimension identities. -/
theorem goodNode_hboxDimsOk {n : LayoutNode} (h : GoodNode n) : HBoxDimsOk n := by
  induction h with
  | glyph w h d g => exact .glyph _ _ _ _
  | rule w h d => exact .rule _ _ _
  | kern w h d => exact .kern _ _ _
  | hbox w h d contents offset alignment hoff hw hh hd hk ih =>
    exact .hbox _ _ _ _ _ _ hw hh hd ih
  | vbox w h d contents offset alignment hc hk ih => exact .vbox _ _ _ _ _ _ ih
  | color w h d clr inner hk ih => exact .color _ _ _ _ _ ih

/-- Every engine-produced tree keeps `Color` out of vertical boxes. -/
theorem goodNode_noColorInVBox {n : LayoutNode} (h : GoodNode n) : NoColorInVBox n := by
  induction h with
  | glyph w h d g => exact .glyph _ _ _ _
  | rule w h d => exact .rule _ _ _
  | kern w h d => exact .kern _ _ _
  | hbox w h d contents offset alignment hoff hw hh hd hk ih =>
    exact .hbox _ _ _ _ _ _ ih
  | vbox w h d contents offset alignment hc hk ih => exact .vbox _ _ _ _ _ _ hc ih
  | color w h d clr inner hk ih => exact .color _ _ _ _ _ ih

theorem substackCenterLines_length (ls : List Layout) (w : ℚ) (i : Nat) :
    (substackCenterLines ls w i).length = ls.length := by
  simp [substackCenterLines]

theorem layoutLinesAux_length :
    ∀ (lines : List (List ParseNode)) (fuel : Nat) (cfg : LayoutSettings)
      (ls : List Layout),
      (layoutLinesAux fuel lines cfg).run = some (.ok ls) →
      ls.length = lines.length := by
  intro lines
  induction lines with
  | nil =>
    intro fuel cfg ls h
    cases fuel with
    | zero =>
      simp only [layoutLinesAux] at h
      rw [run_outOfFuel] at h
      cases h
    | succ f =>
      simp only [layoutLinesAux] at h
      rw [run_pure] at h
      simp only [Option.some.injEq, Except.ok.injEq] at h
      subst h
      rfl
  | cons line rest ih =>
    intro fuel cfg ls h
    cases fuel with
    | zero =>
      simp only [layoutLinesAux] at h
      rw [run_outOfFuel] at h
      cases h
    | succ f =>
      simp only [layoutLinesAux] at h
      rw [run_bind_ok] at h
      obtain ⟨lay, _, h⟩ := h
      rw [run_bind_ok] at h
      obtain ⟨rest', hrest, h⟩ := h
      rw [run_pure] at h
      simp only [Option.some.injEq, Except.ok.injEq] at h
      subst h
      simp [ih f cfg rest' hrest]

theorem substackJoin_contents_aux :
    ∀ (ps : List (Nat × Layout)) (gm gt : ℚ) (len : Nat) (b : VBoxBuilder),
      (∀ p ∈ ps, p.1 < len) →
      (ps.foldl
        (fun (vbox : VBoxBuilder) (p : Nat × Layout) =>
          let (idx, line) := p
          let prev := line.depth
          let vbox := vbox.add_node line.as_node
          if idx < len then
            vbox.add_node (vkern (max gm (gt - prev)))
          else vbox)
        b).contents
      = b.contents ++ (ps.map Prod.snd).flatMap
          (fun line => [line.as_node, vkern (max gm (gt - line.depth))]) := by
  intro ps
  induction ps with
  | nil => simp
  | cons p ps ih =>
    intro gm gt len b hlt
    rcases p with ⟨idx, line⟩
    simp only [List.foldl_cons]
    try dsimp only
    rw [if_pos (hlt (idx, line) (by simp))]
    rw [ih gm gt len _ (fun q hq => hlt q (by simp [hq]))]
    simp [VBoxBuilder.add_node, List.flatMap_cons, List.append_assoc]

theorem substackJoin_contents (gm gt : ℚ) (lines : List Layout) :
    (substackJoin gm gt lines.length lines).contents =
      substackExpectedContents gm gt lines := by
  unfold substackJoin substackExpectedContents
  rw [substackJoin_contents_aux _ gm gt lines.length {}
    (fun p hp => List.fst_lt_of_mem_enum hp)]
  simp [List.enum_map_snd]

theorem substackExpectedContents_length (gm gt : ℚ) (lines : List Layout) :
    (substackExpectedContents gm gt lines).length = 2 * lines.length := by
  unfold substackExpectedContents
  induction lines with
  | nil => simp
  | cons l ls ih =>
    simp only [List.flatMap_cons, List.length_append, ih, List.length_cons]
    simp
    ring

/-! ## Renderer run lemmas and the no-panic induction -/

theorem rrun_pure {α : Type} (a : α) :
    (pure a : RenderM α).run = some (.ok a) := rfl

theorem rrun_fuelOut {α : Type} : (renderFuelOut : RenderM α).run = none := rfl

theorem rrun_throw {α : Type} (e : RenderPanic) :
    (throw e : RenderM α).run = some (.error e) := rfl

theorem rrun_bind_error {α β : Type} (x : RenderM α) (f : α → RenderM β)
    (e : RenderPanic) :
    (x >>= f).run = some (.error e) ↔
      x.run = some (.error e) ∨
      ∃ a, x.run = some (.ok a) ∧ (f a).run = some (.error e) := by
  rcases x with _ | (e' | a) <;>
    simp [Bind.bind, ExceptT.bind, ExceptT.bindCont, ExceptT.run, ExceptT.mk,
      Option.bind]

theorem renderGood_zero : RenderGoodAt 0 := by
  refine ⟨?_, ?_, ?_, ?_⟩ <;>
  · intros
    intro e hcon
    simp only [renderHboxAux, renderHboxNodes, renderVboxAux, renderNodeAux] at hcon
    rw [rrun_fuelOut] at hcon
    cases hcon

theorem renderGood_succ (n : Nat) (IH : RenderGoodAt n) : RenderGoodAt (n + 1) := by
  refine ⟨?_, ?_, ?_, ?_⟩
  · -- renderHboxAux
    intro dbg px py nodes ht nw al hn e hcon
    simp only [renderHboxAux] at hcon
    rw [rrun_bind_error] at hcon
    rcases hcon with hcon | ⟨a, _, hp⟩
    · exact IH.nodesP _ _ _ _ hn e hcon
    · rw [rrun_pure] at hp
      simp at hp
  · -- renderHboxNodes
    intro dbg px py nodes hn e hcon
    cases nodes with
    | nil =>
      simp only [renderHboxNodes] at hcon
      rw [rrun_pure] at hcon
      simp at hcon
    | cons node rest =>
      simp only [renderHboxNodes] at hcon
      rw [rrun_bind_error] at hcon
      rcases hcon with hcon | ⟨a, _, hp⟩
      · exact IH.nodeP _ _ _ _ (hn node (by simp)) e hcon
      · rw [rrun_bind_error] at hp
        rcases hp with hp | ⟨b, _, hq⟩
        · exact IH.nodesP _ _ _ _ (fun c hc => hn c (by simp [hc])) e hp
        · rw [rrun_pure] at hq
          simp at hq
  · -- renderVboxAux
    intro dbg px py nodes hn hc e hcon
    cases nodes with
    | nil =>
      simp only [renderVboxAux] at hcon
      rw [rrun_pure] at hcon
      simp at hcon
    | cons node rest =>
      simp only [renderVboxAux] at hcon
      have hgood : GoodNode node := hn node (by simp)
      have hrest : ∀ c ∈ rest, GoodNode c := fun c hcm => hn c (by simp [hcm])
      have hcrest : ∀ c ∈ rest, isColorNode c = false :=
        fun c hcm => hc c (by simp [hcm])
      cases hgood with
      | glyph w h d g =>
        simp only [LayoutNode.node] at hcon
        rw [rrun_bind_error] at hcon
        rcases hcon with hcon | ⟨a, _, hp⟩
        · rw [rrun_pure] at hcon
          simp at hcon
        · rw [rrun_bind_error] at hp
          rcases hp with hp | ⟨b, _, hq⟩
          · exact IH.vboxP _ _ _ _ hrest hcrest e hp
          · rw [rrun_pure] at hq
            simp at hq
      | rule w h d =>
        simp only [LayoutNode.node] at hcon
        rw [rrun_bind_error] at hcon
        rcases hcon with hcon | ⟨a, _, hp⟩
        · rw [rrun_pure] at hcon
          simp at hcon
        · rw [rrun_bind_error] at hp
          rcases hp with hp | ⟨b, _, hq⟩
          · exact IH.vboxP _ _ _ _ hrest hcrest e hp
          · rw [rrun_pure] at hq
            simp at hq
      | kern w h d =>
        simp only [LayoutNode.node] at hcon
        rw [rrun_bind_error] at hcon
        rcases hcon with hcon | ⟨a, _, hp⟩
        · rw [rrun_pure] at hcon
          simp at hcon
        · rw [rrun_bind_error] at hp
          rcases hp with hp | ⟨b, _, hq⟩
          · exact IH.vboxP _ _ _ _ hrest hcrest e hp
          · rw [rrun_pure] at hq
            simp at hq
      | hbox w h d contents offset alignment hoff hw hh hd hk =>
        simp only [LayoutNode.node] at hcon
        rw [rrun_bind_error] at hcon
        rcases hcon with hcon | ⟨a, _, hp⟩
        · exact IH.hboxP _ _ _ _ _ _ _ hk e hcon
        · rw [rrun_bind_error] at hp
          rcases hp with hp | ⟨b, _, hq⟩
          · exact IH.vboxP _ _ _ _ hrest hcrest e hp
          · rw [rrun_pure] at hq
            simp at hq
      | vbox w h d contents offset alignment hcv hk =>
        simp only [LayoutNode.node] at hcon
        rw [rrun_bind_error] at hcon
        rcases hcon with hcon | ⟨a, ha, hp⟩
        · exact IH.vboxP _ _ _ _ hk hcv e hcon
        · rw [rrun_bind_error] at hp
          rcases hp with hp | ⟨b, _, hq⟩
          · rw [rrun_pure] at hp
            simp at hp
          · rw [rrun_bind_error] at hq
            rcases hq with hq | ⟨c, _, hr⟩
            · exact IH.vboxP _ _ _ _ hrest hcrest e hq
            · rw [rrun_pure] at hr
              simp at hr
      | color w h d clr inner hk =>
        have := hc _ (List.mem_cons_self _ _)
        simp [isColorNode, LayoutNode.node] at this
  · -- renderNodeAux
    intro dbg px py node hgood e hcon
    cases hgood with
    | glyph w h d g =>
      simp only [renderNodeAux, LayoutNode.node] at hcon
      rw [rrun_pure] at hcon
      simp at hcon
    | rule w h d =>
      simp only [renderNodeAux, LayoutNode.node] at hcon
      rw [rrun_pure] at hcon
      simp at hcon
    | kern w h d =>
      simp only [renderNodeAux, LayoutNode.node] at hcon
      rw [rrun_pure] at hcon
      simp at hcon
    | hbox w h d contents offset alignment hoff hw hh hd hk =>
      simp only [renderNodeAux, LayoutNode.node] at hcon
      exact IH.hboxP _ _ _ _ _ _ _ hk e hcon
    | vbox w h d contents offset alignment hcv hk =>
      simp only [renderNodeAux, LayoutNode.node] at hcon
      rw [rrun_bind_error] at hcon
      rcases hcon with hcon | ⟨b, _, hq⟩
      · exact IH.vboxP _ _ _ _ hk hcv e hcon
      · rw [rrun_pure] at hq
        simp at hq
    | color w h d clr inner hk =>
      simp only [renderNodeAux, LayoutNode.node] at hcon
      rw [rrun_bind_error] at hcon
      rcases hcon with hcon | ⟨b, _, hq⟩
      · exact IH.hboxP _ _ _ _ _ _ _ hk e hcon
      · rw [rrun_pure] at hq
        simp at hq

/-- The renderer reaches no panic at any fuel on engine-invariant
input. -/
theorem render_good : ∀ rfuel, RenderGoodAt rfuel := by
  intro rfuel
  induction rfuel with
  | zero => exact renderGood_zero
  | succ n ih => exact renderGood_succ n ih

/-! ## C2: color-name lookup -/

/-- C2.  The claim says `color_by_name` returns `Some(rgba)` for every
entry of the table because the table is sorted for the binary search.
In fact the table is *not* sorted by name (the first 17 entries are the
CSS basic colors in legacy order, and `rebeccapurple`, `phantom`,
`transparent` sit unsorted at the end), and the binary search misses 21
of the 150 entries, among them `black`, `red`, `phantom` and
`transparent` — while finding correctly placed names such as `brown`.
Every name absent from the table still returns `none`. -/
theorem from_name_misses_basic_colors :
    ("black", RGBA.mk 0 0 0 255) ∈ COLOR_MAP ∧
    ("transparent", RGBA.mk 0 0 0 0) ∈ COLOR_MAP ∧
    RGBA.from_name "black" = none ∧
    RGBA.from_name "red" = none ∧
    RGBA.from_name "transparent" = none ∧
    RGBA.from_name "brown" = some (RGBA.mk 165 42 42 255) ∧
    ((COLOR_MAP.map Prod.fst).get? 16 = some "orange" ∧
     (COLOR_MAP.map Prod.fst).get? 17 = some "aliceblue" ∧
     compare "orange" "aliceblue" = .gt) := by
  refine ⟨by decide, by decide, by decide, by decide, by decide, by decide,
    by decide, by decide, by decide⟩

/-! ## C4: fraction delimiter clearance -/

/-- C4, counterexample.  The clearance the fraction handler feeds to
`vert_variant` is `fracDelimClearance`; the claim says it equals the
Delimited handler's formula (`fracClearanceClaimed`, which is
`delimitedClearance` applied to the fraction box).  With the demo
constants and an inner box of height 1 and depth −1 at font size 1 the
two differ: 5/2 versus 901/400. -/
theorem frac_clearance_ne_delimited :
    fracDelimClearance demoConstants 1 1 (-1) = 5 / 2 ∧
    fracClearanceClaimed demoConstants 1 1 (-1) = 901 / 400 ∧
    delimitedClearance demoConstants 1 1 (-1) = 901 / 400 ∧
    fracDelimClearance demoConstants 1 1 (-1) ≠
      fracClearanceClaimed demoConstants 1 1 (-1) := by
  refine ⟨?_, ?_, ?_, ?_⟩ <;> with_unfolding_all decide

/-- C4, amended.  The clearance used for a fraction's delimiters is
`max(2·max(inner.height − axis, axis − inner.depth),
delimited_sub_formula_min_height · font_size)`: the doubled axis
clearance bounded below by the sub-formula minimum height, with no
delimiter factor and no short fall. -/
theorem frac_clearance_amended_eq :
    ∀ (c : Constants) (fs h d : ℚ),
      fracDelimClearance c fs h d = fracClearanceAmendedSpec c fs h d := by
  intro c fs h d
  simp [fracDelimClearance, fracClearanceAmendedSpec, mul_comm]

/-! ## C5: the Style order -/

/-- C5, counterexample.  The derived order on `Style` is the strict
declaration order: `DisplayCramped` ranks strictly below `Display`
(no tie), and the engine comparison `style >= Display` (used by the
radical handler) distinguishes `Display` from `DisplayCramped`. -/
theorem display_cramped_not_tied :
    Style.lt .DisplayCramped .Display = true ∧
    Style.discr .DisplayCramped ≠ Style.discr .Display ∧
    Style.le .Display .Display = true ∧
    Style.le .Display .DisplayCramped = false := by
  refine ⟨by decide, by decide, by decide, by decide⟩

/-- C5, amended.  The eight styles are totally ordered by declaration
order `ScriptScriptCramped < ScriptScript < ScriptCramped < Script <
TextCramped < Text < DisplayCramped < Display`; a cramped variant is
strictly below its normal form (never a tie).  The engine comparisons
`style > Text` and `style >= TextCramped` do treat a cramped style
like its normal form; `style >= Display` does not (`DisplayCramped`
fails it while `Display` passes). -/
theorem style_order_amended :
    (∀ s t : Style, Style.lt s t = true ↔ s.discr < t.discr) ∧
    (Style.lt .ScriptScriptCramped .ScriptScript = true ∧
     Style.lt .ScriptScript .ScriptCramped = true ∧
     Style.lt .ScriptCramped .Script = true ∧
     Style.lt .Script .TextCramped = true ∧
     Style.lt .TextCramped .Text = true ∧
     Style.lt .Text .DisplayCramped = true ∧
     Style.lt .DisplayCramped .Display = true) ∧
    (∀ s : Style, Style.lt s.cramped s = !s.is_cramped) ∧
    (∀ s : Style, Style.lt .Text s = Style.lt .Text s.cramped) ∧
    (∀ s : Style, Style.le .TextCramped s = Style.le .TextCramped s.cramped) ∧
    (Style.le .Display .Display = true ∧
     Style.le .Display (Style.cramped .Display) = false) := by
  refine ⟨by decide, by decide, by decide, by decide, by decide, by decide⟩

/-! ## C6: the atom spacing table -/

/-- C6.  `atom_space` only ever yields Thin = 1/6 em, Medium = 2/9 em,
Thick = 1/3 em or None; below `TextCramped` (script and script-script
styles) exactly the Operator-involving pairs
(Alpha,Op), (Op,Alpha), (Op,Op), (Close,Op), (Inner,Op) give Thin and
everything else None; at `TextCramped` and larger the Inner-left row
gives Thin except `Close → None`, `Binary → Medium`,
`Relation → Thick`, and the Punctuation-left row is all Thin. -/
theorem atom_space_table_spec :
    (Spacing.to_length .Thin = 1 / 6 ∧ Spacing.to_length .Medium = 2 / 9 ∧
     Spacing.to_length .Thick = 1 / 3 ∧ Spacing.to_length .None = 0) ∧
    (∀ (l r : AtomType) (s : Style), Style.lt s .TextCramped = true →
      atom_space l r s = if isOperatorPair l r then .Thin else .None) ∧
    (∀ (r : AtomType) (s : Style), Style.le .TextCramped s = true →
      atom_space .Inner r s =
        if r = .Close then .None
        else if r = .Binary then .Medium
        else if r = .Relation then .Thick
        else .Thin) ∧
    (∀ (r : AtomType) (s : Style), Style.le .TextCramped s = true →
      atom_space .Punctuation r s = .Thin) := by
  refine ⟨⟨?_, ?_, ?_, ?_⟩, by decide, by decide, by decide⟩ <;> with_unfolding_all decide

/-- Witness for the hypotheses of `atom_space_table_spec`: concrete
instances in script style and in display style. -/
theorem atom_space_table_spec_witness :
    atom_space .Alpha (.Operator true) .Script =
      (if isOperatorPair .Alpha (.Operator true) then .Thin else .None) ∧
    atom_space .Inner .Binary .Display =
      (if (AtomType.Binary : AtomType) = .Close then Spacing.None
       else if (AtomType.Binary : AtomType) = .Binary then .Medium
       else if (AtomType.Binary : AtomType) = .Relation then .Thick
       else .Thin) ∧
    atom_space .Punctuation .Relation .Text = .Thin :=
  ⟨atom_space_table_spec.2.1 .Alpha (.Operator true) .Script (by decide),
   atom_space_table_spec.2.2.1 .Binary .Display (by decide),
   atom_space_table_spec.2.2.2 .Relation .Text (by decide)⟩

/-! ## C7: binary coercion -/

/-- C7.  The engine's coercion (the if-chain of `layout_recurse`,
embedded as `binaryCoerce` and used at every step of `layoutLoopAux`)
reclassifies a `Binary` atom as `Alpha` exactly when the previous atom
is `Transparent`, `Binary`, `Relation`, `Open`, `Punctuation` or an
`Operator`, or the next atom (the next sibling's type, or the parent
context's — `Transparent` at top level — when last) is `Relation`,
`Close` or `Punctuation`. -/
theorem binary_coercion_exact :
    ∀ prev cur next : AtomType,
      binaryCoerce prev cur next =
        if cur = .Binary ∧
           (prev = .Transparent ∨ prev = .Binary ∨ prev = .Relation ∨
            prev = .Open ∨ prev = .Punctuation ∨ (∃ b, prev = .Operator b) ∨
            next = .Relation ∨ next = .Close ∨ next = .Punctuation)
        then .Alpha else cur := by
  decide

/-! ## C8: the Constants initializer -/

/-- C8.  `Constants::new` initializes `subscript_shift_down` from the
font's `subscript_top_max` constant, so the two cached fields are
always equal, and the font's actual `subscriptShiftDown` value is
never read (the result is unchanged under any overwrite of that
field). -/
theorem subscript_shift_down_is_top_max :
    ∀ (m : MathConstants) (u : ℚ),
      (Constants.new m u).subscript_shift_down =
        (Constants.new m u).subscript_top_max ∧
      ∀ v : ℚ,
        Constants.new { m with subscript_shift_down := v } u = Constants.new m u :=
  fun _ _ => ⟨rfl, fun _ => rfl⟩

/-! ## C1: font errors through `layout_node` -/

/-- C1.  A missing-codepoint error is surfaced by `layout` for a bare
symbol, but the very same error is silently dropped when the symbol is
the base of a `Scripts` node: `layout_node` (engine.rs lines 73-77)
discards the `Result` of `dispatch`, so the layout succeeds with an
empty base instead of returning
`Err(LayoutError::Font(MissingGlyphCodepoint('x')))`. -/
theorem scripts_base_font_error_dropped :
    demoCtx.glyph 120 = .error (.MissingGlyphCodepoint 120) ∧
    runError (layoutAux 100 bareMissingGlyph demoCfg) =
      some (.Font (.MissingGlyphCodepoint 120)) ∧
    runIsOk (layoutAux 100 scriptsMissingGlyph demoCfg) = true ∧
    runError (layoutAux 100 scriptsMissingGlyph demoCfg) = none := by
  refine ⟨rfl, by decide, by decide, by decide⟩

/-! ## C3: HBox dimension identities -/

/-- C3 (counterexample).  The claim says every `HorizontalBox` in
engine output has `width = Σ children.width` (and the height/depth
folds), explicitly including the widened numerator boxes of fractions.
The numerator box of `demoFraction` (numerator narrower than the
denominator) is an `HBox` of recorded width 5 whose children's widths
sum to 2: the width override of `frac` (engine.rs lines 497-503)
breaks the width clause while the box is re-aligned
`Centered(2)`. -/
theorem hbox_width_not_sum_of_children :
    nodeIsHBox demoWidenedNumer = true ∧
    demoWidenedNumer.width = 5 ∧
    sumWidths (nodeContents demoWidenedNumer) = 2 ∧
    nodeAlignment demoWidenedNumer = some (.Centered 2) := by
  refine ⟨?_, ?_, ?_, ?_⟩ <;> with_unfolding_all decide

/-- C3 (amended).  In every layout the engine returns, every
`HorizontalBox` anywhere in the tree has `height = max` and
`depth = min` of its children's heights/depths, and its width is the
children's width sum unless the box carries a `Centered` alignment
(exactly the boxes the engine re-aligned with an overridden width). -/
theorem hbox_dims_amended :
    ∀ fuel nodes cfg l, (layoutAux fuel nodes cfg).run = some (.ok l) →
      ∀ c ∈ l.contents, HBoxDimsOk c := by
  intro fuel nodes cfg l h c hc
  exact goodNode_hboxDimsOk (((engine_good fuel).layoutP _ _ _ h).2.2.2.2.2 c hc)

theorem hbox_dims_amended_witness :
    (layoutAux 100 demoFraction demoCfg).run = some (.ok demoFractionLayout) ∧
    ∀ c ∈ demoFractionLayout.contents, HBoxDimsOk c := by
  have h : (layoutAux 100 demoFraction demoCfg).run = some (.ok demoFractionLayout) := by
    with_unfolding_all rfl
  exact ⟨h, hbox_dims_amended 100 demoFraction demoCfg demoFractionLayout h⟩

/-! ## C9: the substack trailing kern -/

/-- C9.  For a non-empty `Stack`, the substack handler appends exactly
one node to the accumulator; that node's children are every
(re-centered) line followed by its inter-line kern of size
`max(gap_min, gap_try - line.depth)` — including a trailing kern after
the last line, because the source's guard `idx < length` holds for
every index — so the box has exactly `2·n` children for `n` lines. -/
theorem substack_trailing_kern (fuel : Nat) (acc : Layout)
    (lines : List (List ParseNode)) (cfg : LayoutSettings) (l : Layout)
    (lls : List Layout)
    (hne : ¬ lines.length = 0)
    (hlines : (layoutLinesAux fuel lines cfg).run = some (.ok lls))
    (h : (substackAux (fuel + 1) acc lines cfg).run = some (.ok l)) :
    ∃ N : LayoutNode,
      l.contents = acc.contents ++ [N] ∧
      nodeContents N =
        substackExpectedContents (substackGapMin cfg) (substackGapTry cfg)
          (substackCenterLines lls (substackWidest lls).1 (substackWidest lls).2) ∧
      (nodeContents N).length = 2 * lines.length := by
  simp only [substackAux] at h
  rw [if_neg hne] at h
  rw [run_bind_ok] at h
  obtain ⟨lls', hlls', h⟩ := h
  rw [hlines] at hlls'
  simp only [Option.some.injEq, Except.ok.injEq] at hlls'
  subst hlls'
  rw [run_pure] at h
  simp only [Option.some.injEq, Except.ok.injEq] at h
  subst h
  refine ⟨_, rfl, ?_, ?_⟩
  · show ((substackJoin _ _ _ _).set_offset _).contents = _
    rw [VBoxBuilder.set_offset]
    exact substackJoin_contents _ _ _
  · show (((substackJoin _ _ _ _).set_offset _).contents).length = _
    rw [VBoxBuilder.set_offset]
    rw [substackJoin_contents, substackExpectedContents_length,
      substackCenterLines_length, layoutLinesAux_length lines fuel cfg lls hlines]

theorem substack_trailing_kern_witness :
    ¬ ([[ParseNode.Kerning (Unit.Px 1)], [ParseNode.Kerning (Unit.Px 2)]] :
        List (List ParseNode)).length = 0 ∧
    (layoutLinesAux 99 [[ParseNode.Kerning (Unit.Px 1)],
        [ParseNode.Kerning (Unit.Px 2)]] demoCfg).run = some (.ok demoStackLines) ∧
    (substackAux 100 Layout.new [[ParseNode.Kerning (Unit.Px 1)],
        [ParseNode.Kerning (Unit.Px 2)]] demoCfg).run = some (.ok demoSubstackOut) ∧
    ∃ N : LayoutNode,
      demoSubstackOut.contents = Layout.new.contents ++ [N] ∧
      nodeContents N =
        substackExpectedContents (substackGapMin demoCfg) (substackGapTry demoCfg)
          (substackCenterLines demoStackLines (substackWidest demoStackLines).1
            (substackWidest demoStackLines).2) ∧
      (nodeContents N).length =
        2 * ([[ParseNode.Kerning (Unit.Px 1)], [ParseNode.Kerning (Unit.Px 2)]] :
          List (List ParseNode)).length := by
  have h1 : (layoutLinesAux 99 [[ParseNode.Kerning (Unit.Px 1)],
      [ParseNode.Kerning (Unit.Px 2)]] demoCfg).run = some (.ok demoStackLines) := by
    with_unfolding_all rfl
  have h2 : (substackAux 100 Layout.new [[ParseNode.Kerning (Unit.Px 1)],
      [ParseNode.Kerning (Unit.Px 2)]] demoCfg).run = some (.ok demoSubstackOut) := by
    with_unfolding_all rfl
  exact ⟨by decide, h1, h2,
    substack_trailing_kern 99 Layout.new _ demoCfg demoSubstackOut demoStackLines
      (by decide) h1 h2⟩

/-! ## C10: no Color inside a VerticalBox -/

/-- C10.  The renderer's vertical-box traversal really does panic on a
`Color` child (first conjunct: the concrete panic on a hand-built bad
node), but the branch is unreachable for engine output: every layout
the engine returns has no `Color` node as a direct child of any
`VerticalBox`, and rendering it (any fuel, debug on or off) never
reaches a panic. -/
theorem color_in_vbox_unreachable :
    (renderVboxAux 1 false 0 0 [colorInVBoxDemo]).run =
      some (.error .colorInVBox) ∧
    ∀ fuel nodes cfg l, (layoutAux fuel nodes cfg).run = some (.ok l) →
      (∀ c ∈ l.contents, NoColorInVBox c) ∧
      ∀ rfuel dbg, renderPanicked (renderLayout rfuel dbg l) = false := by
  constructor
  · with_unfolding_all rfl
  · intro fuel nodes cfg l h
    have hg := (engine_good fuel).layoutP _ _ _ h
    refine ⟨fun c hc => goodNode_noColorInVBox (hg.2.2.2.2.2 c hc), ?_⟩
    intro rfuel dbg
    have hok := (render_good rfuel).hboxP dbg 0 0 l.contents l.height l.width
      .Default hg.2.2.2.2.2
    unfold renderPanicked renderLayout
    cases hr : (renderHboxAux rfuel dbg 0 0 l.contents l.height l.width
        Alignment.Default).run with
    | none => rfl
    | some x =>
      cases x with
      | ok _ => rfl
      | error e => exact absurd hr (hok e)

theorem color_in_vbox_unreachable_witness :
    (layoutAux 100 demoStack demoCfg).run = some (.ok demoStackLayout) ∧
    (∀ c ∈ demoStackLayout.contents, NoColorInVBox c) ∧
    ∀ rfuel dbg, renderPanicked (renderLayout rfuel dbg demoStackLayout) = false := by
  have h : (layoutAux 100 demoStack demoCfg).run = some (.ok demoStackLayout) := by
    with_unfolding_all rfl
  have h2 := color_in_vbox_unreachable.2 100 demoStack demoCfg demoStackLayout h
  exact ⟨h, h2.1, h2.2⟩

end SubscriptDisplay
